import Mathlib

/-!
# Entity pool, scene tree and identifier lookup of `asteroids.cpp` / `player.cpp`

A shallow embedding of the entity-management core: the fixed-capacity pools with their
occupancy masks, the parent / child / sibling links, the identifier counter, the per-type
lifecycle hooks, and the wrap-around step of the frame update.

Conventions of the embedding.

* A pointer into a buffer is the index of the slot it designates; `Entity*` values are
  `NULL`, `&root_entity` or `&entity_buffer[i]`.
* An operation yields a `Res`: it returns (`ok`), it stops the process (`fatal`: a failed
  `assert`, the dereference of a pointer that designates no object, or call-stack
  exhaustion), or it never leaves a loop (`hang`).  `fatal` and `hang` carry the state at
  the moment the operation stopped, so that what had already been written is visible.
* `int` counters are integers reduced to 32-bit two's complement after each increment.
* `printf` output is not part of the state.
* `float` members are rationals.  The wrap-around step is also given on `float` coordinates
  as the comparisons see them (`Coordinate`: a number, an infinity or a NaN), since a NaN
  passes every comparison unchanged.
* `laser.cpp` is not among the sources: the create and destroy hooks of the laser are a
  parameter (`LaserHooks`) of every operation that can dispatch to them, and of the laser
  pool only the occupancy mask is kept.
* The matrix library is not among the sources either: the type `Matrix4`,
  `make_transform_matrix` and the matrix product are a parameter (`MatrixOps`) of the
  hierarchy rebuild, and the `transform` members are kept beside the state, in a `Scene`.
-/

namespace Asteroids

/-! ## Data model -/

/-- Capacity of `entity_buffer` (asteroids.cpp:78). -/
def ENTITY_COUNT : Nat := 512

/-- Capacity of `player_buffer` (asteroids.cpp:79). -/
def PLAYER_COUNT : Nat := 1

/-- Capacity of `laser_buffer` (asteroids.cpp:80). -/
def LASER_COUNT : Nat := 32

/-- The enum `Entity_Type` (asteroids.cpp:16-20). -/
inductive Entity_Type where
  | NONE
  | PLAYER
  | LASER
  deriving DecidableEq

/-- An `Entity*`: `NULL`, `&root_entity`, or `&entity_buffer[i]`. -/
inductive EntityPtr where
  | null
  | root
  | slot (i : Nat)
  deriving DecidableEq

/-- The anonymous union `derived / player / laser` of `Entity` (asteroids.cpp:58-62):
`NULL`, `&player_buffer[k]`, or `&laser_buffer[k]`. -/
inductive PayloadPtr where
  | null
  | player (k : Nat)
  | laser (k : Nat)
  deriving DecidableEq

/-- The value of a hook field (`create`, `destroy`, `update`) when it is not `NULL`: the
function of that name generated for the player (`create_player`, ...) or for the laser. -/
inductive Hook where
  | player
  | laser
  deriving DecidableEq

/-- A `Sprite*`: `NULL` or the address of one of the sprites the sources name. -/
inductive SpritePtr where
  | null
  | ship_sprite
  | thrust_sprite
  deriving DecidableEq

/-- The type `Vector2`, coordinates taken as exact numbers. -/
structure Vector2 where
  x : ℚ := 0
  y : ℚ := 0
  deriving DecidableEq

/-- The struct `Entity` (asteroids.cpp:36-63) with its default member initialisers.  The
`transform` matrix is derived data of the hierarchy rebuild and is not stored here. -/
structure Entity where
  id : Int := -1
  type : Entity_Type := Entity_Type.NONE
  parent : EntityPtr := EntityPtr.null
  child : EntityPtr := EntityPtr.null
  sibling : EntityPtr := EntityPtr.null
  position : Vector2 := {}
  orientation : ℚ := 0
  scale : ℚ := 1
  sprite : SpritePtr := SpritePtr.null
  sprite_size : ℚ := 1
  is_visible : Bool := true
  create : Option Hook := none
  destroy : Option Hook := none
  update : Option Hook := none
  derived : PayloadPtr := PayloadPtr.null
  deriving DecidableEq

/-- The struct `Player` (player.cpp:1-10) with its default member initialisers. -/
structure Player where
  left_thrust_id : Int := -1
  right_thrust_id : Int := -1
  velocity : Vector2 := {}
  desired_direction : Vector2 := {}
  last_mouse_x : Int := 0
  last_mouse_y : Int := 0
  deriving DecidableEq

/-- The globals of asteroids.cpp:65-85.  The contents of `laser_buffer` are left out (the
struct `Laser` is declared in `laser.cpp`).  `ghost_creates` and `ghost_destroys` are not in
the source: they count the `create_entity` / `destroy_entity` invocations that have
returned. -/
structure State where
  root_entity : Entity
  entity_buffer : Nat → Entity
  entity_buffer_mask : Nat → Bool
  player_buffer : Nat → Player
  player_buffer_mask : Nat → Bool
  laser_buffer_mask : Nat → Bool
  next_entity_id : Int
  active_entities : Int
  ghost_creates : Nat
  ghost_destroys : Nat

/-- Why an operation stopped the process. -/
inductive Fault where
  | assertion (line : Nat)
  | bad_pointer
  | stack_overflow
  deriving DecidableEq

/-- Outcome of an operation, together with the state it leaves. -/
inductive Res (α : Type) where
  | ok (s : State) (a : α)
  | fatal (s : State) (f : Fault)
  | hang (s : State)

/-- The hooks `create_laser` and `destroy_laser` of `laser.cpp`, which is not among the
sources; each receives the entity's slot index. -/
structure LaserHooks where
  create_laser : Nat → State → Res Unit
  destroy_laser : Nat → State → Res Unit

/-- The state after static initialisation: every mask entry false, both counters zero. -/
def initial_state : State where
  root_entity := {}
  entity_buffer := fun _ => {}
  entity_buffer_mask := fun _ => false
  player_buffer := fun _ => {}
  player_buffer_mask := fun _ => false
  laser_buffer_mask := fun _ => false
  next_entity_id := 0
  active_entities := 0
  ghost_creates := 0
  ghost_destroys := 0

/-! ## Memory access -/

/-- Array update `f[i] = v`. -/
def upd {α : Type} (f : Nat → α) (i : Nat) (v : α) : Nat → α :=
  fun j => if j = i then v else f j

/-- Reduction of an integer to the 32-bit two's-complement range of `int`. -/
def wrap32 (x : Int) : Int := (x + 2147483648) % 4294967296 - 2147483648

/-- Dereference `*p`; `none` for `NULL`. -/
def State.deref (s : State) : EntityPtr → Option Entity
  | EntityPtr.null => none
  | EntityPtr.root => some s.root_entity
  | EntityPtr.slot i => some (s.entity_buffer i)

/-- Store `*p = e` (no effect through `NULL`, which every caller has excluded). -/
def State.store (s : State) (p : EntityPtr) (e : Entity) : State :=
  match p with
  | EntityPtr.null => s
  | EntityPtr.root => { s with root_entity := e }
  | EntityPtr.slot i => { s with entity_buffer := upd s.entity_buffer i e }

/-- In-place update of the entity `p` designates. -/
def State.modify (s : State) (p : EntityPtr) (f : Entity → Entity) : State :=
  match s.deref p with
  | none => s
  | some e => s.store p (f e)

/-- The slot is within the entity pool and its mask entry is set. -/
def State.live (s : State) (i : Nat) : Prop :=
  i < ENTITY_COUNT ∧ s.entity_buffer_mask i = true

instance (s : State) (i : Nat) : Decidable (s.live i) := by
  unfold State.live; infer_instance

/-! ## `create_entity` (asteroids.cpp:87-168) and `create_player` (player.cpp:12-31) -/

/-- The scan `for (i = 0; i < count; i++) { if (mask[i]) continue; ... break; }` of
asteroids.cpp:89-95 and 129-135: the first index from `i` on, among `n`, whose mask entry is
clear. -/
def scan_free (mask : Nat → Bool) : Nat → Nat → Option Nat
  | 0, _ => none
  | n + 1, i => if mask i = true then scan_free mask n (i + 1) else some i

/-- Lines 91-100: mark slot `i`, placement-new a default `Entity` there, set id and type. -/
def alloc_entity (s : State) (i : Nat) (type : Entity_Type) : State :=
  { s with
    entity_buffer_mask := upd s.entity_buffer_mask i true
    entity_buffer := upd s.entity_buffer i { id := s.next_entity_id, type := type } }

/-- Lines 102-107: the two assertions on a non-root parent; `none` when they pass.  The
index of a `NULL` parent is not defined. -/
def check_parent (s : State) : EntityPtr → Option Fault
  | EntityPtr.root => none
  | EntityPtr.null => some Fault.bad_pointer
  | EntityPtr.slot k =>
    if ¬ k < ENTITY_COUNT then some (Fault.assertion 105)
    else if s.entity_buffer_mask k = true then none else some (Fault.assertion 106)

/-- Number of iterations granted to a walk along sibling links.  A walk that visits more
nodes than the root and the pool slots together has visited one twice, so it never ends. -/
def WALK_FUEL : Nat := ENTITY_COUNT + 1

/-- Lines 113-115: `while (child->sibling) child = child->sibling;` started at `child`.
Result: the last node (`some (some p)`), a `NULL` dereference (`some none`), or no exit
within the fuel (`none`). -/
def last_sibling (s : State) : Nat → EntityPtr → Option (Option EntityPtr)
  | 0, _ => none
  | n + 1, child =>
    match s.deref child with
    | none => some none
    | some c => if c.sibling = EntityPtr.null then some (some child) else last_sibling s n c.sibling

/-- Lines 109-121: set the parent link and append the entity at the tail of the parent's
child chain. -/
def link_child (s : State) (parent : EntityPtr) (i : Nat) : Res Unit :=
  let s1 := s.modify (EntityPtr.slot i) (fun e => { e with parent := parent })
  match s1.deref parent with
  | none => Res.fatal s1 Fault.bad_pointer
  | some p =>
    if p.child ≠ EntityPtr.null then
      match last_sibling s1 WALK_FUEL p.child with
      | none => Res.hang s1
      | some none => Res.fatal s1 Fault.bad_pointer
      | some (some tail) =>
        Res.ok (s1.modify tail (fun e => { e with sibling := EntityPtr.slot i })) ()
    else
      Res.ok (s1.modify parent (fun e => { e with child := EntityPtr.slot i })) ()

/-- Lines 123-154: the `switch` on the type.  `create_entity_case` binds the three hooks and
scans the type's payload pool; when the pool has no free slot the loop ends without a
payload and without an assertion, and the payload pointer keeps its default `NULL`. -/
def bind_type (s : State) (i : Nat) : State :=
  match (s.entity_buffer i).type with
  | Entity_Type.NONE => s
  | Entity_Type.PLAYER =>
    let s1 := s.modify (EntityPtr.slot i) (fun e =>
      { e with create := some Hook.player, destroy := some Hook.player, update := some Hook.player })
    match scan_free s1.player_buffer_mask PLAYER_COUNT 0 with
    | none => s1
    | some k =>
      { s1 with
        player_buffer_mask := upd s1.player_buffer_mask k true
        player_buffer := upd s1.player_buffer k {}
        entity_buffer := upd s1.entity_buffer i
          { s1.entity_buffer i with derived := PayloadPtr.player k } }
  | Entity_Type.LASER =>
    let s1 := s.modify (EntityPtr.slot i) (fun e =>
      { e with create := some Hook.laser, destroy := some Hook.laser, update := some Hook.laser })
    match scan_free s1.laser_buffer_mask LASER_COUNT 0 with
    | none => s1
    | some k =>
      { s1 with
        laser_buffer_mask := upd s1.laser_buffer_mask k true
        entity_buffer := upd s1.entity_buffer i
          { s1.entity_buffer i with derived := PayloadPtr.laser k } }

/-- Lines 160-161: both counters are incremented. -/
def bump_counters (s : State) : State :=
  { s with
    next_entity_id := wrap32 (s.next_entity_id + 1)
    active_entities := wrap32 (s.active_entities + 1) }

/-- Line 13: `entity->sprite = &ship_sprite`. -/
def set_ship_sprite (e : Entity) : Entity :=
  { e with sprite := SpritePtr.ship_sprite }

/-- Lines 16-20 and 23-27: position, sprite, size and visibility of a thruster, `x` being
the first coordinate (`-0.3f` left, `0.3f` right; the second is `-0.5f`). -/
def set_thruster (x : ℚ) (e : Entity) : Entity :=
  { e with position := { x := x, y := -1 / 2 }, sprite := SpritePtr.thrust_sprite,
           sprite_size := 1 / 2, is_visible := false }

/-- Lines 29-30: store the identifiers of both thrusters in the payload at slot `k`. -/
def store_thrust_ids (s : State) (k left_thrust right_thrust : Nat) : State :=
  let payload : Player :=
    { s.player_buffer k with
      left_thrust_id := (s.entity_buffer left_thrust).id
      right_thrust_id := (s.entity_buffer right_thrust).id }
  { s with player_buffer := upd s.player_buffer k payload }

/-- The function `create_player` of player.cpp:12-31; `create` stands for `create_entity`.
A payload pointer that is `NULL` (or not a player payload) cannot be written through. -/
def create_player (create : Entity_Type → EntityPtr → State → Res Nat)
    (entity : Nat) (s : State) : Res Unit :=
  let s1 := s.modify (EntityPtr.slot entity) set_ship_sprite
  match create Entity_Type.NONE (EntityPtr.slot entity) s1 with
  | Res.fatal t f => Res.fatal t f
  | Res.hang t => Res.hang t
  | Res.ok s2 left_thrust =>
    let s3 := s2.modify (EntityPtr.slot left_thrust) (set_thruster (-3 / 10))
    match create Entity_Type.NONE (EntityPtr.slot entity) s3 with
    | Res.fatal t f => Res.fatal t f
    | Res.hang t => Res.hang t
    | Res.ok s4 right_thrust =>
      let s5 := s4.modify (EntityPtr.slot right_thrust) (set_thruster (3 / 10))
      match (s5.entity_buffer entity).derived with
      | PayloadPtr.player k => Res.ok (store_thrust_ids s5 k left_thrust right_thrust) ()
      | _ => Res.fatal s5 Fault.bad_pointer

/-- Depth granted to the recursion between an operation and the hooks it runs, and to the
recursion of the hierarchy rebuild; a call made with no depth left stands for the exhaustion
of the call stack. -/
def CALL_DEPTH : Nat := ENTITY_COUNT + 2

/-- Ghost step: one more `create_entity` invocation has returned. -/
def note_created (s : State) : State :=
  { s with ghost_creates := s.ghost_creates + 1 }

/-- Ghost step: one more `destroy_entity` invocation has returned. -/
def note_destroyed (s : State) : State :=
  { s with ghost_destroys := s.ghost_destroys + 1 }

/-- Lines 88-161 of `create_entity`: everything it does before it runs the create hook.
Returns the slot index of the new entity. -/
def allocate (type : Entity_Type) (parent : EntityPtr) (s : State) : Res Nat :=
  match scan_free s.entity_buffer_mask ENTITY_COUNT 0 with
  | none => Res.fatal s (Fault.assertion 97)
  | some i =>
    let s1 := alloc_entity s i type
    match check_parent s1 parent with
    | some f => Res.fatal s1 f
    | none =>
      match link_child s1 parent i with
      | Res.fatal t f => Res.fatal t f
      | Res.hang t => Res.hang t
      | Res.ok s2 _ => Res.ok (bump_counters (bind_type s2 i)) i

/-- The function `create_entity` of asteroids.cpp:87-168, with the remaining call depth as
first argument: `allocate`, then the create hook if one was bound (lines 163-165).  It
returns the slot index of the new entity. -/
def create_entity_aux (L : LaserHooks) : Nat → Entity_Type → EntityPtr → State → Res Nat
  | 0, _, _, s => Res.fatal s Fault.stack_overflow
  | d + 1, type, parent, s =>
    match allocate type parent s with
    | Res.fatal t f => Res.fatal t f
    | Res.hang t => Res.hang t
    | Res.ok s4 i =>
      let hooked : Res Unit :=
        match (s4.entity_buffer i).create with
        | none => Res.ok s4 ()
        | some Hook.player => create_player (create_entity_aux L d) i s4
        | some Hook.laser => L.create_laser i s4
      match hooked with
      | Res.fatal t f => Res.fatal t f
      | Res.hang t => Res.hang t
      | Res.ok s5 _ => Res.ok (note_created s5) i

/-- The function `create_entity`. -/
def create_entity (L : LaserHooks) (type : Entity_Type) (parent : EntityPtr) (s : State) :
    Res Nat :=
  create_entity_aux L CALL_DEPTH type parent s

/-! ## `find_entity` (asteroids.cpp:225-237) -/

/-- Lines 227-233: the first index from `i` on, among `n`, that is live and carries `id`. -/
def scan_id (s : State) (id : Int) : Nat → Nat → Option Nat
  | 0, _ => none
  | n + 1, i =>
    if s.entity_buffer_mask i = true ∧ (s.entity_buffer i).id = id then some i
    else scan_id s id n (i + 1)

/-- The function `find_entity`; it returns the slot index of the entity found. -/
def find_entity (id : Int) (s : State) : Res Nat :=
  match scan_id s id ENTITY_COUNT 0 with
  | none => Res.fatal s (Fault.assertion 235)
  | some i => Res.ok s i

/-! ## `destroy_entity` (asteroids.cpp:170-223) and `destroy_player` (player.cpp:33-39) -/

/-- Lines 180-203: the `switch` that gives the payload slot back.  A payload pointer that
does not point into the buffer of the entity's type has no defined index. -/
def release_payload (s : State) (i : Nat) : Res Unit :=
  match (s.entity_buffer i).type with
  | Entity_Type.NONE => Res.ok s ()
  | Entity_Type.PLAYER =>
    match (s.entity_buffer i).derived with
    | PayloadPtr.player k =>
      if ¬ k < PLAYER_COUNT then Res.fatal s (Fault.assertion 184)
      else if s.player_buffer_mask k = true then
        Res.ok { s with player_buffer_mask := upd s.player_buffer_mask k false } ()
      else Res.fatal s (Fault.assertion 185)
    | _ => Res.fatal s Fault.bad_pointer
  | Entity_Type.LASER =>
    match (s.entity_buffer i).derived with
    | PayloadPtr.laser k =>
      if ¬ k < LASER_COUNT then Res.fatal s (Fault.assertion 184)
      else if s.laser_buffer_mask k = true then
        Res.ok { s with laser_buffer_mask := upd s.laser_buffer_mask k false } ()
      else Res.fatal s (Fault.assertion 185)
    | _ => Res.fatal s Fault.bad_pointer

/-- Lines 211-214: `while (child->sibling != entity) child = child->sibling;` started at
`child`.  Result as for `last_sibling`. -/
def find_previous (s : State) (entity : EntityPtr) : Nat → EntityPtr → Option (Option EntityPtr)
  | 0, _ => none
  | n + 1, child =>
    match s.deref child with
    | none => some none
    | some c => if c.sibling ≠ entity then find_previous s entity n c.sibling else some (some child)

/-- Lines 207-217: take the entity out of its parent's child chain. -/
def unlink_child (s : State) (i : Nat) : Res Unit :=
  let e := s.entity_buffer i
  match s.deref e.parent with
  | none => Res.fatal s Fault.bad_pointer
  | some p =>
    if p.child = EntityPtr.slot i then
      Res.ok (s.modify e.parent (fun q => { q with child := e.sibling })) ()
    else
      match find_previous s (EntityPtr.slot i) WALK_FUEL p.child with
      | none => Res.hang s
      | some none => Res.fatal s Fault.bad_pointer
      | some (some prev) => Res.ok (s.modify prev (fun q => { q with sibling := e.sibling })) ()

/-- Lines 221-222: clear the mask entry and decrement the live counter. -/
def release_entity (s : State) (i : Nat) : State :=
  { s with
    entity_buffer_mask := upd s.entity_buffer_mask i false
    active_entities := wrap32 (s.active_entities - 1) }

/-- The function `destroy_player` of player.cpp:33-39; `destroy` stands for
`destroy_entity`.  Both lookups are made before the first destruction. -/
def destroy_player (destroy : EntityPtr → State → Res Unit) (entity : Nat) (s : State) :
    Res Unit :=
  match (s.entity_buffer entity).derived with
  | PayloadPtr.player k =>
    match find_entity (s.player_buffer k).left_thrust_id s with
    | Res.fatal t f => Res.fatal t f
    | Res.hang t => Res.hang t
    | Res.ok s1 left_thrust =>
      match find_entity (s1.player_buffer k).right_thrust_id s1 with
      | Res.fatal t f => Res.fatal t f
      | Res.hang t => Res.hang t
      | Res.ok s2 right_thrust =>
        match destroy (EntityPtr.slot left_thrust) s2 with
        | Res.fatal t f => Res.fatal t f
        | Res.hang t => Res.hang t
        | Res.ok s3 _ => destroy (EntityPtr.slot right_thrust) s3
  | _ => Res.fatal s Fault.bad_pointer

/-- Lines 180-222 of `destroy_entity`: everything it does after the destroy hook has
returned. -/
def reclaim (i : Nat) (s : State) : Res Unit :=
  match release_payload s i with
  | Res.fatal t f => Res.fatal t f
  | Res.hang t => Res.hang t
  | Res.ok s2 _ =>
    match unlink_child s2 i with
    | Res.fatal t f => Res.fatal t f
    | Res.hang t => Res.hang t
    | Res.ok s3 _ => Res.ok (release_entity s3 i) ()

/-- The function `destroy_entity` of asteroids.cpp:170-223, with the remaining call depth
as first argument: the two assertions, the destroy hook if one is bound, then `reclaim`.
A pointer that is not into `entity_buffer` has no defined index. -/
def destroy_entity_aux (L : LaserHooks) : Nat → EntityPtr → State → Res Unit
  | 0, _, s => Res.fatal s Fault.stack_overflow
  | _ + 1, EntityPtr.null, s => Res.fatal s Fault.bad_pointer
  | _ + 1, EntityPtr.root, s => Res.fatal s Fault.bad_pointer
  | d + 1, EntityPtr.slot i, s =>
    if ¬ i < ENTITY_COUNT then Res.fatal s (Fault.assertion 173)
    else if ¬ s.entity_buffer_mask i = true then Res.fatal s (Fault.assertion 174)
    else
      let hooked : Res Unit :=
        match (s.entity_buffer i).destroy with
        | none => Res.ok s ()
        | some Hook.player => destroy_player (destroy_entity_aux L d) i s
        | some Hook.laser => L.destroy_laser i s
      match hooked with
      | Res.fatal t f => Res.fatal t f
      | Res.hang t => Res.hang t
      | Res.ok s1 _ =>
        match reclaim i s1 with
        | Res.fatal t f => Res.fatal t f
        | Res.hang t => Res.hang t
        | Res.ok s4 _ => Res.ok (note_destroyed s4) ()

/-- The function `destroy_entity`. -/
def destroy_entity (L : LaserHooks) (entity : EntityPtr) (s : State) : Res Unit :=
  destroy_entity_aux L CALL_DEPTH entity s

/-! ## Wrap-around step of `update_asteroids` (asteroids.cpp:303-306) -/

/-- The four statements of asteroids.cpp:303-306 applied to a position whose coordinates
are numbers, in source order.  The bounds are parameters: asteroids.cpp:1-7 derives them
from window constants that are not among the sources.  The same statements on `float`
coordinates, NaN and infinities included, are `wrap_float_position`. -/
def wrap_position (WORLD_LEFT WORLD_RIGHT WORLD_BOTTOM WORLD_TOP : ℚ) (p : Vector2) : Vector2 :=
  let p1 : Vector2 := if p.x < WORLD_LEFT then { p with x := WORLD_RIGHT } else p
  let p2 : Vector2 := if p1.x > WORLD_RIGHT then { p1 with x := WORLD_LEFT } else p1
  let p3 : Vector2 := if p2.y < WORLD_BOTTOM then { p2 with y := WORLD_TOP } else p2
  let p4 : Vector2 := if p3.y > WORLD_TOP then { p3 with y := WORLD_BOTTOM } else p3
  p4

/-! ## The wrap-around step on `float` coordinates -/

/-- A `float` value as the comparisons of asteroids.cpp:303-306 see it: a number (every
finite `float` is a rational), one of the two infinities, or a NaN. -/
inductive Coordinate where
  | number (q : ℚ)
  | pos_inf
  | neg_inf
  | nan
  deriving DecidableEq

/-- The comparison `c < bound` of a `float` with a bound that is a number: false when `c`
is a NaN. -/
def Coordinate.below (c : Coordinate) (bound : ℚ) : Bool :=
  match c with
  | Coordinate.number q => decide (q < bound)
  | Coordinate.pos_inf => false
  | Coordinate.neg_inf => true
  | Coordinate.nan => false

/-- The comparison `c > bound` of a `float` with a bound that is a number: false when `c`
is a NaN. -/
def Coordinate.above (c : Coordinate) (bound : ℚ) : Bool :=
  match c with
  | Coordinate.number q => decide (q > bound)
  | Coordinate.pos_inf => true
  | Coordinate.neg_inf => false
  | Coordinate.nan => false

/-- The type `Vector2` with its two `float` members as such, NaN and infinities included. -/
structure FloatVector2 where
  x : Coordinate
  y : Coordinate
  deriving DecidableEq

/-- The four statements of asteroids.cpp:303-306 applied to a position with `float`
coordinates, in source order; the bounds are numbers. -/
def wrap_float_position (WORLD_LEFT WORLD_RIGHT WORLD_BOTTOM WORLD_TOP : ℚ)
    (p : FloatVector2) : FloatVector2 :=
  let p1 : FloatVector2 :=
    if p.x.below WORLD_LEFT = true then { p with x := Coordinate.number WORLD_RIGHT } else p
  let p2 : FloatVector2 :=
    if p1.x.above WORLD_RIGHT = true then { p1 with x := Coordinate.number WORLD_LEFT } else p1
  let p3 : FloatVector2 :=
    if p2.y.below WORLD_BOTTOM = true then { p2 with y := Coordinate.number WORLD_TOP } else p2
  let p4 : FloatVector2 :=
    if p3.y.above WORLD_TOP = true then { p3 with y := Coordinate.number WORLD_BOTTOM } else p3
  p4

/-- The coordinate is a number between the two bounds, the bounds included. -/
def Coordinate.within (c : Coordinate) (low high : ℚ) : Prop :=
  match c with
  | Coordinate.number q => low ≤ q ∧ q ≤ high
  | _ => False

/-- The position with number coordinates, as a position with `float` coordinates. -/
def Vector2.to_float (p : Vector2) : FloatVector2 :=
  { x := Coordinate.number p.x, y := Coordinate.number p.y }

/-! ## `build_entity_hierarchy` (asteroids.cpp:259-273) -/

/-- The matrix primitives that `build_entity_hierarchy` calls and that are not among the
sources: `make_transform_matrix(position, orientation, scale)` and the product of two
`Matrix4`.  The type `Matrix4` is the parameter `M`. -/
structure MatrixOps (M : Type) where
  make_transform_matrix : Vector2 → ℚ → ℚ → M
  mul : M → M → M

/-- The globals together with the `transform` member of `root_entity` and of every element
of `entity_buffer`, the member that `Entity` leaves out. -/
structure Scene (M : Type) where
  state : State
  root_transform : M
  transform : Nat → M

/-- The `transform` member of the entity `p` designates; `none` for `NULL`. -/
def Scene.transform_of {M : Type} (sc : Scene M) : EntityPtr → Option M
  | EntityPtr.null => none
  | EntityPtr.root => some sc.root_transform
  | EntityPtr.slot i => some (sc.transform i)

/-- The assignment `p->transform = m` (no effect through `NULL`, which the caller has
excluded). -/
def Scene.set_transform {M : Type} (sc : Scene M) (p : EntityPtr) (m : M) : Scene M :=
  match p with
  | EntityPtr.null => sc
  | EntityPtr.root => { sc with root_transform := m }
  | EntityPtr.slot i => { sc with transform := upd sc.transform i m }

/-- Line 260: the local transform of an entity, from its position, orientation and scale. -/
def local_transform {M : Type} (ops : MatrixOps M) (e : Entity) : M :=
  ops.make_transform_matrix e.position e.orientation e.scale

/-- Lines 260-266: the value assigned to `entity->transform`: the product of the parent's
transform, as it is stored at that moment, and the local transform when the parent link is
not `NULL`, the local transform alone when it is. -/
def entity_transform {M : Type} (ops : MatrixOps M) (sc : Scene M) (e : Entity) : M :=
  match sc.transform_of e.parent with
  | some parent_transform => ops.mul parent_transform (local_transform ops e)
  | none => local_transform ops e

/-- Outcome of the hierarchy rebuild: it returns, it stops the process, or it never leaves
a loop. -/
inductive Built (α : Type) where
  | ok (a : α)
  | fatal (f : Fault)
  | hang

/-- Lines 268-272: `while (child) { build_entity_hierarchy(child); child = child->sibling; }`
started at `child`; `build` stands for `build_entity_hierarchy`.  The first argument is the
number of iterations granted, as for `last_sibling`. -/
def build_children {M : Type} (build : EntityPtr → Scene M → Built (Scene M)) :
    Nat → EntityPtr → Scene M → Built (Scene M)
  | 0, _, _ => Built.hang
  | n + 1, child, sc =>
    if child = EntityPtr.null then Built.ok sc
    else
      match build child sc with
      | Built.fatal f => Built.fatal f
      | Built.hang => Built.hang
      | Built.ok sc1 =>
        match sc1.state.deref child with
        | none => Built.fatal Fault.bad_pointer
        | some c => build_children build n c.sibling sc1

/-- The function `build_entity_hierarchy` of asteroids.cpp:259-273, with the remaining call
depth as first argument. -/
def build_entity_hierarchy_aux {M : Type} (ops : MatrixOps M) :
    Nat → EntityPtr → Scene M → Built (Scene M)
  | 0, _, _ => Built.fatal Fault.stack_overflow
  | d + 1, entity, sc =>
    match sc.state.deref entity with
    | none => Built.fatal Fault.bad_pointer
    | some e =>
      build_children (build_entity_hierarchy_aux ops d) WALK_FUEL e.child
        (sc.set_transform entity (entity_transform ops sc e))

/-- The function `build_entity_hierarchy`. -/
def build_entity_hierarchy {M : Type} (ops : MatrixOps M) (entity : EntityPtr)
    (sc : Scene M) : Built (Scene M) :=
  build_entity_hierarchy_aux ops CALL_DEPTH entity sc

/-! ## Observations used by the statements -/

/-- Laser hooks that do nothing; used to run the operations on concrete states. -/
def idle_lasers : LaserHooks where
  create_laser := fun _ s => Res.ok s ()
  destroy_laser := fun _ s => Res.ok s ()

/-- State carried by an outcome. -/
def Res.state {α : Type} : Res α → State
  | Res.ok s _ => s
  | Res.fatal s _ => s
  | Res.hang s => s

/-- Value returned, if the operation returned. -/
def Res.value {α : Type} : Res α → Option α
  | Res.ok _ a => some a
  | _ => none

/-- The fault, if the operation stopped the process. -/
def Res.fault {α : Type} : Res α → Option Fault
  | Res.fatal _ f => some f
  | _ => none

/-- The child pointer of the entity `p` designates (`NULL` through `NULL`). -/
def State.child_of (s : State) (p : EntityPtr) : EntityPtr :=
  match s.deref p with
  | none => EntityPtr.null
  | some e => e.child

/-- The parent pointer of the entity `p` designates (`NULL` through `NULL`). -/
def State.parent_of (s : State) (p : EntityPtr) : EntityPtr :=
  match s.deref p with
  | none => EntityPtr.null
  | some e => e.parent

/-- The sibling chain that starts at `p` visits exactly the slots of `l`, in order, and then
ends in `NULL`. -/
def Chain (s : State) : EntityPtr → List Nat → Prop
  | p, [] => p = EntityPtr.null
  | p, i :: l => p = EntityPtr.slot i ∧ Chain s (s.entity_buffer i).sibling l

instance Chain.decidable (s : State) :
    (p : EntityPtr) → (l : List Nat) → Decidable (Chain s p l)
  | p, [] => by unfold Chain; infer_instance
  | p, i :: l => by
    unfold Chain
    have := Chain.decidable s (s.entity_buffer i).sibling l
    infer_instance

/-- The node reached from `p` after `n` parent links. -/
def ancestor (s : State) : Nat → EntityPtr → EntityPtr
  | 0, p => p
  | n + 1, p => ancestor s n (s.parent_of p)

/-- Number of set entries among the first `n` of a mask. -/
def occupancy (mask : Nat → Bool) (n : Nat) : Nat :=
  ((List.range n).filter (fun i => mask i)).length

/-- An entity with its three tree links blanked: the fields no tree operation writes. -/
def Entity.data (e : Entity) : Entity :=
  { e with parent := EntityPtr.null, child := EntityPtr.null, sibling := EntityPtr.null }

/-- The two states agree on everything except the tree links of the entities. -/
structure SameData (s t : State) : Prop where
  mask : t.entity_buffer_mask = s.entity_buffer_mask
  players : t.player_buffer = s.player_buffer
  player_mask : t.player_buffer_mask = s.player_buffer_mask
  laser_mask : t.laser_buffer_mask = s.laser_buffer_mask
  next : t.next_entity_id = s.next_entity_id
  active : t.active_entities = s.active_entities
  creates : t.ghost_creates = s.ghost_creates
  destroys : t.ghost_destroys = s.ghost_destroys
  entities : ∀ j, (t.entity_buffer j).data = (s.entity_buffer j).data
  root : t.root_entity.data = s.root_entity.data

/-- The two states agree on the tree links of every entity. -/
structure SameLinks (s t : State) : Prop where
  parent : ∀ j, (t.entity_buffer j).parent = (s.entity_buffer j).parent
  child : ∀ j, (t.entity_buffer j).child = (s.entity_buffer j).child
  sibling : ∀ j, (t.entity_buffer j).sibling = (s.entity_buffer j).sibling
  root_parent : t.root_entity.parent = s.root_entity.parent
  root_child : t.root_entity.child = s.root_entity.child
  root_sibling : t.root_entity.sibling = s.root_entity.sibling

/-- The child chain of node `n` is a duplicate-free list of live slots whose parent link
designates `n`. -/
def ChainOK (s : State) (n : EntityPtr) : Prop :=
  ∃ l : List Nat, Chain s (s.child_of n) l ∧ l.Nodup ∧
    ∀ j ∈ l, s.live j ∧ (s.entity_buffer j).parent = n

/-- Every node (the root and every slot, live or not) has a well-formed child chain. -/
def Linked (s : State) : Prop := ∀ n : EntityPtr, ChainOK s n

/-- The live counter equals the number of set entries of the entity mask. -/
def Counted (s : State) : Prop :=
  s.active_entities = (occupancy s.entity_buffer_mask ENTITY_COUNT : Int)

/-- What the allocation half of `create_entity` has written when it returned slot `e`, in
terms of the state before it: apart from tree links the state is the one that allocation,
type binding and the counter increments write; the new entity's parent link is `parent` and
no other parent link changed. -/
structure Allocation (s : State) (type : Entity_Type) (parent : EntityPtr) (e : Nat)
    (s' : State) : Prop where
  returned : allocate type parent s = Res.ok s' e
  scan : scan_free s.entity_buffer_mask ENTITY_COUNT 0 = some e
  check : check_parent (alloc_entity s e type) parent = none
  data : SameData (bump_counters (bind_type (alloc_entity s e type) e)) s'
  parent_new : (s'.entity_buffer e).parent = parent
  parent_old : ∀ j, j ≠ e → (s'.entity_buffer j).parent = (s.entity_buffer j).parent
  parent_root : s'.root_entity.parent = s.root_entity.parent

/-- An allocation that started with well-formed chains: the new entity is at the tail of
the child chain of `parent`, and no other chain changed. -/
structure Allocated (s : State) (type : Entity_Type) (parent : EntityPtr) (e : Nat)
    (s' : State) extends Allocation s type parent e s' : Prop where
  own_chain : Chain s' (s'.child_of (EntityPtr.slot e))
    (if parent = EntityPtr.slot e then [e] else [])
  chains : ∀ n l, n ≠ EntityPtr.slot e → Chain s (s.child_of n) l →
    Chain s' (s'.child_of n) (if n = parent then l ++ [e] else l)

/-- What the reclaiming half of `destroy_entity` has written when it returned, `sp` being
the state after the payload switch: apart from tree links the state is `sp` with the slot
released, and no parent link changed. -/
structure Reclamation (s sp : State) (e : Nat) (s' : State) : Prop where
  returned : reclaim e s = Res.ok s' ()
  payload : release_payload s e = Res.ok sp ()
  data : SameData (release_entity sp e) s'
  parent : ∀ j, (s'.entity_buffer j).parent = (s.entity_buffer j).parent
  parent_root : s'.root_entity.parent = s.root_entity.parent

/-- A reclamation that started with well-formed chains: the entity occurred in the child
chain of the node its parent link designates and was spliced out of it; no other chain
changed. -/
structure Reclaimed (s sp : State) (e : Nat) (s' : State)
    extends Reclamation s sp e s' : Prop where
  listed : ∃ l, Chain s (s.child_of (s.entity_buffer e).parent) l ∧ e ∈ l
  chains : ∀ n l, Chain s (s.child_of n) l →
    Chain s' (s'.child_of n) (if n = (s.entity_buffer e).parent then l.erase e else l)

/-- A live entity as `create_entity(NONE, ...)` leaves it: no hooks, no payload. -/
def Entity.plain (e : Entity) : Prop :=
  e.type = Entity_Type.NONE ∧ e.create = none ∧ e.destroy = none ∧ e.derived = PayloadPtr.null

/-- A live entity as `create_entity(PLAYER, ...)` leaves it: the player hooks and the
payload slot 0. -/
def Entity.piloted (e : Entity) : Prop :=
  e.type = Entity_Type.PLAYER ∧ e.create = some Hook.player ∧ e.destroy = some Hook.player ∧
    e.derived = PayloadPtr.player 0

/-- Invariant of every state between two calls, also inside a hook: chains well formed,
live counter equal to the mask occupancy, every live entity plain or piloted, at most one
piloted entity, and the player payload slot occupied exactly when there is one. -/
structure Sound (s : State) : Prop where
  linked : Linked s
  counted : Counted s
  typed : ∀ i, s.live i → (s.entity_buffer i).plain ∨ (s.entity_buffer i).piloted
  single : ∀ i j, s.live i → s.live j → (s.entity_buffer i).piloted →
    (s.entity_buffer j).piloted → i = j
  owned : s.player_buffer_mask 0 = true ↔ ∃ i, s.live i ∧ (s.entity_buffer i).piloted

/-- The thruster identifiers stored in the player payload differ from each other and from
the identifier of the live player entity. -/
def Paired (s : State) : Prop :=
  ∀ i, s.live i → (s.entity_buffer i).piloted →
    (s.player_buffer 0).left_thrust_id ≠ (s.entity_buffer i).id ∧
    (s.player_buffer 0).right_thrust_id ≠ (s.entity_buffer i).id ∧
    (s.player_buffer 0).left_thrust_id ≠ (s.player_buffer 0).right_thrust_id

/-- The live counter equals returned creations minus returned destructions. -/
def Tallied (s : State) : Prop :=
  s.active_entities = (s.ghost_creates : Int) - (s.ghost_destroys : Int)

/-- A call of one of the two operations, with its arguments. -/
inductive Call where
  | create (type : Entity_Type) (parent : EntityPtr)
  | destroy (entity : EntityPtr)

/-- The call, made in `s`, returns and leaves `s'`.  Creation is of type NONE or PLAYER;
the laser hooks are not among the sources. -/
def Call.returns (L : LaserHooks) (c : Call) (s s' : State) : Prop :=
  match c with
  | Call.create type parent =>
    type ≠ Entity_Type.LASER ∧ ∃ e, create_entity L type parent s = Res.ok s' e
  | Call.destroy entity => destroy_entity L entity s = Res.ok s' ()

/-- States reachable from the initial state by returning calls that satisfy `allowed`. -/
inductive ReachableBy (L : LaserHooks) (allowed : State → Call → State → Prop) :
    State → Prop where
  | init : ReachableBy L allowed initial_state
  | step (s s' : State) (c : Call) : ReachableBy L allowed s → c.returns L s s' →
      allowed s c s' → ReachableBy L allowed s'

/-- States that follow `s` by returning calls that satisfy `allowed`. -/
inductive FollowsBy (L : LaserHooks) (allowed : State → Call → State → Prop) (s : State) :
    State → Prop where
  | refl : FollowsBy L allowed s s
  | step (s' s'' : State) (c : Call) : FollowsBy L allowed s s' → c.returns L s' s'' →
      allowed s' c s'' → FollowsBy L allowed s s''

/-- No restriction on the calls. -/
def any_call : State → Call → State → Prop := fun _ _ _ => True

/-- The call names the root or a live entity as parent, or a live entity to destroy. -/
def valid_call : State → Call → State → Prop := fun s c _ =>
  match c with
  | Call.create _ parent => parent = EntityPtr.root ∨ ∃ k, parent = EntityPtr.slot k ∧ s.live k
  | Call.destroy entity => ∃ k, entity = EntityPtr.slot k ∧ s.live k

/-- The call did not wrap the identifier counter. -/
def no_wrap : State → Call → State → Prop := fun s _ s' =>
  s.next_entity_id ≤ s'.next_entity_id

/-- The call is valid and leaves no live entity whose parent link designates a slot that
the call freed. -/
def tidy_call : State → Call → State → Prop := fun s c s' =>
  valid_call s c s' ∧
    ∀ j k, s'.live j → (s'.entity_buffer j).parent = EntityPtr.slot k → s.live k → s'.live k

/-- States reachable by returning calls of the two operations. -/
def Reachable (L : LaserHooks) (s : State) : Prop := ReachableBy L any_call s

/-- The fields that decide how the pool treats an entity: identifier, type, the create and
destroy hooks bound, and the payload pointer. -/
def Entity.core (e : Entity) : Int × Entity_Type × Option Hook × Option Hook × PayloadPtr :=
  (e.id, e.type, e.create, e.destroy, e.derived)

/-- The steps of a `create_entity(PLAYER, parent)` that returned slot `p`: the allocation of
the player (with payload slot 0, which was free), the ship sprite, the allocation of the
left thruster `l` below the player, its settings, the allocation of the right thruster `r`
below the player, its settings, the write of both identifiers to the payload, and the ghost
steps of the three invocations. -/
structure PlayerCreated (s : State) (parent : EntityPtr) (p l r : Nat) (s1 t2 t3 s' : State) :
    Prop where
  free : s.player_buffer_mask 0 = false
  player : Allocated s Entity_Type.PLAYER parent p s1
  left : Allocated (s1.modify (EntityPtr.slot p) set_ship_sprite) Entity_Type.NONE
    (EntityPtr.slot p) l t2
  right : Allocated ((note_created t2).modify (EntityPtr.slot l) (set_thruster (-3 / 10)))
    Entity_Type.NONE (EntityPtr.slot p) r t3
  result : s' = note_created (store_thrust_ids
    ((note_created t3).modify (EntityPtr.slot r) (set_thruster (3 / 10))) 0 l r)

/-- The steps of a `destroy_entity` that returned on a player entity `p`: both thruster
identifiers are found, in slots `x` and `y`; `x` is reclaimed, then `y`, then the player
with its payload; each reclamation is followed by the ghost step of its invocation. -/
structure PlayerDestroyed (s : State) (p x y : Nat) (sx t1 sy t2 sp t3 s' : State) :
    Prop where
  found_left : scan_id s (s.player_buffer 0).left_thrust_id ENTITY_COUNT 0 = some x
  found_right : scan_id s (s.player_buffer 0).right_thrust_id ENTITY_COUNT 0 = some y
  left : Reclaimed s sx x t1
  right : Reclaimed (note_destroyed t1) sy y t2
  player : Reclaimed (note_destroyed t2) sp p t3
  result : s' = note_destroyed t3

/-- The invariant of the states between two calls: `Sound`, the payload identifiers paired,
and the live counter tallied with the returned invocations. -/
structure Inv (s : State) : Prop where
  sound : Sound s
  paired : Paired s
  tallied : Tallied s

/-- The four ways a call can have returned from a state that satisfies the invariant, each
with the record of its steps. -/
inductive Effect (s : State) : Call → State → Prop where
  | created_none (parent : EntityPtr) (e : Nat) (s1 : State) :
      Allocated s Entity_Type.NONE parent e s1 →
      Effect s (Call.create Entity_Type.NONE parent) (note_created s1)
  | created_player (parent : EntityPtr) (p l r : Nat) (s1 t2 t3 s' : State) :
      PlayerCreated s parent p l r s1 t2 t3 s' →
      Effect s (Call.create Entity_Type.PLAYER parent) s'
  | destroyed_plain (e : Nat) (sp s1 : State) :
      s.live e → (s.entity_buffer e).plain → Reclaimed s sp e s1 →
      Effect s (Call.destroy (EntityPtr.slot e)) (note_destroyed s1)
  | destroyed_player (p x y : Nat) (sx t1 sy t2 sp t3 s' : State) :
      s.live p → (s.entity_buffer p).piloted → PlayerDestroyed s p x y sx t1 sy t2 sp t3 s' →
      Effect s (Call.destroy (EntityPtr.slot p)) s'

/-- The state `init_asteroids` leaves (asteroids.cpp:245): one PLAYER created below the
root in the initial state, with idle laser hooks. -/
def started_state : State :=
  (create_entity idle_lasers Entity_Type.PLAYER EntityPtr.root initial_state).state

/-- Number of live entities of the given type. -/
def live_of_type (s : State) (type : Entity_Type) : Nat :=
  occupancy (fun i => s.entity_buffer_mask i && decide ((s.entity_buffer i).type = type))
    ENTITY_COUNT

/-- Invariant of the states reached while the identifier counter has not wrapped: the
counter is within the range of `int`, every live identifier is below it, and no two live
slots carry the same identifier. -/
structure Fresh (s : State) : Prop where
  range : -2147483648 ≤ s.next_entity_id ∧ s.next_entity_id < 2147483648
  below : ∀ i, s.live i → (s.entity_buffer i).id < s.next_entity_id
  distinct : ∀ i j, s.live i → s.live j →
    (s.entity_buffer i).id = (s.entity_buffer j).id → i = j

/-- The counter has passed the identifier, and no live slot carries it. -/
def Gone (s : State) (id : Int) : Prop :=
  id < s.next_entity_id ∧ ∀ j, s.live j → (s.entity_buffer j).id ≠ id

/-- The state after `destroy_entity` on slot 1, the left thruster, of `started_state`. -/
def thruster_gone_state : State :=
  (destroy_entity idle_lasers (EntityPtr.slot 1) started_state).state

/-- Following parent links from slot `i` reaches `root_entity` after finitely many steps. -/
def State.rooted (s : State) (i : Nat) : Prop :=
  ∃ n, ancestor s n (EntityPtr.slot i) = EntityPtr.root

/-- Slot `i` occurs exactly once in the child chain of the node its parent link
designates. -/
def State.listed_once (s : State) (i : Nat) : Prop :=
  ∃ l, Chain s (s.child_of (s.entity_buffer i).parent) l ∧ l.count i = 1

/-- The tree invariant: the parent link of every live entity designates the root or a live
entity, parent links lead to the root, and the entity occurs in its parent's child chain. -/
structure Rooted (s : State) : Prop where
  up : ∀ i, s.live i → (s.entity_buffer i).parent = EntityPtr.root ∨
    ∃ k, (s.entity_buffer i).parent = EntityPtr.slot k ∧ s.live k
  path : ∀ i, s.live i → s.rooted i
  member : ∀ i, s.live i → ∃ l, Chain s (s.child_of (s.entity_buffer i).parent) l ∧ i ∈ l

/-- From `s` to `s'` entities were only freed: no slot became live, no parent link changed,
and every chain still holds those of its members that are still live. -/
structure Shrinks (s s' : State) : Prop where
  live : ∀ j, s'.live j → s.live j
  parent : ∀ j, (s'.entity_buffer j).parent = (s.entity_buffer j).parent
  chains : ∀ n l, Chain s (s.child_of n) l →
    ∃ l', Chain s' (s'.child_of n) l' ∧ ∀ j, j ∈ l → s'.live j → j ∈ l'

/-- One entity below the root. -/
def orphan_state_1 : State :=
  (create_entity idle_lasers Entity_Type.NONE EntityPtr.root initial_state).state

/-- A second entity below the first. -/
def orphan_state_2 : State :=
  (create_entity idle_lasers Entity_Type.NONE (EntityPtr.slot 0) orphan_state_1).state

/-- The first entity destroyed while the second, its child, stays live. -/
def orphan_state_3 : State :=
  (destroy_entity idle_lasers (EntityPtr.slot 0) orphan_state_2).state

/-- A third entity created below the second; it is handed the slot of the first. -/
def orphan_state_4 : State :=
  (create_entity idle_lasers Entity_Type.NONE (EntityPtr.slot 1) orphan_state_3).state

/-- The state `create_entity(NONE, &entity_buffer[0])` leaves when it is called in the
initial state, where slot 0 is free. -/
def self_parent_state : State :=
  (create_entity idle_lasers Entity_Type.NONE (EntityPtr.slot 0) initial_state).state

/-- A child below the left thruster of the state `init_asteroids` leaves: slot 3, child of
slot 1. -/
def nested_state : State :=
  (create_entity idle_lasers Entity_Type.NONE (EntityPtr.slot 1) started_state).state

/-! ## Observations on the hierarchy rebuild -/

/-- The scene a rebuild returned, if it returned. -/
def Built.value {α : Type} : Built α → Option α
  | Built.ok a => some a
  | _ => none

/-- Node `m` is reached from node `n` by `k` steps, each from a node whose child chain ends
to a member of that chain. -/
inductive Descends (s : State) (n : EntityPtr) : Nat → EntityPtr → Prop where
  | self : Descends s n 0 n
  | child (k : Nat) (m : EntityPtr) (l : List Nat) (j : Nat) :
      Descends s n k m → Chain s (s.child_of m) l → j ∈ l →
      Descends s n (k + 1) (EntityPtr.slot j)

/-- The child / sibling graph reachable from `root_entity` is a finite tree with consistent
parent links: every node reached from the root has a child chain that ends, made of slots
of the pool whose parent link designates that node; the root, which is in no chain, has no
parent. -/
structure Tree (s : State) : Prop where
  root_parent : s.root_entity.parent = EntityPtr.null
  chains : ∀ k n, Descends s EntityPtr.root k n →
    ∃ l, Chain s (s.child_of n) l ∧
      ∀ j ∈ l, j < ENTITY_COUNT ∧ (s.entity_buffer j).parent = n

/-- Transforms written symbolically: a transform is the sequence of the (position,
orientation, scale) triples whose local transforms are multiplied, leftmost factor first. -/
def path_ops : MatrixOps (List (Vector2 × ℚ × ℚ)) where
  make_transform_matrix := fun position orientation scale => [(position, orientation, scale)]
  mul := fun a b => a ++ b

/-- Two live entities in the child chain of the root, slot 0 followed by slot 1; the parent
link of slot 1 designates the root, the parent link of slot 0 designates slot 1. -/
def crossed_state : State :=
  { initial_state with
    root_entity := { child := EntityPtr.slot 0 }
    entity_buffer := fun i =>
      if i = 0 then
        { id := 0, parent := EntityPtr.slot 1, sibling := EntityPtr.slot 1, position := { x := 1 } }
      else if i = 1 then { id := 1, parent := EntityPtr.root, position := { x := 2 } }
      else {}
    entity_buffer_mask := fun i => decide (i < 2)
    next_entity_id := 2
    active_entities := 2
    ghost_creates := 2 }

/-- The state `crossed_state` with every transform empty. -/
def crossed_scene : Scene (List (Vector2 × ℚ × ℚ)) where
  state := crossed_state
  root_transform := []
  transform := fun _ => []

/-- The scene after one rebuild of `crossed_scene`. -/
def crossed_scene_1 : Scene (List (Vector2 × ℚ × ℚ)) :=
  ((build_entity_hierarchy path_ops EntityPtr.root crossed_scene).value).getD crossed_scene

/-- The scene after a second rebuild. -/
def crossed_scene_2 : Scene (List (Vector2 × ℚ × ℚ)) :=
  ((build_entity_hierarchy path_ops EntityPtr.root crossed_scene_1).value).getD crossed_scene

/-- The state `init_asteroids` leaves, with every transform empty. -/
def started_scene : Scene (List (Vector2 × ℚ × ℚ)) where
  state := started_state
  root_transform := []
  transform := fun _ => []

/-! # Lemmas and theorems -/

/-! ## Arrays and pointers -/

@[simp] theorem upd_same {α : Type} (f : Nat → α) (i : Nat) (v : α) : upd f i v i = v := by
  simp [upd]

theorem upd_other {α : Type} (f : Nat → α) {i j : Nat} (v : α) (h : j ≠ i) :
    upd f i v j = f j := by
  simp [upd, h]

theorem upd_apply {α : Type} (f : Nat → α) (i j : Nat) (v : α) :
    upd f i v j = if j = i then v else f j := rfl

@[simp] theorem modify_mask (s : State) (p : EntityPtr) (f : Entity → Entity) :
    (s.modify p f).entity_buffer_mask = s.entity_buffer_mask := by
  cases p <;> rfl

@[simp] theorem modify_players (s : State) (p : EntityPtr) (f : Entity → Entity) :
    (s.modify p f).player_buffer = s.player_buffer := by
  cases p <;> rfl

@[simp] theorem modify_player_mask (s : State) (p : EntityPtr) (f : Entity → Entity) :
    (s.modify p f).player_buffer_mask = s.player_buffer_mask := by
  cases p <;> rfl

@[simp] theorem modify_laser_mask (s : State) (p : EntityPtr) (f : Entity → Entity) :
    (s.modify p f).laser_buffer_mask = s.laser_buffer_mask := by
  cases p <;> rfl

@[simp] theorem modify_next (s : State) (p : EntityPtr) (f : Entity → Entity) :
    (s.modify p f).next_entity_id = s.next_entity_id := by
  cases p <;> rfl

@[simp] theorem modify_active (s : State) (p : EntityPtr) (f : Entity → Entity) :
    (s.modify p f).active_entities = s.active_entities := by
  cases p <;> rfl

@[simp] theorem modify_creates (s : State) (p : EntityPtr) (f : Entity → Entity) :
    (s.modify p f).ghost_creates = s.ghost_creates := by
  cases p <;> rfl

@[simp] theorem modify_destroys (s : State) (p : EntityPtr) (f : Entity → Entity) :
    (s.modify p f).ghost_destroys = s.ghost_destroys := by
  cases p <;> rfl

theorem modify_entity (s : State) (p : EntityPtr) (f : Entity → Entity) (j : Nat) :
    (s.modify p f).entity_buffer j =
      if p = EntityPtr.slot j then f (s.entity_buffer j) else s.entity_buffer j := by
  cases p with
  | null => simp [State.modify, State.deref]
  | root => simp [State.modify, State.deref, State.store]
  | slot i =>
    by_cases h : j = i
    · subst h; simp [State.modify, State.deref, State.store]
    · have h' : i ≠ j := fun e => h e.symm
      simp [State.modify, State.deref, State.store, upd_other _ _ h, h']

theorem modify_root (s : State) (p : EntityPtr) (f : Entity → Entity) :
    (s.modify p f).root_entity =
      if p = EntityPtr.root then f s.root_entity else s.root_entity := by
  cases p <;> simp [State.modify, State.deref, State.store]

/-- A field update that touches only tree links keeps the data. -/
theorem SameData.data_of_modify (s : State) (p : EntityPtr) (f : Entity → Entity)
    (hf : ∀ e, (f e).data = e.data) : SameData s (s.modify p f) := by
  refine ⟨by simp, by simp, by simp, by simp, by simp, by simp, by simp, by simp, ?_, ?_⟩
  · intro j; rw [modify_entity]; split <;> simp [hf]
  · rw [modify_root]; split <;> simp [hf]

theorem SameData.data_refl (s : State) : SameData s s :=
  ⟨rfl, rfl, rfl, rfl, rfl, rfl, rfl, rfl, fun _ => rfl, rfl⟩

theorem SameData.data_trans {s t u : State} (h : SameData s t) (h' : SameData t u) : SameData s u :=
  ⟨h'.mask.trans h.mask, h'.players.trans h.players, h'.player_mask.trans h.player_mask,
   h'.laser_mask.trans h.laser_mask, h'.next.trans h.next, h'.active.trans h.active,
   h'.creates.trans h.creates, h'.destroys.trans h.destroys,
   fun j => (h'.entities j).trans (h.entities j), h'.root.trans h.root⟩

theorem SameLinks.refl (s : State) : SameLinks s s :=
  ⟨fun _ => rfl, fun _ => rfl, fun _ => rfl, rfl, rfl, rfl⟩

theorem SameLinks.trans {s t u : State} (h : SameLinks s t) (h' : SameLinks t u) :
    SameLinks s u :=
  ⟨fun j => (h'.parent j).trans (h.parent j), fun j => (h'.child j).trans (h.child j),
   fun j => (h'.sibling j).trans (h.sibling j), h'.root_parent.trans h.root_parent,
   h'.root_child.trans h.root_child, h'.root_sibling.trans h.root_sibling⟩

theorem SameLinks.symm {s t : State} (h : SameLinks s t) : SameLinks t s :=
  ⟨fun j => (h.parent j).symm, fun j => (h.child j).symm, fun j => (h.sibling j).symm,
   h.root_parent.symm, h.root_child.symm, h.root_sibling.symm⟩

/-- A field update that touches no tree link keeps the links. -/
theorem SameLinks.of_modify (s : State) (p : EntityPtr) (f : Entity → Entity)
    (hp : ∀ e, (f e).parent = e.parent) (hc : ∀ e, (f e).child = e.child)
    (hs : ∀ e, (f e).sibling = e.sibling) : SameLinks s (s.modify p f) := by
  refine ⟨?_, ?_, ?_, ?_, ?_, ?_⟩
  · intro j; rw [modify_entity]; split <;> simp [hp]
  · intro j; rw [modify_entity]; split <;> simp [hc]
  · intro j; rw [modify_entity]; split <;> simp [hs]
  · rw [modify_root]; split <;> simp [hp]
  · rw [modify_root]; split <;> simp [hc]
  · rw [modify_root]; split <;> simp [hs]

theorem SameLinks.child_of {s t : State} (h : SameLinks s t) (n : EntityPtr) :
    t.child_of n = s.child_of n := by
  cases n with
  | null => rfl
  | root => exact h.root_child
  | slot i => exact h.child i

theorem SameLinks.parent_of {s t : State} (h : SameLinks s t) (n : EntityPtr) :
    t.parent_of n = s.parent_of n := by
  cases n with
  | null => rfl
  | root => exact h.root_parent
  | slot i => exact h.parent i

/-! ## Sibling chains -/

theorem chain_unique (s : State) : ∀ (l l' : List Nat) (p : EntityPtr),
    Chain s p l → Chain s p l' → l = l'
  | [], [], _, _, _ => rfl
  | [], _ :: _, p, h, h' => by
    simp only [Chain] at h h'
    rw [h] at h'; exact absurd h'.1 (by simp)
  | _ :: _, [], p, h, h' => by
    simp only [Chain] at h h'
    rw [h'] at h; exact absurd h.1 (by simp)
  | a :: l, b :: l', p, h, h' => by
    simp only [Chain] at h h'
    have hab : a = b := by
      have := h.1.symm.trans h'.1
      simpa using this
    subst hab
    rw [chain_unique s l l' _ h.2 h'.2]

theorem chain_congr (s s' : State) : ∀ (l : List Nat) (p : EntityPtr),
    (∀ j ∈ l, (s'.entity_buffer j).sibling = (s.entity_buffer j).sibling) →
    Chain s p l → Chain s' p l
  | [], _, _, h => h
  | a :: l, p, hs, h => by
    simp only [Chain] at h ⊢
    refine ⟨h.1, ?_⟩
    rw [hs a (by simp)]
    exact chain_congr s s' l _ (fun j hj => hs j (by simp [hj])) h.2

theorem SameLinks.chain {s t : State} (h : SameLinks s t) {p : EntityPtr} {l : List Nat}
    (hl : Chain s p l) : Chain t p l :=
  chain_congr s t l p (fun j _ => h.sibling j) hl

theorem chain_snoc (s s' : State) (i : Nat) :
    ∀ (l : List Nat) (p : EntityPtr) (hne : l ≠ []),
    Chain s p l → (l ++ [i]).Nodup →
    (s'.entity_buffer (l.getLast hne)).sibling = EntityPtr.slot i →
    (∀ j ∈ l, j ≠ l.getLast hne → (s'.entity_buffer j).sibling = (s.entity_buffer j).sibling) →
    (s'.entity_buffer i).sibling = EntityPtr.null →
    Chain s' p (l ++ [i])
  | [], _, hne, _, _, _, _, _ => absurd rfl hne
  | [a], p, _, h, _, hl, _, hi => by
    simp only [Chain, List.getLast_singleton, List.singleton_append] at h hl ⊢
    exact ⟨h.1, by rw [hl]; exact ⟨rfl, hi⟩⟩
  | a :: b :: l, p, _, h, hnd, hl, hs, hi => by
    have hlast : (a :: b :: l).getLast (by simp) = (b :: l).getLast (by simp) := by
      simp [List.getLast_cons]
    simp only [Chain, List.cons_append] at h ⊢
    refine ⟨h.1, ?_⟩
    have hnd' : (b :: l ++ [i]).Nodup := by
      simp only [List.cons_append, List.nodup_cons] at hnd ⊢
      exact hnd.2
    have ha : a ≠ (b :: l).getLast (by simp) := by
      intro e
      have hmem : (b :: l).getLast (by simp) ∈ b :: l := List.getLast_mem _
      simp only [List.cons_append, List.nodup_cons] at hnd
      apply hnd.1
      rw [e]
      rcases List.mem_cons.1 hmem with h1 | h1
      · exact List.mem_cons.2 (Or.inl h1)
      · exact List.mem_cons.2 (Or.inr (List.mem_append_left _ h1))
    rw [hs a (by simp) (by rw [hlast]; exact ha)]
    have := chain_snoc s s' i (b :: l) (s.entity_buffer a).sibling (by simp)
      (by simpa [Chain] using h.2) hnd' (by rw [← hlast]; exact hl)
      (fun j hj hne => hs j (List.mem_cons_of_mem _ hj) (by rw [hlast]; exact hne)) hi
    simpa [Chain] using this

theorem last_sibling_spec (s : State) :
    ∀ (l : List Nat) (p : EntityPtr) (n : Nat) (hne : l ≠ []),
    Chain s p l → l.length ≤ n →
    last_sibling s n p = some (some (EntityPtr.slot (l.getLast hne)))
  | [], _, _, hne, _, _ => absurd rfl hne
  | [a], p, n, _, h, hn => by
    simp only [Chain] at h
    obtain ⟨n, rfl⟩ : ∃ m, n = m + 1 := ⟨n - 1, by simp at hn; omega⟩
    simp [last_sibling, h.1, State.deref, h.2]
  | a :: b :: l, p, n, _, h, hn => by
    simp only [Chain] at h
    obtain ⟨n, rfl⟩ : ∃ m, n = m + 1 := ⟨n - 1, by simp at hn; omega⟩
    have := last_sibling_spec s (b :: l) (s.entity_buffer a).sibling n (by simp)
      (by simpa [Chain] using h.2) (by simp at hn ⊢; omega)
    rw [h.2.1] at this
    simp [last_sibling, h.1, State.deref, h.2.1, this, List.getLast_cons]

/-- The walk of `destroy_entity` finds the node in front of `i`, and splicing there yields
the chain without `i`. -/
theorem find_previous_spec (s : State) (i : Nat) :
    ∀ (l : List Nat) (a : Nat) (p : EntityPtr) (n : Nat),
    Chain s p (a :: l) → a ≠ i → i ∈ l → (a :: l).Nodup → l.length < n →
    ∃ prev, find_previous s (EntityPtr.slot i) n p = some (some (EntityPtr.slot prev)) ∧
      prev ∈ a :: l ∧ prev ≠ i ∧
      ∀ s2 : State, (s2.entity_buffer prev).sibling = (s.entity_buffer i).sibling →
        (∀ j, j ≠ prev → (s2.entity_buffer j).sibling = (s.entity_buffer j).sibling) →
        Chain s2 p ((a :: l).erase i)
  | [], _, _, _, _, _, hi, _, _ => absurd hi (by simp)
  | b :: l, a, p, n, h, ha, hi, hnd, hn => by
    simp only [Chain] at h
    obtain ⟨n, rfl⟩ : ∃ m, n = m + 1 := ⟨n - 1, by simp at hn; omega⟩
    have hnd' := hnd
    simp only [List.nodup_cons, List.mem_cons, not_or] at hnd'
    by_cases hb : b = i
    · subst hb
      refine ⟨a, ?_, by simp, ha, ?_⟩
      · simp [find_previous, h.1, State.deref, h.2.1]
      · intro s2 h1 h2
        have he : (a :: b :: l).erase b = a :: l := by
          rw [List.erase_cons_tail (by simpa using ha), List.erase_cons_head]
        rw [he]
        simp only [Chain]
        refine ⟨h.1, ?_⟩
        rw [h1]
        refine chain_congr s s2 l _ (fun j hj => h2 j ?_) h.2.2
        rintro rfl; exact hnd'.1.2 hj
    · have hi' : i ∈ l := by
        rcases List.mem_cons.1 hi with e | e
        · exact absurd e.symm hb
        · exact e
      obtain ⟨prev, h1, h2, h3, h4⟩ := find_previous_spec s i l b (EntityPtr.slot b) n
        (show EntityPtr.slot b = EntityPtr.slot b ∧ Chain s _ l from ⟨rfl, h.2.2⟩) hb hi' (List.nodup_cons.2 hnd'.2)
        (by simp at hn; omega)
      refine ⟨prev, ?_, List.mem_cons_of_mem _ h2, h3, ?_⟩
      · have hne : EntityPtr.slot b ≠ EntityPtr.slot i := by simpa using hb
        simp [find_previous, h.1, State.deref, h.2.1, hne, h1, hb]
      · intro s2 e1 e2
        have he : (a :: b :: l).erase i = a :: (b :: l).erase i := by
          rw [List.erase_cons_tail (by simpa using ha)]
        rw [he]
        simp only [Chain]
        refine ⟨h.1, ?_⟩
        have hap : a ≠ prev := by
          rintro rfl
          rcases List.mem_cons.1 h2 with e | e
          · exact hnd'.1.1 e
          · exact hnd'.1.2 e
        rw [e2 a hap, h.2.1]
        exact h4 s2 e1 e2

/-- The walk of `destroy_entity` along a chain that does not hold `i` ends in a `NULL`
dereference. -/
theorem find_previous_missing (s : State) (i : Nat) :
    ∀ (l : List Nat) (p : EntityPtr) (n : Nat),
    Chain s p l → i ∉ l → l.length < n →
    find_previous s (EntityPtr.slot i) n p = some none
  | [], p, n, h, _, hn => by
    simp only [Chain] at h
    obtain ⟨n, rfl⟩ : ∃ m, n = m + 1 := ⟨n - 1, by simp at hn; omega⟩
    simp [find_previous, h, State.deref]
  | a :: l, p, n, h, hi, hn => by
    simp only [Chain] at h
    obtain ⟨n, rfl⟩ : ∃ m, n = m + 1 := ⟨n - 1, by simp at hn; omega⟩
    have hne : (s.entity_buffer a).sibling ≠ EntityPtr.slot i := by
      intro e
      rw [e] at h
      cases l with
      | nil => simp [Chain] at h
      | cons b l =>
        simp only [Chain] at h
        have : i = b := by simpa using h.2.1
        subst this
        exact hi (by simp)
    have := find_previous_missing s i l (s.entity_buffer a).sibling n h.2
      (fun hm => hi (List.mem_cons_of_mem _ hm)) (by simp at hn; omega)
    simp [find_previous, h.1, State.deref, hne, this]

/-! ## Linking and unlinking -/

theorem child_of_modify (s : State) (p n : EntityPtr) (f : Entity → Entity)
    (hc : ∀ e, (f e).child = e.child) : (s.modify p f).child_of n = s.child_of n := by
  cases n with
  | null => rfl
  | root => simp only [State.child_of, State.deref]; rw [modify_root]; split <;> simp [hc]
  | slot j => simp only [State.child_of, State.deref]; rw [modify_entity]; split <;> simp [hc]

/-- Lines 109-121 on a parent whose child chain is `l`: the call returns, the chain becomes
`l ++ [i]`, every other chain is kept, and nothing but links is written. -/
theorem link_child_spec (s : State) (parent : EntityPtr) (i : Nat) (l : List Nat)
    (hp : parent ≠ EntityPtr.null) (hl : Chain s (s.child_of parent) l)
    (hnd : l.Nodup) (hi : i ∉ l) (hlen : l.length < WALK_FUEL)
    (hsib : (s.entity_buffer i).sibling = EntityPtr.null) :
    ∃ s2, link_child s parent i = Res.ok s2 () ∧ SameData s s2 ∧
      (s2.entity_buffer i).parent = parent ∧
      (∀ j, j ≠ i → (s2.entity_buffer j).parent = (s.entity_buffer j).parent) ∧
      s2.root_entity.parent = s.root_entity.parent ∧
      Chain s2 (s2.child_of parent) (l ++ [i]) ∧
      (∀ n l', n ≠ parent → Chain s (s.child_of n) l' → (∀ j ∈ l', j ∉ l) →
        Chain s2 (s2.child_of n) l') := by
  have hd1 : SameData s (s.modify (EntityPtr.slot i) (fun e => { e with parent := parent })) :=
    SameData.data_of_modify _ _ _ (fun _ => rfl)
  have hc1 : ∀ n, (s.modify (EntityPtr.slot i) (fun e => { e with parent := parent })).child_of n
      = s.child_of n := fun n => child_of_modify _ _ _ _ (fun _ => rfl)
  have hs1 : ∀ j, ((s.modify (EntityPtr.slot i)
      (fun e => { e with parent := parent })).entity_buffer j).sibling
      = (s.entity_buffer j).sibling := by
    intro j; rw [modify_entity]; split <;> rfl
  have hp1 : ∀ j, ((s.modify (EntityPtr.slot i)
      (fun e => { e with parent := parent })).entity_buffer j).parent
      = if j = i then parent else (s.entity_buffer j).parent := by
    intro j; rw [modify_entity]
    by_cases h : j = i
    · subst h; simp
    · have : ¬ i = j := fun e => h e.symm
      simp [h, this]
  have hr1 : (s.modify (EntityPtr.slot i) (fun e => { e with parent := parent })).root_entity
      = s.root_entity := by rw [modify_root]; simp
  generalize hs1def : s.modify (EntityPtr.slot i) (fun e => { e with parent := parent }) = s1
    at hd1 hc1 hs1 hp1 hr1
  have hl1 : Chain s1 (s1.child_of parent) l := by
    rw [hc1]; exact chain_congr s s1 l _ (fun j _ => hs1 j) hl
  obtain ⟨pe, hpe⟩ : ∃ pe, s1.deref parent = some pe := by
    cases parent with
    | null => exact absurd rfl hp
    | root => exact ⟨_, rfl⟩
    | slot k => exact ⟨_, rfl⟩
  have hchild : pe.child = s1.child_of parent := by simp [State.child_of, hpe]
  unfold link_child
  simp only [hs1def, hpe]
  cases l with
  | nil =>
    have hnull : pe.child = EntityPtr.null := by rw [hchild]; simpa [Chain] using hl1
    simp only [hnull, ne_eq, not_true_eq_false, if_false]
    refine ⟨_, rfl, hd1.data_trans (SameData.data_of_modify _ _ _ (fun _ => rfl)), ?_, ?_, ?_, ?_, ?_⟩
    · rw [modify_entity]; split <;> simp [hp1]
    · intro j hj; rw [modify_entity]; split <;> simp [hp1, hj]
    · rw [modify_root, hr1]; split <;> rfl
    · have hsib' : ((s1.modify parent (fun e => { e with child := EntityPtr.slot i })).entity_buffer
          i).sibling = EntityPtr.null := by
        rw [modify_entity]; split <;> simp [hs1, hsib]
      have hc : (s1.modify parent (fun e => { e with child := EntityPtr.slot i })).child_of parent
          = EntityPtr.slot i := by
        cases parent with
        | null => exact absurd rfl hp
        | root => simp [State.child_of, State.deref, modify_root]
        | slot k => simp [State.child_of, State.deref, modify_entity]
      simp only [List.nil_append, Chain]
      exact ⟨hc, hsib'⟩
    · intro n l' hn hl' _
      have hc : (s1.modify parent (fun e => { e with child := EntityPtr.slot i })).child_of n
          = s.child_of n := by
        rw [← hc1 n]
        cases n with
        | null => rfl
        | root =>
          simp only [State.child_of, State.deref]; rw [modify_root]
          rw [if_neg (fun e => hn e.symm)]
        | slot k =>
          simp only [State.child_of, State.deref]; rw [modify_entity]
          rw [if_neg (fun e => hn e.symm)]
      rw [hc]
      refine chain_congr s _ l' _ (fun j _ => ?_) hl'
      rw [modify_entity]; split <;> simp [hs1]
  | cons a l =>
    have hne : pe.child ≠ EntityPtr.null := by
      rw [hchild]
      simp only [Chain] at hl1
      rw [hl1.1]; simp
    have hlast := last_sibling_spec s1 (a :: l) pe.child WALK_FUEL (by simp)
      (by rw [hchild]; exact hl1) (Nat.le_of_lt hlen)
    simp only [hne, ne_eq, not_false_eq_true, if_true, hlast]
    have hlm : (a :: l).getLast (by simp) ∈ a :: l := List.getLast_mem _
    have hli : (a :: l).getLast (by simp) ≠ i := fun e => hi (e ▸ hlm)
    have hli' : ¬ EntityPtr.slot ((a :: l).getLast (by simp)) = EntityPtr.slot i := by
      simpa using hli
    refine ⟨_, rfl, hd1.data_trans (SameData.data_of_modify _ _ _ (fun _ => rfl)), ?_, ?_, ?_, ?_, ?_⟩
    · rw [modify_entity]; split <;> simp [hp1]
    · intro j hj; rw [modify_entity]; split <;> simp [hp1, hj]
    · rw [modify_root, hr1]; split <;> rfl
    · rw [child_of_modify s1 _ parent (fun e => { e with sibling := EntityPtr.slot i })
        (fun _ => rfl)]
      refine chain_snoc s1 _ i (a :: l) _ (by simp) hl1 ?_ ?_ ?_ ?_
      · rw [List.nodup_append]
        refine ⟨hnd, by simp, ?_⟩
        intro x hx hx'
        have : x = i := by simpa using hx'
        exact hi (this ▸ hx)
      · rw [modify_entity]; simp
      · intro j _ hj
        rw [modify_entity]
        rw [if_neg (by simpa using fun e => hj e.symm)]
      · rw [modify_entity, if_neg hli', hs1, hsib]
    · intro n l' _ hl' hdis
      rw [child_of_modify s1 _ n (fun e => { e with sibling := EntityPtr.slot i })
        (fun _ => rfl), hc1]
      refine chain_congr s _ l' _ (fun j hj => ?_) hl'
      rw [modify_entity, if_neg, hs1]
      intro e
      have : (a :: l).getLast (by simp) = j := by simpa using e
      exact hdis j hj (this ▸ hlm)

/-- Lines 207-217 on an entity that occurs in its parent's child chain `l`: the call
returns, the chain becomes `l` without the entity, every other chain is kept, and nothing
but links is written. -/
theorem unlink_child_spec (s : State) (i : Nat) (l : List Nat)
    (hl : Chain s (s.child_of (s.entity_buffer i).parent) l) (hnd : l.Nodup)
    (hlen : l.length < WALK_FUEL) (hi : i ∈ l) :
    ∃ s2, unlink_child s i = Res.ok s2 () ∧ SameData s s2 ∧
      (∀ j, (s2.entity_buffer j).parent = (s.entity_buffer j).parent) ∧
      s2.root_entity.parent = s.root_entity.parent ∧
      Chain s2 (s2.child_of (s.entity_buffer i).parent) (l.erase i) ∧
      (∀ n l', n ≠ (s.entity_buffer i).parent → Chain s (s.child_of n) l' →
        (∀ j ∈ l', j ∉ l) → Chain s2 (s2.child_of n) l') := by
  generalize hpar : (s.entity_buffer i).parent = parent at hl
  have hp : parent ≠ EntityPtr.null := by
    rintro rfl
    cases l with
    | nil => simp at hi
    | cons a l => simp [State.child_of, State.deref, Chain] at hl
  obtain ⟨pe, hpe⟩ : ∃ pe, s.deref parent = some pe := by
    cases parent with
    | null => exact absurd rfl hp
    | root => exact ⟨_, rfl⟩
    | slot k => exact ⟨_, rfl⟩
  have hchild : pe.child = s.child_of parent := by simp [State.child_of, hpe]
  unfold unlink_child
  simp only [hpar, hpe]
  cases l with
  | nil => simp at hi
  | cons a l =>
    rw [← hchild] at hl
    simp only [Chain] at hl
    by_cases ha : a = i
    · subst ha
      simp only [hl.1, if_true]
      refine ⟨_, rfl, SameData.data_of_modify _ _ _ (fun _ => rfl), ?_, ?_, ?_, ?_⟩
      · intro j; rw [modify_entity]; split <;> rfl
      · rw [modify_root]; split <;> rfl
      · have hc : (s.modify parent
            (fun q => { q with child := (s.entity_buffer a).sibling })).child_of parent
            = (s.entity_buffer a).sibling := by
          cases parent with
          | null => exact absurd rfl hp
          | root => simp [State.child_of, State.deref, modify_root]
          | slot k => simp [State.child_of, State.deref, modify_entity]
        rw [hc, List.erase_cons_head]
        refine chain_congr s _ l _ (fun j _ => ?_) hl.2
        rw [modify_entity]; split <;> rfl
      · intro n l' hn hl' _
        have hc : (s.modify parent
            (fun q => { q with child := (s.entity_buffer a).sibling })).child_of n
            = s.child_of n := by
          cases n with
          | null => rfl
          | root =>
            simp only [State.child_of, State.deref]; rw [modify_root]
            rw [if_neg (fun e => hn e.symm)]
          | slot k =>
            simp only [State.child_of, State.deref]; rw [modify_entity]
            rw [if_neg (fun e => hn e.symm)]
        rw [hc]
        refine chain_congr s _ l' _ (fun j _ => ?_) hl'
        rw [modify_entity]; split <;> rfl
    · have hne : ¬ pe.child = EntityPtr.slot i := by
        rw [hl.1]; simpa using ha
      have hi' : i ∈ l := by
        rcases List.mem_cons.1 hi with e | e
        · exact absurd e.symm ha
        · exact e
      obtain ⟨prev, h1, h2, h3, h4⟩ := find_previous_spec s i l a pe.child WALK_FUEL
        (show pe.child = EntityPtr.slot a ∧ Chain s _ l from hl) ha hi' hnd
        (by simp at hlen; omega)
      simp only [hne, if_false, h1]
      refine ⟨_, rfl, SameData.data_of_modify _ _ _ (fun _ => rfl), ?_, ?_, ?_, ?_⟩
      · intro j; rw [modify_entity]; split <;> rfl
      · rw [modify_root]; split <;> rfl
      · rw [child_of_modify s _ parent (fun q => { q with sibling := (s.entity_buffer i).sibling })
          (fun _ => rfl), ← hchild]
        refine h4 _ ?_ ?_
        · rw [modify_entity]; simp
        · intro j hj
          rw [modify_entity, if_neg (by simpa using fun e => hj e.symm)]
      · intro n l' _ hl' hdis
        rw [child_of_modify s _ n (fun q => { q with sibling := (s.entity_buffer i).sibling })
          (fun _ => rfl)]
        refine chain_congr s _ l' _ (fun j hj => ?_) hl'
        rw [modify_entity, if_neg]
        intro e
        have : prev = j := by simpa using e
        exact hdis j hj (this ▸ h2)

/-- Lines 207-217 on an entity that does not occur in its parent's child chain: the call
does not return. -/
theorem unlink_child_missing (s : State) (i : Nat) (l : List Nat)
    (hl : Chain s (s.child_of (s.entity_buffer i).parent) l)
    (hlen : l.length < WALK_FUEL) (hi : i ∉ l) (s2 : State) :
    unlink_child s i ≠ Res.ok s2 () := by
  unfold unlink_child
  cases hpe : s.deref (s.entity_buffer i).parent with
  | none => simp [hpe]
  | some pe =>
    simp only [hpe]
    have hchild : pe.child = s.child_of (s.entity_buffer i).parent := by
      simp [State.child_of, hpe]
    rw [← hchild] at hl
    have hne : ¬ pe.child = EntityPtr.slot i := by
      intro e
      rw [e] at hl
      cases l with
      | nil => simp [Chain] at hl
      | cons a l =>
        simp only [Chain] at hl
        have : i = a := by simpa using hl.1
        exact hi (by simp [this])
    simp only [hne, if_false, find_previous_missing s i l pe.child WALK_FUEL hl hi hlen]
    simp

/-! ## Scans, occupancy and 32-bit counters -/

theorem scan_free_some (mask : Nat → Bool) : ∀ (n i k : Nat), scan_free mask n i = some k →
    i ≤ k ∧ k < i + n ∧ mask k = false ∧ ∀ j, i ≤ j → j < k → mask j = true
  | 0, _, _, h => by simp [scan_free] at h
  | n + 1, i, k, h => by
    unfold scan_free at h
    by_cases hm : mask i = true
    · rw [if_pos hm] at h
      obtain ⟨h1, h2, h3, h4⟩ := scan_free_some mask n (i + 1) k h
      refine ⟨by omega, by omega, h3, fun j hj hjk => ?_⟩
      by_cases e : j = i
      · rw [e]; exact hm
      · exact h4 j (by omega) hjk
    · rw [if_neg hm] at h
      have : i = k := by simpa using h
      subst this
      exact ⟨le_refl _, by omega, by simpa using hm, fun j hj hjk => absurd hj (by omega)⟩

theorem scan_free_none (mask : Nat → Bool) : ∀ (n i : Nat), scan_free mask n i = none →
    ∀ j, i ≤ j → j < i + n → mask j = true
  | 0, _, _, j, h1, h2 => absurd h1 (by omega)
  | n + 1, i, h, j, h1, h2 => by
    unfold scan_free at h
    by_cases hm : mask i = true
    · rw [if_pos hm] at h
      by_cases e : j = i
      · rw [e]; exact hm
      · exact scan_free_none mask n (i + 1) h j (by omega) (by omega)
    · rw [if_neg hm] at h; exact absurd h (by simp)

theorem scan_free_exists (mask : Nat → Bool) (n i j : Nat) (h1 : i ≤ j) (h2 : j < i + n)
    (hj : mask j = false) : ∃ k, scan_free mask n i = some k := by
  cases h : scan_free mask n i with
  | some k => exact ⟨k, rfl⟩
  | none =>
    have := scan_free_none mask n i h j h1 h2
    rw [hj] at this; exact absurd this (by simp)

theorem scan_id_some (s : State) (id : Int) : ∀ (n i k : Nat), scan_id s id n i = some k →
    i ≤ k ∧ k < i + n ∧ s.entity_buffer_mask k = true ∧ (s.entity_buffer k).id = id ∧
      ∀ j, i ≤ j → j < k → ¬ (s.entity_buffer_mask j = true ∧ (s.entity_buffer j).id = id)
  | 0, _, _, h => by simp [scan_id] at h
  | n + 1, i, k, h => by
    unfold scan_id at h
    by_cases hm : s.entity_buffer_mask i = true ∧ (s.entity_buffer i).id = id
    · rw [if_pos hm] at h
      have : i = k := by simpa using h
      subst this
      exact ⟨le_refl _, by omega, hm.1, hm.2, fun j hj hjk => absurd hj (by omega)⟩
    · rw [if_neg hm] at h
      obtain ⟨h1, h2, h3, h4, h5⟩ := scan_id_some s id n (i + 1) k h
      refine ⟨by omega, by omega, h3, h4, fun j hj hjk => ?_⟩
      by_cases e : j = i
      · rw [e]; exact hm
      · exact h5 j (by omega) hjk

theorem scan_id_none (s : State) (id : Int) : ∀ (n i : Nat), scan_id s id n i = none →
    ∀ j, i ≤ j → j < i + n → ¬ (s.entity_buffer_mask j = true ∧ (s.entity_buffer j).id = id)
  | 0, _, _, j, h1, h2 => absurd h1 (by omega)
  | n + 1, i, h, j, h1, h2 => by
    unfold scan_id at h
    by_cases hm : s.entity_buffer_mask i = true ∧ (s.entity_buffer i).id = id
    · rw [if_pos hm] at h; exact absurd h (by simp)
    · rw [if_neg hm] at h
      by_cases e : j = i
      · rw [e]; exact hm
      · exact scan_id_none s id n (i + 1) h j (by omega) (by omega)

theorem occupancy_succ (mask : Nat → Bool) (n : Nat) :
    occupancy mask (n + 1) = occupancy mask n + (if mask n = true then 1 else 0) := by
  unfold occupancy
  rw [List.range_succ, List.filter_append, List.length_append]
  by_cases h : mask n = true <;> simp [h]

theorem occupancy_le (mask : Nat → Bool) : ∀ n, occupancy mask n ≤ n
  | 0 => by simp [occupancy]
  | n + 1 => by
    rw [occupancy_succ]
    have := occupancy_le mask n
    split <;> omega

theorem occupancy_congr (mask mask' : Nat → Bool) : ∀ n, (∀ j, j < n → mask' j = mask j) →
    occupancy mask' n = occupancy mask n
  | 0, _ => by simp [occupancy]
  | n + 1, h => by
    rw [occupancy_succ, occupancy_succ, h n (by omega),
      occupancy_congr mask mask' n (fun j hj => h j (by omega))]

theorem occupancy_set (mask : Nat → Bool) (i : Nat) (hi : mask i = false) : ∀ n,
    occupancy (upd mask i true) n = occupancy mask n + (if i < n then 1 else 0)
  | 0 => by simp [occupancy]
  | n + 1 => by
    rw [occupancy_succ, occupancy_succ, occupancy_set mask i hi n]
    by_cases e : n = i
    · subst e; simp [hi]
    · have h1 : upd mask i true n = mask n := upd_other _ _ e
      rw [h1]
      have : (i < n + 1) ↔ (i < n) := by omega
      simp only [this]
      omega

theorem occupancy_clear (mask : Nat → Bool) (i : Nat) (hi : mask i = true) : ∀ n,
    occupancy (upd mask i false) n + (if i < n then 1 else 0) = occupancy mask n
  | 0 => by simp [occupancy]
  | n + 1 => by
    rw [occupancy_succ, occupancy_succ]
    have ih := occupancy_clear mask i hi n
    by_cases e : n = i
    · subst e
      simp [hi] at ih ⊢
      omega
    · have h1 : upd mask i false n = mask n := upd_other _ _ e
      rw [h1]
      have : (i < n + 1) ↔ (i < n) := by omega
      simp only [this]
      omega

theorem occupancy_lt_of_free (mask : Nat → Bool) (i n : Nat) (hi : mask i = false)
    (hn : i < n) : occupancy mask n < n := by
  have h1 := occupancy_set mask i hi n
  have h2 := occupancy_le (upd mask i true) n
  rw [if_pos hn] at h1
  omega

theorem occupancy_pos_of_set (mask : Nat → Bool) (i n : Nat) (hi : mask i = true)
    (hn : i < n) : 0 < occupancy mask n := by
  have h1 := occupancy_clear mask i hi n
  rw [if_pos hn] at h1
  omega

theorem wrap32_of_range (x : Int) (h1 : -2147483648 ≤ x) (h2 : x < 2147483648) :
    wrap32 x = x := by
  unfold wrap32; omega

theorem wrap32_succ_ne (x : Int) : wrap32 (x + 1) ≠ x := by
  unfold wrap32; omega

theorem wrap32_succ_succ_ne (x : Int) : wrap32 (wrap32 (x + 1) + 1) ≠ x := by
  unfold wrap32; omega

/-- A duplicate-free list of pool slots is no longer than the pool. -/
theorem length_le_of_nodup (l : List Nat) (n : Nat) (hnd : l.Nodup) (h : ∀ j ∈ l, j < n) :
    l.length ≤ n := by
  have hsub : l ⊆ List.range n := fun j hj => List.mem_range.2 (h j hj)
  have := (List.subperm_of_subset hnd hsub).length_le
  simpa using this

/-! ## Entity data -/

theorem Entity.data_eq_iff (e e' : Entity) : e.data = e'.data ↔
    e.id = e'.id ∧ e.type = e'.type ∧ e.position = e'.position ∧
    e.orientation = e'.orientation ∧ e.scale = e'.scale ∧ e.sprite = e'.sprite ∧
    e.sprite_size = e'.sprite_size ∧ e.is_visible = e'.is_visible ∧ e.create = e'.create ∧
    e.destroy = e'.destroy ∧ e.update = e'.update ∧ e.derived = e'.derived := by
  cases e; cases e'
  simp [Entity.data]

theorem Entity.eq_of_data (e e' : Entity) (h : e.data = e'.data) (hp : e.parent = e'.parent)
    (hc : e.child = e'.child) (hs : e.sibling = e'.sibling) : e = e' := by
  cases e; cases e'
  simp [Entity.data] at h hp hc hs ⊢
  simp [h, hp, hc, hs]

/-! ## The allocation half of `create_entity` -/

theorem SameData.type_eq {s t : State} (h : SameData s t) (j : Nat) :
    (t.entity_buffer j).type = (s.entity_buffer j).type :=
  ((Entity.data_eq_iff _ _).1 (h.entities j)).2.1

theorem SameData.id_eq {s t : State} (h : SameData s t) (j : Nat) :
    (t.entity_buffer j).id = (s.entity_buffer j).id :=
  ((Entity.data_eq_iff _ _).1 (h.entities j)).1

theorem SameData.create_eq {s t : State} (h : SameData s t) (j : Nat) :
    (t.entity_buffer j).create = (s.entity_buffer j).create :=
  ((Entity.data_eq_iff _ _).1 (h.entities j)).2.2.2.2.2.2.2.2.1

theorem SameData.destroy_eq {s t : State} (h : SameData s t) (j : Nat) :
    (t.entity_buffer j).destroy = (s.entity_buffer j).destroy :=
  ((Entity.data_eq_iff _ _).1 (h.entities j)).2.2.2.2.2.2.2.2.2.1

theorem SameData.derived_eq {s t : State} (h : SameData s t) (j : Nat) :
    (t.entity_buffer j).derived = (s.entity_buffer j).derived :=
  ((Entity.data_eq_iff _ _).1 (h.entities j)).2.2.2.2.2.2.2.2.2.2.2

theorem SameData.data_symm {s t : State} (h : SameData s t) : SameData t s :=
  ⟨h.mask.symm, h.players.symm, h.player_mask.symm, h.laser_mask.symm, h.next.symm,
   h.active.symm, h.creates.symm, h.destroys.symm, fun j => (h.entities j).symm, h.root.symm⟩

theorem bind_type_links (s : State) (i : Nat) : SameLinks s (bind_type s i) := by
  unfold bind_type
  cases (s.entity_buffer i).type with
  | NONE => exact SameLinks.refl s
  | PLAYER =>
    have h1 := SameLinks.of_modify s (EntityPtr.slot i) (fun e => { e with
      create := some Hook.player, destroy := some Hook.player, update := some Hook.player })
      (fun _ => rfl) (fun _ => rfl) (fun _ => rfl)
    simp only []
    split
    · exact h1
    · refine h1.trans ⟨?_, ?_, ?_, rfl, rfl, rfl⟩ <;>
      · intro j
        simp only [upd_apply]
        split
        · next e => subst e; rfl
        · rfl
  | LASER =>
    have h1 := SameLinks.of_modify s (EntityPtr.slot i) (fun e => { e with
      create := some Hook.laser, destroy := some Hook.laser, update := some Hook.laser })
      (fun _ => rfl) (fun _ => rfl) (fun _ => rfl)
    simp only []
    split
    · exact h1
    · refine h1.trans ⟨?_, ?_, ?_, rfl, rfl, rfl⟩ <;>
      · intro j
        simp only [upd_apply]
        split
        · next e => subst e; rfl
        · rfl

theorem bind_type_data {s t : State} (h : SameData s t) (i : Nat) :
    SameData (bind_type s i) (bind_type t i) := by
  have ht := h.type_eq i
  have hm := h.player_mask
  have hlm := h.laser_mask
  have he := fun j => (Entity.data_eq_iff _ _).1 (h.entities j)
  unfold bind_type
  rw [ht]
  cases (s.entity_buffer i).type with
  | NONE => exact h
  | PLAYER =>
    simp only [modify_player_mask, hm]
    cases scan_free s.player_buffer_mask PLAYER_COUNT 0 with
    | none =>
      refine ⟨by simp [h.mask], by simp [h.players], by simp [h.player_mask],
        by simp [h.laser_mask], by simp [h.next], by simp [h.active], by simp [h.creates],
        by simp [h.destroys], ?_, ?_⟩
      · intro j
        rw [modify_entity, modify_entity, Entity.data_eq_iff]
        split <;> simp [he j]
      · rw [modify_root, modify_root]; simpa using h.root
    | some k =>
      refine ⟨by simp [h.mask], by simp [h.players], by simp [h.player_mask],
        by simp [h.laser_mask], by simp [h.next], by simp [h.active], by simp [h.creates],
        by simp [h.destroys], ?_, ?_⟩
      · intro j
        simp only [upd_apply]
        rw [Entity.data_eq_iff]
        split
        · simp [modify_entity, he i]
        · rw [modify_entity, modify_entity]; split <;> simp [he j]
      · simp only []; rw [modify_root, modify_root]; simpa using h.root
  | LASER =>
    simp only [modify_laser_mask, hlm]
    cases scan_free s.laser_buffer_mask LASER_COUNT 0 with
    | none =>
      refine ⟨by simp [h.mask], by simp [h.players], by simp [h.player_mask],
        by simp [h.laser_mask], by simp [h.next], by simp [h.active], by simp [h.creates],
        by simp [h.destroys], ?_, ?_⟩
      · intro j
        rw [modify_entity, modify_entity, Entity.data_eq_iff]
        split <;> simp [he j]
      · rw [modify_root, modify_root]; simpa using h.root
    | some k =>
      refine ⟨by simp [h.mask], by simp [h.players], by simp [h.player_mask],
        by simp [h.laser_mask], by simp [h.next], by simp [h.active], by simp [h.creates],
        by simp [h.destroys], ?_, ?_⟩
      · intro j
        simp only [upd_apply]
        rw [Entity.data_eq_iff]
        split
        · simp [modify_entity, he i]
        · rw [modify_entity, modify_entity]; split <;> simp [he j]
      · simp only []; rw [modify_root, modify_root]; simpa using h.root

theorem bump_counters_links (s : State) : SameLinks s (bump_counters s) :=
  ⟨fun _ => rfl, fun _ => rfl, fun _ => rfl, rfl, rfl, rfl⟩

theorem bump_counters_data {s t : State} (h : SameData s t) :
    SameData (bump_counters s) (bump_counters t) := by
  refine ⟨h.mask, h.players, h.player_mask, h.laser_mask, ?_, ?_, h.creates, h.destroys,
    h.entities, h.root⟩
  · simp [bump_counters, h.next]
  · simp [bump_counters, h.active]

theorem check_parent_none (s : State) (parent : EntityPtr)
    (h : check_parent s parent = none) :
    parent = EntityPtr.root ∨
      ∃ k, parent = EntityPtr.slot k ∧ k < ENTITY_COUNT ∧ s.entity_buffer_mask k = true := by
  cases parent with
  | null => simp [check_parent] at h
  | root => exact Or.inl rfl
  | slot k =>
    unfold check_parent at h
    by_cases h1 : k < ENTITY_COUNT
    · by_cases h2 : s.entity_buffer_mask k = true
      · exact Or.inr ⟨k, rfl, h1, h2⟩
      · simp [h1, h2] at h
    · simp [h1] at h

theorem ChainOK.length_lt {s : State} {n : EntityPtr} {l : List Nat} (hnd : l.Nodup)
    (h : ∀ j ∈ l, s.live j ∧ (s.entity_buffer j).parent = n) : l.length < WALK_FUEL := by
  have := length_le_of_nodup l ENTITY_COUNT hnd (fun j hj => (h j hj).1.1)
  unfold WALK_FUEL; omega

theorem alloc_chain (s : State) (i : Nat) (type : Entity_Type) (n : EntityPtr) (l : List Nat)
    (hn : n ≠ EntityPtr.slot i) (hl : Chain s (s.child_of n) l) (hi : i ∉ l) :
    Chain (alloc_entity s i type) ((alloc_entity s i type).child_of n) l := by
  have hc : (alloc_entity s i type).child_of n = s.child_of n := by
    cases n with
    | null => rfl
    | root => rfl
    | slot k =>
      have : k ≠ i := fun e => hn (by rw [e])
      simp [State.child_of, State.deref, alloc_entity, upd_other _ _ this]
  rw [hc]
  refine chain_congr s _ l _ (fun j hj => ?_) hl
  have : j ≠ i := fun e => hi (e ▸ hj)
  simp [alloc_entity, upd_other _ _ this]

/-- Lines 88-161 in a state with well-formed chains, once a free slot `i` is found and the
parent assertions pass: the call returns `i`; apart from links the result is what
allocation and type binding write; the new entity is appended to the parent's chain. -/
theorem allocate_spec (s : State) (type : Entity_Type) (parent : EntityPtr) (i : Nat)
    (hG : Linked s) (hscan : scan_free s.entity_buffer_mask ENTITY_COUNT 0 = some i)
    (hcheck : check_parent (alloc_entity s i type) parent = none) :
    ∃ s', allocate type parent s = Res.ok s' i ∧
      SameData (bump_counters (bind_type (alloc_entity s i type) i)) s' ∧
      (s'.entity_buffer i).parent = parent ∧
      (∀ j, j ≠ i → (s'.entity_buffer j).parent = (s.entity_buffer j).parent) ∧
      s'.root_entity.parent = s.root_entity.parent ∧
      Chain s' (s'.child_of (EntityPtr.slot i))
        (if parent = EntityPtr.slot i then [i] else []) ∧
      (∀ n l, n ≠ EntityPtr.slot i → Chain s (s.child_of n) l →
        Chain s' (s'.child_of n) (if n = parent then l ++ [i] else l)) := by
  obtain ⟨_, hlt, hfree, _⟩ := scan_free_some _ _ _ _ hscan
  have hpn : parent ≠ EntityPtr.null := by
    rintro rfl; simp [check_parent] at hcheck
  have hdead : ∀ (n : EntityPtr) (l : List Nat),
      (∀ j ∈ l, s.live j ∧ (s.entity_buffer j).parent = n) → i ∉ l := by
    intro n l h hi
    have := (h i hi).1.2
    rw [hfree] at this; exact absurd this (by simp)
  -- the parent's chain in the state after allocation
  obtain ⟨lp, hlp, hndp, hmemp, hlp'⟩ : ∃ lp : List Nat,
      Chain (alloc_entity s i type) ((alloc_entity s i type).child_of parent) lp ∧ lp.Nodup ∧
      (∀ j ∈ lp, s.live j ∧ (s.entity_buffer j).parent = parent) ∧
      (parent ≠ EntityPtr.slot i → Chain s (s.child_of parent) lp) := by
    by_cases hpi : parent = EntityPtr.slot i
    · refine ⟨[], ?_, List.nodup_nil, by simp, fun h => absurd hpi h⟩
      subst hpi
      simp [State.child_of, State.deref, alloc_entity, Chain]
    · obtain ⟨l, h1, h2, h3⟩ := hG parent
      exact ⟨l, alloc_chain s i type parent l hpi h1 (hdead _ _ h3), h2, h3, fun _ => h1⟩
  obtain ⟨s2, hlink, hd, hpar, hparo, hparr, hch, hframe⟩ :=
    link_child_spec (alloc_entity s i type) parent i lp hpn hlp hndp (hdead _ _ hmemp)
      (ChainOK.length_lt hndp hmemp) (by simp [alloc_entity])
  have hl2 : SameLinks s2 (bump_counters (bind_type s2 i)) :=
    (bind_type_links s2 i).trans (bump_counters_links _)
  refine ⟨bump_counters (bind_type s2 i), ?_, bump_counters_data (bind_type_data hd i), ?_, ?_,
    ?_, ?_, ?_⟩
  · unfold allocate
    simp only [hscan, hcheck, hlink]
  · rw [hl2.parent, hpar]
  · intro j hj
    rw [hl2.parent, hparo j hj]
    simp [alloc_entity, upd_other _ _ hj]
  · rw [hl2.root_parent, hparr]; rfl
  · rw [hl2.child_of]
    refine hl2.chain ?_
    by_cases hpi : parent = EntityPtr.slot i
    · rw [if_pos hpi]
      have : lp = [] := by
        have h0 : Chain (alloc_entity s i type) ((alloc_entity s i type).child_of parent) [] := by
          subst hpi; simp [State.child_of, State.deref, alloc_entity, Chain]
        exact chain_unique _ _ _ _ hlp h0
      subst this
      rw [← hpi]; simpa using hch
    · rw [if_neg hpi]
      refine hframe _ [] (fun e => hpi e.symm) ?_ (by simp)
      simp [State.child_of, State.deref, alloc_entity, Chain]
  · intro n l hn hl
    rw [hl2.child_of]
    refine hl2.chain ?_
    obtain ⟨l0, h1, h2, h3⟩ := hG n
    have hll : l = l0 := chain_unique s _ _ _ hl h1
    subst hll
    by_cases hnp : n = parent
    · rw [if_pos hnp]
      subst hnp
      have : lp = l := chain_unique s _ _ _ (hlp' hn) hl
      subst this
      exact hch
    · rw [if_neg hnp]
      refine hframe n l hnp (alloc_chain s i type n l hn hl (hdead _ _ h3)) ?_
      intro j hj hj'
      exact hnp ((h3 j hj).2.symm.trans (hmemp j hj').2)

theorem allocate_ok (type : Entity_Type) (parent : EntityPtr) (s s' : State) (e : Nat)
    (h : allocate type parent s = Res.ok s' e) :
    scan_free s.entity_buffer_mask ENTITY_COUNT 0 = some e ∧
      check_parent (alloc_entity s e type) parent = none := by
  unfold allocate at h
  cases hscan : scan_free s.entity_buffer_mask ENTITY_COUNT 0 with
  | none => simp [hscan] at h
  | some i =>
    simp only [hscan] at h
    cases hcheck : check_parent (alloc_entity s i type) parent with
    | some f => simp [hcheck] at h
    | none =>
      simp only [hcheck] at h
      cases hlink : link_child (alloc_entity s i type) parent i with
      | fatal t f => simp [hlink] at h
      | hang t => simp [hlink] at h
      | ok s2 u =>
        simp only [hlink] at h
        have : i = e := by
          injection h
        subst this
        exact ⟨rfl, hcheck⟩

/-! ## The reclaiming half of `destroy_entity` -/

/-- What `release_payload` leaves untouched, and what it clears. -/
theorem release_payload_ok (s sp : State) (i : Nat) (h : release_payload s i = Res.ok sp ()) :
    sp.entity_buffer = s.entity_buffer ∧ sp.root_entity = s.root_entity ∧
    sp.entity_buffer_mask = s.entity_buffer_mask ∧ sp.player_buffer = s.player_buffer ∧
    sp.next_entity_id = s.next_entity_id ∧ sp.active_entities = s.active_entities ∧
    sp.ghost_creates = s.ghost_creates ∧ sp.ghost_destroys = s.ghost_destroys ∧
    ((s.entity_buffer i).type = Entity_Type.NONE → sp = s) ∧
    ((s.entity_buffer i).type = Entity_Type.PLAYER → ∃ k,
      (s.entity_buffer i).derived = PayloadPtr.player k ∧ k < PLAYER_COUNT ∧
      s.player_buffer_mask k = true ∧
      sp.player_buffer_mask = upd s.player_buffer_mask k false ∧
      sp.laser_buffer_mask = s.laser_buffer_mask) := by
  unfold release_payload at h
  cases ht : (s.entity_buffer i).type with
  | NONE =>
    simp only [ht] at h
    injection h with h1
    subst h1
    simp
  | PLAYER =>
    simp only [ht] at h
    cases hd : (s.entity_buffer i).derived with
    | null => simp [hd] at h
    | laser k => simp [hd] at h
    | player k =>
      simp only [hd] at h
      by_cases h1 : k < PLAYER_COUNT
      · by_cases h2 : s.player_buffer_mask k = true
        · simp only [h1, h2, not_true_eq_false, if_false, if_true] at h
          injection h with h3
          subst h3
          simp [h1, h2]
        · simp [h1, h2] at h
      · simp [h1] at h
  | LASER =>
    simp only [ht] at h
    cases hd : (s.entity_buffer i).derived with
    | null => simp [hd] at h
    | player k => simp [hd] at h
    | laser k =>
      simp only [hd] at h
      by_cases h1 : k < LASER_COUNT
      · by_cases h2 : s.laser_buffer_mask k = true
        · simp only [h1, h2, not_true_eq_false, if_false, if_true] at h
          injection h with h3
          subst h3
          simp
        · simp [h1, h2] at h
      · simp [h1] at h

theorem release_entity_links (s : State) (i : Nat) : SameLinks s (release_entity s i) :=
  ⟨fun _ => rfl, fun _ => rfl, fun _ => rfl, rfl, rfl, rfl⟩

theorem release_entity_data {s t : State} (h : SameData s t) (i : Nat) :
    SameData (release_entity s i) (release_entity t i) := by
  refine ⟨?_, h.players, h.player_mask, h.laser_mask, h.next, ?_, h.creates, h.destroys,
    h.entities, h.root⟩
  · simp [release_entity, h.mask]
  · simp [release_entity, h.active]

theorem links_of_buffers {s t : State} (h1 : t.entity_buffer = s.entity_buffer)
    (h2 : t.root_entity = s.root_entity) : SameLinks s t :=
  ⟨fun _ => by rw [h1], fun _ => by rw [h1], fun _ => by rw [h1], by rw [h2], by rw [h2],
   by rw [h2]⟩

/-- Lines 180-222 in a state with well-formed chains, once the payload switch has passed:
the call returns exactly when the entity occurs in the child chain of the node its parent
link designates; then it is spliced out of that chain and nothing else is relinked. -/
theorem reclaim_spec (s sp : State) (i : Nat) (hG : Linked s)
    (hrel : release_payload s i = Res.ok sp ()) (l : List Nat)
    (hl : Chain s (s.child_of (s.entity_buffer i).parent) l) :
    (i ∉ l → ∀ s', reclaim i s ≠ Res.ok s' ()) ∧
    (i ∈ l → ∃ s', reclaim i s = Res.ok s' () ∧ SameData (release_entity sp i) s' ∧
      (∀ j, (s'.entity_buffer j).parent = (s.entity_buffer j).parent) ∧
      s'.root_entity.parent = s.root_entity.parent ∧
      ∀ n l', Chain s (s.child_of n) l' →
        Chain s' (s'.child_of n) (if n = (s.entity_buffer i).parent then l'.erase i else l')) := by
  obtain ⟨hb, hr, _⟩ := release_payload_ok s sp i hrel
  have hlinks : SameLinks s sp := links_of_buffers hb hr
  obtain ⟨l0, h1, h2, h3⟩ := hG (s.entity_buffer i).parent
  have hll : l = l0 := chain_unique s _ _ _ hl h1
  subst hll
  have hlen : l.length < WALK_FUEL := ChainOK.length_lt h2 h3
  have hlp : Chain sp (sp.child_of (sp.entity_buffer i).parent) l := by
    rw [hb, hlinks.child_of]; exact hlinks.chain hl
  constructor
  · intro hi s' hs'
    unfold reclaim at hs'
    simp only [hrel] at hs'
    cases hu : unlink_child sp i with
    | fatal t f => simp [hu] at hs'
    | hang t => simp [hu] at hs'
    | ok s2 u => exact unlink_child_missing sp i l hlp hlen hi s2 hu
  · intro hi
    obtain ⟨s2, hu, hd, hpar, hparr, hch, hframe⟩ := unlink_child_spec sp i l hlp h2 hlen hi
    have hl2 : SameLinks s2 (release_entity s2 i) := release_entity_links s2 i
    refine ⟨release_entity s2 i, ?_, release_entity_data hd i, ?_, ?_, ?_⟩
    · unfold reclaim
      simp only [hrel, hu]
    · intro j; rw [hl2.parent, hpar, hb]
    · rw [hl2.root_parent, hparr, hr]
    · intro n l' hl'
      rw [hl2.child_of]
      refine hl2.chain ?_
      rw [hb] at hch hframe
      by_cases hn : n = (s.entity_buffer i).parent
      · rw [if_pos hn]
        subst hn
        have : l' = l := chain_unique s _ _ _ hl' hl
        subst this
        exact hch
      · rw [if_neg hn]
        refine hframe n l' hn (by rw [hlinks.child_of]; exact hlinks.chain hl') ?_
        obtain ⟨l1, g1, _, g3⟩ := hG n
        have : l' = l1 := chain_unique s _ _ _ hl' g1
        subst this
        intro j hj hj'
        exact hn ((g3 j hj).2.symm.trans (h3 j hj').2)

/-! ## Effects of allocation -/

/-- The type switch writes only the bound entity and the payload pools. -/
theorem bind_type_frame (s : State) (i : Nat) :
    (bind_type s i).entity_buffer_mask = s.entity_buffer_mask ∧
    (bind_type s i).next_entity_id = s.next_entity_id ∧
    (bind_type s i).active_entities = s.active_entities ∧
    (bind_type s i).ghost_creates = s.ghost_creates ∧
    (bind_type s i).ghost_destroys = s.ghost_destroys ∧
    (bind_type s i).root_entity = s.root_entity ∧
    (∀ j, j ≠ i → (bind_type s i).entity_buffer j = s.entity_buffer j) ∧
    ((bind_type s i).entity_buffer i).id = (s.entity_buffer i).id ∧
    ((bind_type s i).entity_buffer i).type = (s.entity_buffer i).type := by
  unfold bind_type
  cases ht : (s.entity_buffer i).type with
  | NONE => simp [ht]
  | PLAYER =>
    simp only []
    split
    · refine ⟨by simp, by simp, by simp, by simp, by simp, by simp [modify_root], ?_, ?_, ?_⟩
      · intro j hj
        have : ¬ i = j := fun e => hj e.symm
        simp [modify_entity, this]
      · simp [modify_entity]
      · simp [modify_entity, ht]
    · refine ⟨by simp, by simp, by simp, by simp, by simp, by simp [modify_root], ?_, ?_, ?_⟩
      · intro j hj
        have : ¬ i = j := fun e => hj e.symm
        simp [modify_entity, this, upd_other _ _ hj]
      · simp [modify_entity]
      · simp [modify_entity, ht]
  | LASER =>
    simp only []
    split
    · refine ⟨by simp, by simp, by simp, by simp, by simp, by simp [modify_root], ?_, ?_, ?_⟩
      · intro j hj
        have : ¬ i = j := fun e => hj e.symm
        simp [modify_entity, this]
      · simp [modify_entity]
      · simp [modify_entity, ht]
    · refine ⟨by simp, by simp, by simp, by simp, by simp, by simp [modify_root], ?_, ?_, ?_⟩
      · intro j hj
        have : ¬ i = j := fun e => hj e.symm
        simp [modify_entity, this, upd_other _ _ hj]
      · simp [modify_entity]
      · simp [modify_entity, ht]

theorem allocate_effect (s s' : State) (type : Entity_Type) (parent : EntityPtr) (e : Nat)
    (hG : Linked s) (h : allocate type parent s = Res.ok s' e) :
    Allocated s type parent e s' := by
  obtain ⟨hscan, hcheck⟩ := allocate_ok type parent s s' e h
  obtain ⟨t, ht, h1, h2, h3, h4, h5, h6⟩ := allocate_spec s type parent e hG hscan hcheck
  rw [h] at ht
  injection ht with ht _
  subst ht
  exact ⟨⟨h, hscan, hcheck, h1, h2, h3, h4⟩, h5, h6⟩

namespace Allocation

variable {s s' : State} {type : Entity_Type} {parent : EntityPtr} {e : Nat}

theorem slot_lt (A : Allocation s type parent e s') : e < ENTITY_COUNT := by
  have := (scan_free_some _ _ _ _ A.scan).2.1
  omega

theorem was_free (A : Allocation s type parent e s') : s.entity_buffer_mask e = false :=
  (scan_free_some _ _ _ _ A.scan).2.2.1

theorem first_free (A : Allocation s type parent e s') (j : Nat) (hj : j < e) :
    s.entity_buffer_mask j = true :=
  (scan_free_some _ _ _ _ A.scan).2.2.2 j (Nat.zero_le _) hj

theorem alloc_mask (A : Allocation s type parent e s') :
    s'.entity_buffer_mask = upd s.entity_buffer_mask e true := by
  rw [A.data.mask]
  exact (bind_type_frame _ _).1

theorem alloc_next (A : Allocation s type parent e s') :
    s'.next_entity_id = wrap32 (s.next_entity_id + 1) := by
  rw [A.data.next]
  show wrap32 ((bind_type _ _).next_entity_id + 1) = _
  rw [(bind_type_frame _ _).2.1]; rfl

theorem alloc_active (A : Allocation s type parent e s') :
    s'.active_entities = wrap32 (s.active_entities + 1) := by
  rw [A.data.active]
  show wrap32 ((bind_type _ _).active_entities + 1) = _
  rw [(bind_type_frame _ _).2.2.1]; rfl

theorem alloc_creates (A : Allocation s type parent e s') : s'.ghost_creates = s.ghost_creates := by
  rw [A.data.creates]
  show (bind_type _ _).ghost_creates = _
  rw [(bind_type_frame _ _).2.2.2.1]; rfl

theorem alloc_destroys (A : Allocation s type parent e s') :
    s'.ghost_destroys = s.ghost_destroys := by
  rw [A.data.destroys]
  show (bind_type _ _).ghost_destroys = _
  rw [(bind_type_frame _ _).2.2.2.2.1]; rfl

theorem others (A : Allocation s type parent e s') (j : Nat) (hj : j ≠ e) :
    (s'.entity_buffer j).data = (s.entity_buffer j).data := by
  rw [A.data.entities]
  show ((bind_type _ _).entity_buffer j).data = _
  rw [(bind_type_frame _ _).2.2.2.2.2.2.1 j hj]
  simp [alloc_entity, upd_other _ _ hj]

theorem alloc_root (A : Allocation s type parent e s') : s'.root_entity.data = s.root_entity.data := by
  rw [A.data.root]
  show (bind_type _ _).root_entity.data = _
  rw [(bind_type_frame _ _).2.2.2.2.2.1]; rfl

theorem id (A : Allocation s type parent e s') : (s'.entity_buffer e).id = s.next_entity_id := by
  rw [A.data.id_eq]
  show ((bind_type _ _).entity_buffer e).id = _
  rw [(bind_type_frame _ _).2.2.2.2.2.2.2.1]
  simp [alloc_entity]

theorem alloc_type (A : Allocation s type parent e s') : (s'.entity_buffer e).type = type := by
  rw [A.data.type_eq]
  show ((bind_type _ _).entity_buffer e).type = _
  rw [(bind_type_frame _ _).2.2.2.2.2.2.2.2]
  simp [alloc_entity]

theorem live_new (A : Allocation s type parent e s') : s'.live e :=
  ⟨A.slot_lt, by rw [A.alloc_mask]; simp⟩

theorem live_old (A : Allocation s type parent e s') {j : Nat} (hj : s.live j) : s'.live j := by
  refine ⟨hj.1, ?_⟩
  rw [A.alloc_mask, upd_apply]
  split
  · rfl
  · exact hj.2

theorem alloc_live_iff (A : Allocation s type parent e s') (j : Nat) :
    s'.live j ↔ j = e ∨ s.live j := by
  constructor
  · intro h
    by_cases hj : j = e
    · exact Or.inl hj
    · refine Or.inr ⟨h.1, ?_⟩
      have := h.2
      rwa [A.alloc_mask, upd_other _ _ hj] at this
  · rintro (rfl | h)
    · exact A.live_new
    · exact A.live_old h

theorem parent_ok (A : Allocation s type parent e s') :
    parent = EntityPtr.root ∨ ∃ k, parent = EntityPtr.slot k ∧ (k = e ∨ s.live k) := by
  rcases check_parent_none _ _ A.check with h | ⟨k, h1, h2, h3⟩
  · exact Or.inl h
  · refine Or.inr ⟨k, h1, ?_⟩
    by_cases hk : k = e
    · exact Or.inl hk
    · refine Or.inr ⟨h2, ?_⟩
      simpa [alloc_entity, upd_other _ _ hk] using h3

/-- Allocation keeps the live counter equal to the occupancy, without overflow. -/
theorem alloc_counted (A : Allocation s type parent e s') (hC : Counted s) :
    Counted s' ∧ s'.active_entities = s.active_entities + 1 := by
  have h1 := occupancy_set s.entity_buffer_mask e A.was_free ENTITY_COUNT
  rw [if_pos A.slot_lt] at h1
  have h2 := occupancy_le (upd s.entity_buffer_mask e true) ENTITY_COUNT
  have h512 : ENTITY_COUNT = 512 := rfl
  have hC' : s.active_entities = (occupancy s.entity_buffer_mask ENTITY_COUNT : Int) := hC
  have h3 : s'.active_entities = s.active_entities + 1 := by
    rw [A.alloc_active]
    apply wrap32_of_range <;> omega
  refine ⟨?_, h3⟩
  show s'.active_entities = (occupancy s'.entity_buffer_mask ENTITY_COUNT : Int)
  rw [h3, A.alloc_mask, h1, hC']
  push_cast; rfl

end Allocation

namespace Allocated

variable {s s' : State} {type : Entity_Type} {parent : EntityPtr} {e : Nat}

/-- Allocation keeps every chain well formed. -/
theorem alloc_linked (A : Allocated s type parent e s') (hG : Linked s) : Linked s' := by
  intro n
  by_cases hn : n = EntityPtr.slot e
  · subst hn
    refine ⟨_, A.own_chain, ?_, ?_⟩
    · split <;> simp
    · intro j hj
      by_cases hp : parent = EntityPtr.slot e
      · rw [if_pos hp] at hj
        have : j = e := by simpa using hj
        subst this
        exact ⟨A.live_new, by rw [A.parent_new, hp]⟩
      · rw [if_neg hp] at hj; simp at hj
  · obtain ⟨l, h1, h2, h3⟩ := hG n
    have hel : e ∉ l := by
      intro he
      have := (h3 e he).1.2
      rw [A.was_free] at this; exact absurd this (by simp)
    refine ⟨_, A.chains n l hn h1, ?_, ?_⟩
    · split
      · rw [List.nodup_append]
        refine ⟨h2, by simp, ?_⟩
        intro x hx hx'
        have : x = e := by simpa using hx'
        exact hel (this ▸ hx)
      · exact h2
    · intro j hj
      have hcase : j ∈ l ∨ (j = e ∧ n = parent) := by
        by_cases hp : n = parent
        · rw [if_pos hp] at hj
          rcases List.mem_append.1 hj with h | h
          · exact Or.inl h
          · exact Or.inr ⟨by simpa using h, hp⟩
        · rw [if_neg hp] at hj; exact Or.inl hj
      rcases hcase with h | ⟨rfl, hp⟩
      · have hje : j ≠ e := fun e' => hel (e' ▸ h)
        exact ⟨A.live_old (h3 j h).1, by rw [A.parent_old j hje]; exact (h3 j h).2⟩
      · exact ⟨A.live_new, by rw [A.parent_new, hp]⟩

end Allocated

/-! ## Effects of reclaiming -/

theorem reclaim_effect (s s' : State) (e : Nat) (hG : Linked s)
    (h : reclaim e s = Res.ok s' ()) : ∃ sp, Reclaimed s sp e s' := by
  cases hrel : release_payload s e with
  | fatal t f => unfold reclaim at h; simp [hrel] at h
  | hang t => unfold reclaim at h; simp [hrel] at h
  | ok sp u =>
    obtain ⟨l, h1, _, _⟩ := hG (s.entity_buffer e).parent
    obtain ⟨hno, hyes⟩ := reclaim_spec s sp e hG hrel l h1
    by_cases he : e ∈ l
    · obtain ⟨t, ht, g1, g2, g3, g4⟩ := hyes he
      rw [h] at ht
      injection ht with ht _
      subst ht
      exact ⟨sp, ⟨h, hrel, g1, g2, g3⟩, ⟨l, h1, he⟩, g4⟩
    · exact absurd h (hno he s')

theorem reclaim_total (s sp : State) (e : Nat) (hG : Linked s)
    (hrel : release_payload s e = Res.ok sp ()) (l : List Nat)
    (hl : Chain s (s.child_of (s.entity_buffer e).parent) l) (he : e ∈ l) :
    ∃ s', reclaim e s = Res.ok s' () := by
  obtain ⟨t, ht, _⟩ := (reclaim_spec s sp e hG hrel l hl).2 he
  exact ⟨t, ht⟩

namespace Reclamation

variable {s sp s' : State} {e : Nat}

theorem reclaim_mask (R : Reclamation s sp e s') :
    s'.entity_buffer_mask = upd s.entity_buffer_mask e false := by
  rw [R.data.mask]
  show upd sp.entity_buffer_mask e false = _
  rw [(release_payload_ok s sp e R.payload).2.2.1]

theorem reclaim_next (R : Reclamation s sp e s') : s'.next_entity_id = s.next_entity_id := by
  rw [R.data.next]
  exact (release_payload_ok s sp e R.payload).2.2.2.2.1

theorem reclaim_active (R : Reclamation s sp e s') :
    s'.active_entities = wrap32 (s.active_entities - 1) := by
  rw [R.data.active]
  show wrap32 (sp.active_entities - 1) = _
  rw [(release_payload_ok s sp e R.payload).2.2.2.2.2.1]

theorem reclaim_creates (R : Reclamation s sp e s') : s'.ghost_creates = s.ghost_creates := by
  rw [R.data.creates]
  exact (release_payload_ok s sp e R.payload).2.2.2.2.2.2.1

theorem reclaim_destroys (R : Reclamation s sp e s') : s'.ghost_destroys = s.ghost_destroys := by
  rw [R.data.destroys]
  exact (release_payload_ok s sp e R.payload).2.2.2.2.2.2.2.1

theorem reclaim_players (R : Reclamation s sp e s') : s'.player_buffer = s.player_buffer := by
  rw [R.data.players]
  exact (release_payload_ok s sp e R.payload).2.2.2.1

theorem entities (R : Reclamation s sp e s') (j : Nat) :
    (s'.entity_buffer j).data = (s.entity_buffer j).data := by
  rw [R.data.entities]
  show (sp.entity_buffer j).data = _
  rw [(release_payload_ok s sp e R.payload).1]

theorem reclaim_root (R : Reclamation s sp e s') : s'.root_entity.data = s.root_entity.data := by
  rw [R.data.root]
  show sp.root_entity.data = _
  rw [(release_payload_ok s sp e R.payload).2.1]

theorem pools_of_none (R : Reclamation s sp e s')
    (ht : (s.entity_buffer e).type = Entity_Type.NONE) :
    s'.player_buffer_mask = s.player_buffer_mask ∧
      s'.laser_buffer_mask = s.laser_buffer_mask := by
  have := (release_payload_ok s sp e R.payload).2.2.2.2.2.2.2.2.1 ht
  subst this
  exact ⟨R.data.player_mask, R.data.laser_mask⟩

theorem pools_of_player (R : Reclamation s sp e s')
    (ht : (s.entity_buffer e).type = Entity_Type.PLAYER) :
    ∃ k, (s.entity_buffer e).derived = PayloadPtr.player k ∧ k < PLAYER_COUNT ∧
      s.player_buffer_mask k = true ∧
      s'.player_buffer_mask = upd s.player_buffer_mask k false ∧
      s'.laser_buffer_mask = s.laser_buffer_mask := by
  obtain ⟨k, h1, h2, h3, h4, h5⟩ := (release_payload_ok s sp e R.payload).2.2.2.2.2.2.2.2.2 ht
  exact ⟨k, h1, h2, h3, by rw [R.data.player_mask]; exact h4,
    by rw [R.data.laser_mask]; exact h5⟩

theorem reclaim_live_iff (R : Reclamation s sp e s') (j : Nat) : s'.live j ↔ j ≠ e ∧ s.live j := by
  unfold State.live
  rw [R.reclaim_mask, upd_apply]
  by_cases hj : j = e
  · simp [hj]
  · simp [hj]

/-- Reclaiming a live slot keeps the live counter equal to the occupancy, without
underflow. -/
theorem reclaim_counted (R : Reclamation s sp e s') (he : s.live e) (hC : Counted s) :
    Counted s' ∧ s'.active_entities = s.active_entities - 1 := by
  have h1 := occupancy_clear s.entity_buffer_mask e he.2 ENTITY_COUNT
  rw [if_pos he.1] at h1
  have h2 := occupancy_le s.entity_buffer_mask ENTITY_COUNT
  have h512 : ENTITY_COUNT = 512 := rfl
  have hC' : s.active_entities = (occupancy s.entity_buffer_mask ENTITY_COUNT : Int) := hC
  have h3 : s'.active_entities = s.active_entities - 1 := by
    rw [R.reclaim_active]
    apply wrap32_of_range <;> omega
  refine ⟨?_, h3⟩
  show s'.active_entities = (occupancy s'.entity_buffer_mask ENTITY_COUNT : Int)
  rw [h3, R.reclaim_mask, hC']
  omega

end Reclamation

namespace Reclaimed

variable {s sp s' : State} {e : Nat}

/-- Reclaiming keeps every chain well formed. -/
theorem reclaim_linked (R : Reclaimed s sp e s') (hG : Linked s) : Linked s' := by
  intro n
  obtain ⟨l, h1, h2, h3⟩ := hG n
  refine ⟨_, R.chains n l h1, ?_, ?_⟩
  · split
    · exact h2.erase e
    · exact h2
  · intro j hj
    have hcase : j ∈ l ∧ j ≠ e := by
      by_cases hp : n = (s.entity_buffer e).parent
      · rw [if_pos hp] at hj
        exact ⟨List.mem_of_mem_erase hj, fun e' => by
          subst e'; exact (List.Nodup.not_mem_erase h2) hj⟩
      · rw [if_neg hp] at hj
        refine ⟨hj, fun e' => hp ?_⟩
        subst e'
        exact (h3 j hj).2.symm
    exact ⟨(R.reclaim_live_iff j).2 ⟨hcase.2, (h3 j hcase.1).1⟩, by rw [R.parent]; exact (h3 j hcase.1).2⟩

end Reclaimed

/-! ## What the link steps write, whatever the shape of the chains -/

theorem link_child_ok (s s2 : State) (parent : EntityPtr) (i : Nat) (u : Unit)
    (h : link_child s parent i = Res.ok s2 u) :
    SameData s s2 ∧ (s2.entity_buffer i).parent = parent ∧
      (∀ j, j ≠ i → (s2.entity_buffer j).parent = (s.entity_buffer j).parent) ∧
      s2.root_entity.parent = s.root_entity.parent := by
  have hd1 : SameData s (s.modify (EntityPtr.slot i) (fun e => { e with parent := parent })) :=
    SameData.data_of_modify _ _ _ (fun _ => rfl)
  have hp1 : ∀ j, ((s.modify (EntityPtr.slot i)
      (fun e => { e with parent := parent })).entity_buffer j).parent
      = if j = i then parent else (s.entity_buffer j).parent := by
    intro j; rw [modify_entity]
    by_cases h : j = i
    · subst h; simp
    · have : ¬ i = j := fun e => h e.symm
      simp [h, this]
  have hr1 : (s.modify (EntityPtr.slot i) (fun e => { e with parent := parent })).root_entity
      = s.root_entity := by rw [modify_root]; simp
  have key : ∀ (q : EntityPtr) (f : Entity → Entity),
      Res.ok ((s.modify (EntityPtr.slot i) (fun e => { e with parent := parent })).modify q f) ()
        = Res.ok s2 u →
      (∀ e, (f e).data = e.data) → (∀ e, (f e).parent = e.parent) →
      SameData s s2 ∧ (s2.entity_buffer i).parent = parent ∧
      (∀ j, j ≠ i → (s2.entity_buffer j).parent = (s.entity_buffer j).parent) ∧
      s2.root_entity.parent = s.root_entity.parent := by
    intro q f heq hfd hfp
    injection heq with heq _
    subst heq
    refine ⟨hd1.data_trans (SameData.data_of_modify _ _ _ hfd), ?_, ?_, ?_⟩
    · rw [modify_entity]; split <;> simp [hfp, hp1]
    · intro j hj; rw [modify_entity]; split <;> simp [hfp, hp1, hj]
    · rw [modify_root, hr1]; split <;> simp [hfp]
  unfold link_child at h
  simp only [] at h
  split at h
  · exact absurd h (by simp)
  · split at h
    · split at h
      · exact absurd h (by simp)
      · exact absurd h (by simp)
      · exact key _ _ h (fun _ => rfl) (fun _ => rfl)
    · exact key _ _ h (fun _ => rfl) (fun _ => rfl)

theorem unlink_child_ok (s s2 : State) (i : Nat) (u : Unit)
    (h : unlink_child s i = Res.ok s2 u) :
    SameData s s2 ∧ (∀ j, (s2.entity_buffer j).parent = (s.entity_buffer j).parent) ∧
      s2.root_entity.parent = s.root_entity.parent := by
  have key : ∀ (q : EntityPtr) (f : Entity → Entity), Res.ok (s.modify q f) () = Res.ok s2 u →
      (∀ e, (f e).data = e.data) → (∀ e, (f e).parent = e.parent) →
      SameData s s2 ∧ (∀ j, (s2.entity_buffer j).parent = (s.entity_buffer j).parent) ∧
      s2.root_entity.parent = s.root_entity.parent := by
    intro q f heq hfd hfp
    injection heq with heq _
    subst heq
    refine ⟨SameData.data_of_modify _ _ _ hfd, ?_, ?_⟩
    · intro j; rw [modify_entity]; split <;> simp [hfp]
    · rw [modify_root]; split <;> simp [hfp]
  unfold unlink_child at h
  simp only [] at h
  split at h
  · exact absurd h (by simp)
  · split at h
    · exact key _ _ h (fun _ => rfl) (fun _ => rfl)
    · split at h
      · exact absurd h (by simp)
      · exact absurd h (by simp)
      · exact key _ _ h (fun _ => rfl) (fun _ => rfl)

/-- What a returning allocation has written, in any state. -/
theorem allocate_data (s s' : State) (type : Entity_Type) (parent : EntityPtr) (e : Nat)
    (h : allocate type parent s = Res.ok s' e) : Allocation s type parent e s' := by
  obtain ⟨hscan, hcheck⟩ := allocate_ok type parent s s' e h
  have hret := h
  unfold allocate at h
  simp only [hscan, hcheck] at h
  cases hlink : link_child (alloc_entity s e type) parent e with
  | fatal t f => simp [hlink] at h
  | hang t => simp [hlink] at h
  | ok s2 u =>
    simp only [hlink] at h
    injection h with h _
    subst h
    obtain ⟨hd, h1, h2, h3⟩ := link_child_ok _ _ _ _ _ hlink
    have hl2 : SameLinks s2 (bump_counters (bind_type s2 e)) :=
      (bind_type_links s2 e).trans (bump_counters_links _)
    refine ⟨hret, hscan, hcheck, bump_counters_data (bind_type_data hd e), ?_, ?_, ?_⟩
    · rw [hl2.parent, h1]
    · intro j hj
      rw [hl2.parent, h2 j hj]
      simp [alloc_entity, upd_other _ _ hj]
    · rw [hl2.root_parent, h3]; rfl

/-- What a returning reclamation has written, in any state. -/
theorem reclaim_data (s s' : State) (e : Nat) (h : reclaim e s = Res.ok s' ()) :
    ∃ sp, Reclamation s sp e s' := by
  have hret := h
  unfold reclaim at h
  cases hrel : release_payload s e with
  | fatal t f => simp [hrel] at h
  | hang t => simp [hrel] at h
  | ok sp u =>
    simp only [hrel] at h
    cases hu : unlink_child sp e with
    | fatal t f => simp [hu] at h
    | hang t => simp [hu] at h
    | ok s2 u2 =>
      simp only [hu] at h
      injection h with h _
      subst h
      obtain ⟨hd, h1, h2⟩ := unlink_child_ok _ _ _ _ hu
      obtain ⟨hb, hr, _⟩ := release_payload_ok s sp e hrel
      have hl2 : SameLinks s2 (release_entity s2 e) := release_entity_links s2 e
      refine ⟨sp, hret, hrel, release_entity_data hd e, ?_, ?_⟩
      · intro j; rw [hl2.parent, h1, hb]
      · rw [hl2.root_parent, h2, hr]

/-! ## The operations as sequences of steps -/

theorem Entity.core_of_data {e e' : Entity} (h : e'.data = e.data) : e'.core = e.core := by
  have := (Entity.data_eq_iff _ _).1 h
  simp [Entity.core, this.1, this.2.1, this.2.2.2.2.2.2.2.2.1, this.2.2.2.2.2.2.2.2.2.1,
    this.2.2.2.2.2.2.2.2.2.2.2]

theorem Entity.core_eq_iff (e e' : Entity) : e'.core = e.core ↔
    e'.id = e.id ∧ e'.type = e.type ∧ e'.create = e.create ∧ e'.destroy = e.destroy ∧
      e'.derived = e.derived := by
  simp [Entity.core]

theorem Entity.plain_congr {e e' : Entity} (h : e'.core = e.core) (hp : e.plain) :
    e'.plain := by
  obtain ⟨_, h2, h3, h4, h5⟩ := (Entity.core_eq_iff _ _).1 h
  exact ⟨h2.trans hp.1, h3.trans hp.2.1, h4.trans hp.2.2.1, h5.trans hp.2.2.2⟩

theorem Entity.piloted_congr {e e' : Entity} (h : e'.core = e.core) (hp : e.piloted) :
    e'.piloted := by
  obtain ⟨_, h2, h3, h4, h5⟩ := (Entity.core_eq_iff _ _).1 h
  exact ⟨h2.trans hp.1, h3.trans hp.2.1, h4.trans hp.2.2.1, h5.trans hp.2.2.2⟩

theorem Entity.not_plain_and_piloted {e : Entity} (h1 : e.plain) (h2 : e.piloted) : False := by
  have := h1.1.symm.trans h2.1
  exact absurd this (by simp)

/-- The entity a NONE allocation leaves has the default fields and the next identifier. -/
theorem Allocation.none_data {s s' : State} {parent : EntityPtr} {e : Nat}
    (A : Allocation s Entity_Type.NONE parent e s') :
    (s'.entity_buffer e).data = ({ id := s.next_entity_id } : Entity).data ∧
    s'.player_buffer = s.player_buffer ∧ s'.player_buffer_mask = s.player_buffer_mask ∧
    s'.laser_buffer_mask = s.laser_buffer_mask := by
  have h0 : bind_type (alloc_entity s e Entity_Type.NONE) e = alloc_entity s e Entity_Type.NONE := by
    simp [bind_type, alloc_entity]
  have hd := A.data
  rw [h0] at hd
  refine ⟨?_, hd.players, hd.player_mask, hd.laser_mask⟩
  rw [hd.entities]
  simp [bump_counters, alloc_entity]

theorem Allocation.none_plain {s s' : State} {parent : EntityPtr} {e : Nat}
    (A : Allocation s Entity_Type.NONE parent e s') : (s'.entity_buffer e).plain := by
  have := (Entity.data_eq_iff _ _).1 A.none_data.1
  exact ⟨this.2.1, this.2.2.2.2.2.2.2.2.1, this.2.2.2.2.2.2.2.2.2.1,
    this.2.2.2.2.2.2.2.2.2.2.2⟩

/-- The call `create_entity(NONE, parent)` is the allocation followed by the ghost step: no hook
runs. -/
theorem create_none_iff (L : LaserHooks) (d : Nat) (s s' : State) (parent : EntityPtr)
    (e : Nat) :
    create_entity_aux L (d + 1) Entity_Type.NONE parent s = Res.ok s' e ↔
      ∃ s1, allocate Entity_Type.NONE parent s = Res.ok s1 e ∧ s' = note_created s1 := by
  unfold create_entity_aux
  cases ha : allocate Entity_Type.NONE parent s with
  | fatal t f => simp
  | hang t => simp
  | ok s1 i =>
    have hc : (s1.entity_buffer i).create = none :=
      (allocate_data _ _ _ _ _ ha).none_plain.2.1
    simp only [hc]
    constructor
    · intro h
      injection h with h1 h2
      subst h2
      exact ⟨s1, rfl, h1.symm⟩
    · rintro ⟨s2, h1, h2⟩
      injection h1 with h3 h4
      subst h3 h4 h2
      rfl

/-- The call `destroy_entity` on an entity without destroy hook is the two assertions, the
reclamation and the ghost step. -/
theorem destroy_plain_iff (L : LaserHooks) (d : Nat) (s s' : State) (e : Nat)
    (hd : (s.entity_buffer e).destroy = none) :
    destroy_entity_aux L (d + 1) (EntityPtr.slot e) s = Res.ok s' () ↔
      s.live e ∧ ∃ s1, reclaim e s = Res.ok s1 () ∧ s' = note_destroyed s1 := by
  unfold destroy_entity_aux State.live
  by_cases h1 : e < ENTITY_COUNT
  · by_cases h2 : s.entity_buffer_mask e = true
    · simp only [h1, h2, not_true_eq_false, if_false, hd, true_and]
      cases hr : reclaim e s with
      | fatal t f => simp
      | hang t => simp
      | ok s1 u =>
        constructor
        · intro h
          injection h with h3 _
          exact ⟨s1, rfl, h3.symm⟩
        · rintro ⟨s2, h3, h4⟩
          injection h3 with h5 _
          subst h5 h4
          rfl
    · simp [h1, h2]
  · simp [h1]

theorem scan_player_pool (mask : Nat → Bool) :
    scan_free mask PLAYER_COUNT 0 = if mask 0 = true then none else some 0 := by
  simp [PLAYER_COUNT, scan_free]

/-- The type switch on an entity of type PLAYER: the player hooks are bound; the payload
is slot 0 of the player pool when that slot is free; when it is occupied nothing is
allocated and the payload pointer is left as it was. -/
theorem bind_type_player (s : State) (i : Nat)
    (ht : (s.entity_buffer i).type = Entity_Type.PLAYER) :
    ((bind_type s i).entity_buffer i).create = some Hook.player ∧
    ((bind_type s i).entity_buffer i).destroy = some Hook.player ∧
    (bind_type s i).laser_buffer_mask = s.laser_buffer_mask ∧
    (s.player_buffer_mask 0 = false →
      ((bind_type s i).entity_buffer i).derived = PayloadPtr.player 0 ∧
      (bind_type s i).player_buffer_mask = upd s.player_buffer_mask 0 true ∧
      (bind_type s i).player_buffer = upd s.player_buffer 0 {}) ∧
    (s.player_buffer_mask 0 = true →
      ((bind_type s i).entity_buffer i).derived = (s.entity_buffer i).derived ∧
      (bind_type s i).player_buffer_mask = s.player_buffer_mask ∧
      (bind_type s i).player_buffer = s.player_buffer) := by
  unfold bind_type
  simp only [ht, modify_player_mask, scan_player_pool]
  by_cases hm : s.player_buffer_mask 0 = true
  · simp [hm, modify_entity]
  · have hm' : s.player_buffer_mask 0 = false := by simpa using hm
    simp [hm', modify_entity]

/-- The entity a PLAYER allocation leaves: the player hooks are bound; the payload is slot 0
of the player pool when that slot was free, and `NULL` when it was occupied. -/
theorem Allocation.player_data {s s' : State} {parent : EntityPtr} {e : Nat}
    (A : Allocation s Entity_Type.PLAYER parent e s') :
    (s'.entity_buffer e).type = Entity_Type.PLAYER ∧
    (s'.entity_buffer e).create = some Hook.player ∧
    (s'.entity_buffer e).destroy = some Hook.player ∧
    s'.laser_buffer_mask = s.laser_buffer_mask ∧
    (s.player_buffer_mask 0 = false →
      (s'.entity_buffer e).derived = PayloadPtr.player 0 ∧
      s'.player_buffer_mask = upd s.player_buffer_mask 0 true ∧
      s'.player_buffer = upd s.player_buffer 0 {}) ∧
    (s.player_buffer_mask 0 = true →
      (s'.entity_buffer e).derived = PayloadPtr.null ∧
      s'.player_buffer_mask = s.player_buffer_mask ∧
      s'.player_buffer = s.player_buffer) := by
  have hd := A.data
  have he := (Entity.data_eq_iff _ _).1 (hd.entities e)
  have ht : ((alloc_entity s e Entity_Type.PLAYER).entity_buffer e).type = Entity_Type.PLAYER := by
    simp [alloc_entity]
  obtain ⟨b1, b2, b3, b4, b5⟩ := bind_type_player (alloc_entity s e Entity_Type.PLAYER) e ht
  refine ⟨A.alloc_type, he.2.2.2.2.2.2.2.2.1.trans b1, he.2.2.2.2.2.2.2.2.2.1.trans b2,
    hd.laser_mask.trans b3, ?_, ?_⟩
  · intro hm
    obtain ⟨c1, c2, c3⟩ := b4 hm
    exact ⟨he.2.2.2.2.2.2.2.2.2.2.2.trans c1, hd.player_mask.trans c2, hd.players.trans c3⟩
  · intro hm
    obtain ⟨c1, c2, c3⟩ := b5 hm
    refine ⟨he.2.2.2.2.2.2.2.2.2.2.2.trans (c1.trans ?_), hd.player_mask.trans c2,
      hd.players.trans c3⟩
    simp [alloc_entity]

/-- The create hook of the player is two NONE allocations below the player, each followed
by the ghost step and the thruster settings, and then the write of both identifiers through
the payload pointer. -/
theorem create_player_iff (L : LaserHooks) (d : Nat) (s s' : State) (p : Nat) :
    create_player (create_entity_aux L (d + 1)) p s = Res.ok s' () ↔
      ∃ t2 l t3 r k,
        allocate Entity_Type.NONE (EntityPtr.slot p)
          (s.modify (EntityPtr.slot p) set_ship_sprite) = Res.ok t2 l ∧
        allocate Entity_Type.NONE (EntityPtr.slot p)
          ((note_created t2).modify (EntityPtr.slot l) (set_thruster (-3 / 10))) = Res.ok t3 r ∧
        (((note_created t3).modify (EntityPtr.slot r) (set_thruster (3 / 10))).entity_buffer
          p).derived = PayloadPtr.player k ∧
        s' = store_thrust_ids
          ((note_created t3).modify (EntityPtr.slot r) (set_thruster (3 / 10))) k l r := by
  unfold create_player
  simp only []
  cases h1 : create_entity_aux L (d + 1) Entity_Type.NONE (EntityPtr.slot p)
      (s.modify (EntityPtr.slot p) set_ship_sprite) with
  | fatal t f =>
    simp only [false_iff, reduceCtorEq]
    rintro ⟨t2, l, t3, r, k, g1, _⟩
    have := (create_none_iff L d _ _ _ _).2 ⟨t2, g1, rfl⟩
    rw [h1] at this; exact absurd this (by simp)
  | hang t =>
    simp only [false_iff, reduceCtorEq]
    rintro ⟨t2, l, t3, r, k, g1, _⟩
    have := (create_none_iff L d _ _ _ _).2 ⟨t2, g1, rfl⟩
    rw [h1] at this; exact absurd this (by simp)
  | ok s2 l =>
    obtain ⟨t2, ha2, rfl⟩ := (create_none_iff L d _ _ _ _).1 h1
    simp only []
    cases h2 : create_entity_aux L (d + 1) Entity_Type.NONE (EntityPtr.slot p)
        ((note_created t2).modify (EntityPtr.slot l) (set_thruster (-3 / 10))) with
    | fatal t f =>
      simp only [false_iff, reduceCtorEq]
      rintro ⟨t2', l', t3, r, k, g1, g2, _⟩
      rw [ha2] at g1
      injection g1 with e1 e2
      subst e1 e2
      have := (create_none_iff L d _ _ _ _).2 ⟨t3, g2, rfl⟩
      rw [h2] at this; exact absurd this (by simp)
    | hang t =>
      simp only [false_iff, reduceCtorEq]
      rintro ⟨t2', l', t3, r, k, g1, g2, _⟩
      rw [ha2] at g1
      injection g1 with e1 e2
      subst e1 e2
      have := (create_none_iff L d _ _ _ _).2 ⟨t3, g2, rfl⟩
      rw [h2] at this; exact absurd this (by simp)
    | ok s4 r =>
      obtain ⟨t3, ha3, rfl⟩ := (create_none_iff L d _ _ _ _).1 h2
      simp only []
      constructor
      · intro h
        cases hk : (((note_created t3).modify (EntityPtr.slot r)
            (set_thruster (3 / 10))).entity_buffer p).derived with
        | null => simp [hk] at h
        | laser k => simp [hk] at h
        | player k =>
          simp only [hk] at h
          injection h with h _
          exact ⟨t2, l, t3, r, k, ha2, ha3, hk, h.symm⟩
      · rintro ⟨t2', l', t3', r', k, g1, g2, g3, g4⟩
        rw [ha2] at g1
        injection g1 with e1 e2
        subst e1 e2
        rw [ha3] at g2
        injection g2 with e1 e2
        subst e1 e2
        simp only [g3, g4]

/-- The call `create_entity(PLAYER, parent)` is the allocation, the create hook of the player and
the ghost step. -/
theorem create_piloted_iff (L : LaserHooks) (d : Nat) (s s' : State) (parent : EntityPtr)
    (p : Nat) :
    create_entity_aux L (d + 2) Entity_Type.PLAYER parent s = Res.ok s' p ↔
      ∃ s1 s5, allocate Entity_Type.PLAYER parent s = Res.ok s1 p ∧
        create_player (create_entity_aux L (d + 1)) p s1 = Res.ok s5 () ∧
        s' = note_created s5 := by
  unfold create_entity_aux
  cases ha : allocate Entity_Type.PLAYER parent s with
  | fatal t f => simp
  | hang t => simp
  | ok s1 i =>
    have hc : (s1.entity_buffer i).create = some Hook.player :=
      (allocate_data _ _ _ _ _ ha).player_data.2.1
    simp only [hc]
    cases hh : create_player (create_entity_aux L (d + 1)) i s1 with
    | fatal t f =>
      simp only [false_iff, reduceCtorEq]
      rintro ⟨s1', s5, g1, g2, _⟩
      injection g1 with e1 e2
      subst e1 e2
      rw [hh] at g2; exact absurd g2 (by simp)
    | hang t =>
      simp only [false_iff, reduceCtorEq]
      rintro ⟨s1', s5, g1, g2, _⟩
      injection g1 with e1 e2
      subst e1 e2
      rw [hh] at g2; exact absurd g2 (by simp)
    | ok s5 u =>
      constructor
      · intro h
        injection h with h1 h2
        subst h2
        exact ⟨s1, s5, rfl, hh, h1.symm⟩
      · rintro ⟨s1', s5', g1, g2, g3⟩
        injection g1 with e1 e2
        subst e1 e2
        rw [hh] at g2
        injection g2 with e3 _
        subst e3 g3
        rfl

theorem find_entity_ok (id : Int) (s s' : State) (i : Nat) :
    find_entity id s = Res.ok s' i ↔ s' = s ∧ scan_id s id ENTITY_COUNT 0 = some i := by
  unfold find_entity
  cases h : scan_id s id ENTITY_COUNT 0 with
  | none => simp
  | some k =>
    constructor
    · intro h1
      injection h1 with h2 h3
      exact ⟨h2.symm, by rw [h3]⟩
    · rintro ⟨h1, h2⟩
      injection h2 with h3
      rw [h1, h3]

/-- The destroy hook of the player: both identifiers are looked up in the state the hook
starts in, then the entity found for the left one is destroyed, then the entity found for
the right one. -/
theorem destroy_player_iff (L : LaserHooks) (d : Nat) (s s' : State) (p : Nat) :
    destroy_player (destroy_entity_aux L (d + 1)) p s = Res.ok s' () ↔
      ∃ k x y s1, (s.entity_buffer p).derived = PayloadPtr.player k ∧
        scan_id s (s.player_buffer k).left_thrust_id ENTITY_COUNT 0 = some x ∧
        scan_id s (s.player_buffer k).right_thrust_id ENTITY_COUNT 0 = some y ∧
        destroy_entity_aux L (d + 1) (EntityPtr.slot x) s = Res.ok s1 () ∧
        destroy_entity_aux L (d + 1) (EntityPtr.slot y) s1 = Res.ok s' () := by
  unfold destroy_player
  cases hk : (s.entity_buffer p).derived with
  | null => simp
  | laser k => simp
  | player k =>
    simp only [find_entity]
    cases hx : scan_id s (s.player_buffer k).left_thrust_id ENTITY_COUNT 0 with
    | none => simp [hx]
    | some x =>
      simp only []
      cases hy : scan_id s (s.player_buffer k).right_thrust_id ENTITY_COUNT 0 with
      | none => simp [hx, hy]
      | some y =>
        simp only []
        cases h1 : destroy_entity_aux L (d + 1) (EntityPtr.slot x) s with
        | fatal t f => simp [hx, hy, h1]
        | hang t => simp [hx, hy, h1]
        | ok s1 u =>
          simp only []
          constructor
          · intro h
            exact ⟨k, x, y, s1, rfl, hx, hy, h1, h⟩
          · rintro ⟨k', x', y', s1', g1, g2, g3, g4, g5⟩
            injection g1 with g1
            subst g1
            rw [hx] at g2
            injection g2 with g2
            subst g2
            rw [hy] at g3
            injection g3 with g3
            subst g3
            rw [h1] at g4
            injection g4 with g4 _
            subst g4
            exact g5

/-- The call `destroy_entity` on an entity with the player's destroy hook is the two assertions, the
hook, the reclamation and the ghost step. -/
theorem destroy_piloted_iff (L : LaserHooks) (d : Nat) (s s' : State) (p : Nat)
    (hd : (s.entity_buffer p).destroy = some Hook.player) :
    destroy_entity_aux L (d + 2) (EntityPtr.slot p) s = Res.ok s' () ↔
      s.live p ∧ ∃ s2 s3, destroy_player (destroy_entity_aux L (d + 1)) p s = Res.ok s2 () ∧
        reclaim p s2 = Res.ok s3 () ∧ s' = note_destroyed s3 := by
  unfold destroy_entity_aux State.live
  by_cases h1 : p < ENTITY_COUNT
  · by_cases h2 : s.entity_buffer_mask p = true
    · simp only [h1, h2, not_true_eq_false, if_false, hd, true_and]
      cases hh : destroy_player (destroy_entity_aux L (d + 1)) p s with
      | fatal t f => simp
      | hang t => simp
      | ok s2 u =>
        simp only []
        cases hr : reclaim p s2 with
        | fatal t f => simp [hr]
        | hang t => simp [hr]
        | ok s3 u =>
          constructor
          · intro h
            injection h with h3 _
            exact ⟨s2, s3, rfl, hr, h3.symm⟩
          · rintro ⟨s2', s3', g1, g2, g3⟩
            injection g1 with g1 _
            subst g1
            rw [hr] at g2
            injection g2 with g2 _
            subst g2 g3
            rfl
    · simp [h1, h2]
  · simp [h1]

/-! ## The invariant `Sound`, step by step -/

theorem Linked.linked_transfer {s t : State} (hl : SameLinks s t)
    (hm : t.entity_buffer_mask = s.entity_buffer_mask) (h : Linked s) : Linked t := by
  intro n
  obtain ⟨l, h1, h2, h3⟩ := h n
  refine ⟨l, by rw [hl.child_of]; exact hl.chain h1, h2, fun j hj => ?_⟩
  obtain ⟨g1, g2⟩ := h3 j hj
  exact ⟨⟨g1.1, by rw [hm]; exact g1.2⟩, by rw [hl.parent]; exact g2⟩

theorem live_transfer {s t : State} (hm : t.entity_buffer_mask = s.entity_buffer_mask)
    (j : Nat) : t.live j ↔ s.live j := by
  unfold State.live; rw [hm]

/-- The invariant `Sound` only reads links, the entity mask, the live counter, the player mask and the
cores of the entities. -/
theorem Sound.sound_transfer {s t : State} (hl : SameLinks s t)
    (hm : t.entity_buffer_mask = s.entity_buffer_mask)
    (ha : t.active_entities = s.active_entities)
    (hp : t.player_buffer_mask = s.player_buffer_mask)
    (hc : ∀ j, (t.entity_buffer j).core = (s.entity_buffer j).core) (h : Sound s) :
    Sound t := by
  have hc' : ∀ j, (s.entity_buffer j).core = (t.entity_buffer j).core := fun j => (hc j).symm
  refine ⟨h.linked.linked_transfer hl hm, ?_, ?_, ?_, ?_⟩
  · show t.active_entities = (occupancy t.entity_buffer_mask ENTITY_COUNT : Int)
    rw [ha, hm]; exact h.counted
  · intro i hi
    rcases h.typed i ((live_transfer hm i).1 hi) with g | g
    · exact Or.inl (Entity.plain_congr (hc i) g)
    · exact Or.inr (Entity.piloted_congr (hc i) g)
  · intro i j hi hj gi gj
    exact h.single i j ((live_transfer hm i).1 hi) ((live_transfer hm j).1 hj)
      (Entity.piloted_congr (hc' i) gi) (Entity.piloted_congr (hc' j) gj)
  · rw [hp, h.owned]
    constructor
    · rintro ⟨i, hi, gi⟩
      exact ⟨i, (live_transfer hm i).2 hi, Entity.piloted_congr (hc i) gi⟩
    · rintro ⟨i, hi, gi⟩
      exact ⟨i, (live_transfer hm i).1 hi, Entity.piloted_congr (hc' i) gi⟩

theorem modify_core (s : State) (p : EntityPtr) (f : Entity → Entity)
    (hf : ∀ e, (f e).core = e.core) (j : Nat) :
    ((s.modify p f).entity_buffer j).core = (s.entity_buffer j).core := by
  rw [modify_entity]; split <;> simp [hf]

/-- A field update that keeps links and cores keeps `Sound`. -/
theorem Sound.modify {s : State} (p : EntityPtr) (f : Entity → Entity)
    (hc : ∀ e, (f e).core = e.core) (hp : ∀ e, (f e).parent = e.parent)
    (hch : ∀ e, (f e).child = e.child) (hs : ∀ e, (f e).sibling = e.sibling) (h : Sound s) :
    Sound (s.modify p f) :=
  h.sound_transfer (SameLinks.of_modify s p f hp hch hs) (by simp) (by simp) (by simp)
    (modify_core s p f hc)

theorem Sound.note_created {s : State} (h : Sound s) : Sound (Asteroids.note_created s) :=
  @Sound.sound_transfer s (Asteroids.note_created s)
    ⟨fun _ => rfl, fun _ => rfl, fun _ => rfl, rfl, rfl, rfl⟩ rfl rfl rfl (fun _ => rfl) h

theorem Sound.note_destroyed {s : State} (h : Sound s) : Sound (Asteroids.note_destroyed s) :=
  @Sound.sound_transfer s (Asteroids.note_destroyed s)
    ⟨fun _ => rfl, fun _ => rfl, fun _ => rfl, rfl, rfl, rfl⟩ rfl rfl rfl (fun _ => rfl) h

theorem Sound.store_thrust_ids {s : State} (k l r : Nat) (h : Sound s) :
    Sound (Asteroids.store_thrust_ids s k l r) :=
  @Sound.sound_transfer s (Asteroids.store_thrust_ids s k l r)
    ⟨fun _ => rfl, fun _ => rfl, fun _ => rfl, rfl, rfl, rfl⟩ rfl rfl rfl (fun _ => rfl) h

theorem Allocation.core_old {s s' : State} {type : Entity_Type} {parent : EntityPtr} {e : Nat}
    (A : Allocation s type parent e s') (j : Nat) (hj : j ≠ e) :
    (s'.entity_buffer j).core = (s.entity_buffer j).core :=
  Entity.core_of_data (A.others j hj)

theorem Reclamation.reclaim_core {s sp s' : State} {e : Nat} (R : Reclamation s sp e s') (j : Nat) :
    (s'.entity_buffer j).core = (s.entity_buffer j).core :=
  Entity.core_of_data (R.entities j)

theorem Sound.alloc_none {s s' : State} {parent : EntityPtr} {e : Nat}
    (A : Allocated s Entity_Type.NONE parent e s') (h : Sound s) : Sound s' := by
  have hpl := A.toAllocation.none_plain
  have hold : ∀ j, j ≠ e → (s.entity_buffer j).core = (s'.entity_buffer j).core :=
    fun j hj => (A.core_old j hj).symm
  have hne : ∀ j, (s'.entity_buffer j).piloted → j ≠ e := by
    rintro j hj rfl; exact Entity.not_plain_and_piloted hpl hj
  refine ⟨A.alloc_linked h.linked, (A.alloc_counted h.counted).1, ?_, ?_, ?_⟩
  · intro i hi
    rcases (A.alloc_live_iff i).1 hi with rfl | g
    · exact Or.inl hpl
    · have hie : i ≠ e := by
        rintro rfl
        have := g.2; rw [A.was_free] at this; exact absurd this (by simp)
      rcases h.typed i g with q | q
      · exact Or.inl (Entity.plain_congr (A.core_old i hie) q)
      · exact Or.inr (Entity.piloted_congr (A.core_old i hie) q)
  · intro i j hi hj gi gj
    have hi' : s.live i := ((A.alloc_live_iff i).1 hi).resolve_left (hne i gi)
    have hj' : s.live j := ((A.alloc_live_iff j).1 hj).resolve_left (hne j gj)
    exact h.single i j hi' hj' (Entity.piloted_congr (hold i (hne i gi)) gi)
      (Entity.piloted_congr (hold j (hne j gj)) gj)
  · rw [A.none_data.2.2.1, h.owned]
    constructor
    · rintro ⟨i, hi, gi⟩
      have hie : i ≠ e := by
        rintro rfl
        have := hi.2; rw [A.was_free] at this; exact absurd this (by simp)
      exact ⟨i, A.live_old hi, Entity.piloted_congr (A.core_old i hie) gi⟩
    · rintro ⟨i, hi, gi⟩
      exact ⟨i, ((A.alloc_live_iff i).1 hi).resolve_left (hne i gi),
        Entity.piloted_congr (hold i (hne i gi)) gi⟩

theorem Sound.alloc_player {s s' : State} {parent : EntityPtr} {e : Nat}
    (A : Allocated s Entity_Type.PLAYER parent e s') (hfree : s.player_buffer_mask 0 = false)
    (h : Sound s) : Sound s' := by
  obtain ⟨d1, d2, d3, _, d5, _⟩ := A.toAllocation.player_data
  obtain ⟨d6, d7, _⟩ := d5 hfree
  have hpi : (s'.entity_buffer e).piloted := ⟨d1, d2, d3, d6⟩
  have hnone : ∀ i, s.live i → ¬ (s.entity_buffer i).piloted := by
    intro i hi gi
    have := h.owned.2 ⟨i, hi, gi⟩
    rw [hfree] at this; exact absurd this (by simp)
  have hold : ∀ j, j ≠ e → (s.entity_buffer j).core = (s'.entity_buffer j).core :=
    fun j hj => (A.core_old j hj).symm
  have honly : ∀ j, s'.live j → (s'.entity_buffer j).piloted → j = e := by
    intro j hj gj
    by_contra hne
    exact hnone j (((A.alloc_live_iff j).1 hj).resolve_left hne) (Entity.piloted_congr (hold j hne) gj)
  refine ⟨A.alloc_linked h.linked, (A.alloc_counted h.counted).1, ?_, ?_, ?_⟩
  · intro i hi
    rcases (A.alloc_live_iff i).1 hi with rfl | g
    · exact Or.inr hpi
    · have hie : i ≠ e := by
        rintro rfl
        have := g.2; rw [A.was_free] at this; exact absurd this (by simp)
      rcases h.typed i g with q | q
      · exact Or.inl (Entity.plain_congr (A.core_old i hie) q)
      · exact Or.inr (Entity.piloted_congr (A.core_old i hie) q)
  · intro i j hi hj gi gj
    rw [honly i hi gi, honly j hj gj]
  · constructor
    · intro _; exact ⟨e, A.live_new, hpi⟩
    · intro _; rw [d7]; simp

theorem Sound.reclaim_plain {s sp s' : State} {e : Nat} (R : Reclaimed s sp e s')
    (he : s.live e) (hp : (s.entity_buffer e).plain) (h : Sound s) : Sound s' := by
  have hc : ∀ j, (s.entity_buffer j).core = (s'.entity_buffer j).core :=
    fun j => (R.reclaim_core j).symm
  refine ⟨R.reclaim_linked h.linked, (R.reclaim_counted he h.counted).1, ?_, ?_, ?_⟩
  · intro i hi
    rcases h.typed i ((R.reclaim_live_iff i).1 hi).2 with q | q
    · exact Or.inl (Entity.plain_congr (R.reclaim_core i) q)
    · exact Or.inr (Entity.piloted_congr (R.reclaim_core i) q)
  · intro i j hi hj gi gj
    exact h.single i j ((R.reclaim_live_iff i).1 hi).2 ((R.reclaim_live_iff j).1 hj).2
      (Entity.piloted_congr (hc i) gi) (Entity.piloted_congr (hc j) gj)
  · rw [(R.pools_of_none hp.1).1, h.owned]
    constructor
    · rintro ⟨i, hi, gi⟩
      have hie : i ≠ e := by
        rintro rfl; exact Entity.not_plain_and_piloted hp gi
      exact ⟨i, (R.reclaim_live_iff i).2 ⟨hie, hi⟩, Entity.piloted_congr (R.reclaim_core i) gi⟩
    · rintro ⟨i, hi, gi⟩
      exact ⟨i, ((R.reclaim_live_iff i).1 hi).2, Entity.piloted_congr (hc i) gi⟩

theorem Sound.reclaim_piloted {s sp s' : State} {e : Nat} (R : Reclaimed s sp e s')
    (he : s.live e) (hp : (s.entity_buffer e).piloted) (h : Sound s) :
    Sound s' ∧ s'.player_buffer_mask 0 = false := by
  have hc : ∀ j, (s.entity_buffer j).core = (s'.entity_buffer j).core :=
    fun j => (R.reclaim_core j).symm
  obtain ⟨k, k1, _, _, k4, _⟩ := R.pools_of_player hp.1
  have hk : k = 0 := by
    have := k1.symm.trans hp.2.2.2
    simpa using this
  subst hk
  have hoff : s'.player_buffer_mask 0 = false := by rw [k4]; simp
  have hnone : ∀ i, s'.live i → ¬ (s'.entity_buffer i).piloted := by
    intro i hi gi
    have := h.single i e ((R.reclaim_live_iff i).1 hi).2 he (Entity.piloted_congr (hc i) gi) hp
    exact ((R.reclaim_live_iff i).1 hi).1 this
  refine ⟨⟨R.reclaim_linked h.linked, (R.reclaim_counted he h.counted).1, ?_, ?_, ?_⟩, hoff⟩
  · intro i hi
    rcases h.typed i ((R.reclaim_live_iff i).1 hi).2 with q | q
    · exact Or.inl (Entity.plain_congr (R.reclaim_core i) q)
    · exact Or.inr (Entity.piloted_congr (R.reclaim_core i) q)
  · intro i j hi _ gi _
    exact absurd gi (hnone i hi)
  · constructor
    · intro h1; rw [hoff] at h1; exact absurd h1 (by simp)
    · rintro ⟨i, hi, gi⟩; exact absurd gi (hnone i hi)

/-! ## Creation and destruction of a player, step by step -/

theorem set_ship_sprite_core (e : Entity) : (set_ship_sprite e).core = e.core := rfl

theorem set_thruster_core (x : ℚ) (e : Entity) : (set_thruster x e).core = e.core := rfl

theorem links_set_ship_sprite (s : State) (p : EntityPtr) :
    SameLinks s (s.modify p set_ship_sprite) :=
  SameLinks.of_modify s p _ (fun _ => rfl) (fun _ => rfl) (fun _ => rfl)

theorem links_set_thruster (s : State) (p : EntityPtr) (x : ℚ) :
    SameLinks s (s.modify p (set_thruster x)) :=
  SameLinks.of_modify s p _ (fun _ => rfl) (fun _ => rfl) (fun _ => rfl)

theorem links_note_created (s : State) : SameLinks s (note_created s) :=
  ⟨fun _ => rfl, fun _ => rfl, fun _ => rfl, rfl, rfl, rfl⟩

theorem links_note_destroyed (s : State) : SameLinks s (note_destroyed s) :=
  ⟨fun _ => rfl, fun _ => rfl, fun _ => rfl, rfl, rfl, rfl⟩

theorem links_store_thrust_ids (s : State) (k l r : Nat) :
    SameLinks s (store_thrust_ids s k l r) :=
  ⟨fun _ => rfl, fun _ => rfl, fun _ => rfl, rfl, rfl, rfl⟩

theorem Linked.set_ship_sprite {s : State} (p : EntityPtr) (h : Linked s) :
    Linked (s.modify p Asteroids.set_ship_sprite) :=
  h.linked_transfer (links_set_ship_sprite s p) (by simp)

theorem Linked.thruster {s : State} (p : EntityPtr) (x : ℚ) (h : Linked s) :
    Linked ((Asteroids.note_created s).modify p (set_thruster x)) :=
  h.linked_transfer ((links_note_created s).trans (links_set_thruster _ p x)) (by simp [note_created])

/-- Through the hook of the player, the core of every entity that was live when the hook
started is kept. -/
theorem create_player_core {s1 t2 t3 : State} {p l r : Nat}
    (A2 : Allocation (s1.modify (EntityPtr.slot p) set_ship_sprite) Entity_Type.NONE
      (EntityPtr.slot p) l t2)
    (A3 : Allocation ((note_created t2).modify (EntityPtr.slot l) (set_thruster (-3 / 10)))
      Entity_Type.NONE (EntityPtr.slot p) r t3) (j : Nat) (hj : s1.live j) :
    j ≠ l ∧ j ≠ r ∧
    (((note_created t3).modify (EntityPtr.slot r) (set_thruster (3 / 10))).entity_buffer j).core
      = (s1.entity_buffer j).core := by
  have hjl : j ≠ l := by
    rintro rfl
    have := A2.was_free
    rw [modify_mask, hj.2] at this; exact absurd this (by simp)
  have hj2 : t2.live j := A2.live_old ⟨hj.1, by rw [modify_mask]; exact hj.2⟩
  have hjr : j ≠ r := by
    rintro rfl
    have := A3.was_free
    rw [modify_mask] at this
    have h2 := hj2.2
    simp only [note_created] at this
    rw [h2] at this; exact absurd this (by simp)
  refine ⟨hjl, hjr, ?_⟩
  rw [modify_core _ _ _ (set_thruster_core _)]
  show (t3.entity_buffer j).core = _
  rw [A3.core_old j hjr, modify_core _ _ _ (set_thruster_core _)]
  show (t2.entity_buffer j).core = _
  rw [A2.core_old j hjl, modify_core _ _ _ set_ship_sprite_core]

/-- In a sound state, `create_entity(PLAYER, parent)` returns slot `p` and state `s'`
exactly when the steps of `PlayerCreated` lead there. -/
theorem create_piloted_steps (L : LaserHooks) (d : Nat) (s s' : State) (parent : EntityPtr)
    (p : Nat) (hG : Linked s) :
    create_entity_aux L (d + 2) Entity_Type.PLAYER parent s = Res.ok s' p ↔
      ∃ l r s1 t2 t3, PlayerCreated s parent p l r s1 t2 t3 s' := by
  constructor
  · intro h
    obtain ⟨s1, s5, h1, h2, h3⟩ := (create_piloted_iff L d s s' parent p).1 h
    obtain ⟨t2, l, t3, r, k, g1, g2, g3, g4⟩ := (create_player_iff L d s1 s5 p).1 h2
    have A1 := allocate_effect s s1 _ _ _ hG h1
    have G1 := A1.alloc_linked hG
    have A2 := allocate_effect _ t2 _ _ _ (G1.set_ship_sprite _) g1
    have G2 := A2.alloc_linked (G1.set_ship_sprite _)
    have A3 := allocate_effect _ t3 _ _ _ (G2.thruster _ _) g2
    obtain ⟨_, _, hc⟩ := create_player_core A2.toAllocation A3.toAllocation p A1.live_new
    have hder := ((Entity.core_eq_iff _ _).1 hc).2.2.2.2
    rw [g3] at hder
    have hfree : s.player_buffer_mask 0 = false := by
      by_contra hm
      have hm' : s.player_buffer_mask 0 = true := by simpa using hm
      have := (A1.toAllocation.player_data.2.2.2.2.2 hm').1
      rw [this] at hder; exact absurd hder (by simp)
    have hk : k = 0 := by
      have := (A1.toAllocation.player_data.2.2.2.2.1 hfree).1
      rw [this] at hder
      simpa using hder
    subst hk
    exact ⟨l, r, s1, t2, t3, hfree, A1, A2, A3, by rw [h3, g4]⟩
  · rintro ⟨l, r, s1, t2, t3, hfree, A1, A2, A3, hres⟩
    obtain ⟨_, _, hc⟩ := create_player_core A2.toAllocation A3.toAllocation p A1.live_new
    have hder := ((Entity.core_eq_iff _ _).1 hc).2.2.2.2
    rw [(A1.toAllocation.player_data.2.2.2.2.1 hfree).1] at hder
    exact (create_piloted_iff L d s s' parent p).2 ⟨s1, _, A1.returned,
      (create_player_iff L d s1 _ p).2 ⟨t2, l, t3, r, 0, A2.returned, A3.returned, hder, rfl⟩,
      hres⟩

/-- In a sound state whose payload identifiers are paired, the entities found for the two
thruster identifiers of a live player are two different plain entities, neither of them the
player. -/
theorem thrusters_plain {s : State} {p x y : Nat} (hS : Sound s) (hP : Paired s)
    (hl : s.live p) (hp : (s.entity_buffer p).piloted)
    (hx : scan_id s (s.player_buffer 0).left_thrust_id ENTITY_COUNT 0 = some x)
    (hy : scan_id s (s.player_buffer 0).right_thrust_id ENTITY_COUNT 0 = some y) :
    x ≠ p ∧ y ≠ p ∧ x ≠ y ∧ s.live x ∧ s.live y ∧ (s.entity_buffer x).plain ∧
      (s.entity_buffer y).plain := by
  obtain ⟨_, x2, x3, x4, _⟩ := scan_id_some s _ _ _ _ hx
  obtain ⟨_, y2, y3, y4, _⟩ := scan_id_some s _ _ _ _ hy
  obtain ⟨p1, p2, p3⟩ := hP p hl hp
  have hlx : s.live x := ⟨by omega, x3⟩
  have hly : s.live y := ⟨by omega, y3⟩
  have hxp : x ≠ p := by rintro rfl; exact p1 x4.symm
  have hyp : y ≠ p := by rintro rfl; exact p2 y4.symm
  have hxy : x ≠ y := by rintro rfl; exact p3 (x4.symm.trans y4)
  refine ⟨hxp, hyp, hxy, hlx, hly, ?_, ?_⟩
  · rcases hS.typed x hlx with q | q
    · exact q
    · exact absurd (hS.single x p hlx hl q hp) hxp
  · rcases hS.typed y hly with q | q
    · exact q
    · exact absurd (hS.single y p hly hl q hp) hyp

/-- In a sound state whose payload identifiers are paired, `destroy_entity` on a player
entity returns state `s'` exactly when the entity is live and the steps of
`PlayerDestroyed` lead there. -/
theorem destroy_piloted_steps (L : LaserHooks) (d : Nat) (s s' : State) (p : Nat)
    (hS : Sound s) (hP : Paired s) (hp : (s.entity_buffer p).piloted) :
    destroy_entity_aux L (d + 2) (EntityPtr.slot p) s = Res.ok s' () ↔
      s.live p ∧ ∃ x y sx t1 sy t2 sp t3, PlayerDestroyed s p x y sx t1 sy t2 sp t3 s' := by
  have hstep : ∀ (x y : Nat), s.live p →
      scan_id s (s.player_buffer 0).left_thrust_id ENTITY_COUNT 0 = some x →
      scan_id s (s.player_buffer 0).right_thrust_id ENTITY_COUNT 0 = some y →
      ∀ t1, reclaim x s = Res.ok t1 () →
        (s.entity_buffer x).destroy = none ∧
        ((note_destroyed t1).entity_buffer y).destroy = none ∧ Linked (note_destroyed t1) ∧
        ∀ t2, reclaim y (note_destroyed t1) = Res.ok t2 () → Linked (note_destroyed t2) := by
    intro x y hl hx hy t1 h1
    obtain ⟨_, _, hxy, hlx, hly, hpx, hpy⟩ := thrusters_plain hS hP hl hp hx hy
    obtain ⟨sx, R1⟩ := reclaim_effect s t1 x hS.linked h1
    have S1 : Sound (note_destroyed t1) := (hS.reclaim_plain R1 hlx hpx).note_destroyed
    have hpy1 : ((note_destroyed t1).entity_buffer y).plain :=
      Entity.plain_congr (R1.reclaim_core y) hpy
    refine ⟨hpx.2.2.1, hpy1.2.2.1, S1.linked, fun t2 h2 => ?_⟩
    obtain ⟨sy, R2⟩ := reclaim_effect _ t2 y S1.linked h2
    have hly1 : (note_destroyed t1).live y := (R1.reclaim_live_iff y).2 ⟨fun e => hxy e.symm, hly⟩
    exact ((S1.reclaim_plain R2 hly1 hpy1).note_destroyed).linked
  rw [destroy_piloted_iff L d s s' p hp.2.2.1]
  constructor
  · rintro ⟨hl, s2, s3, h1, h2, h3⟩
    refine ⟨hl, ?_⟩
    obtain ⟨k, x, y, s1, g1, g2, g3, g4, g5⟩ := (destroy_player_iff L d s s2 p).1 h1
    have hk : k = 0 := by
      have := g1.symm.trans hp.2.2.2
      simpa using this
    subst hk
    obtain ⟨_, _, _, _, _, hpx, _⟩ := thrusters_plain hS hP hl hp g2 g3
    obtain ⟨_, t1, r1, rfl⟩ := (destroy_plain_iff L d s s1 x hpx.2.2.1).1 g4
    obtain ⟨_, q2, q3, q4⟩ := hstep x y hl g2 g3 t1 r1
    obtain ⟨_, t2, r2, rfl⟩ := (destroy_plain_iff L d _ s2 y q2).1 g5
    obtain ⟨sx, R1⟩ := reclaim_effect s t1 x hS.linked r1
    obtain ⟨sy, R2⟩ := reclaim_effect _ t2 y q3 r2
    obtain ⟨sp, R3⟩ := reclaim_effect _ s3 p (q4 t2 r2) h2
    exact ⟨x, y, sx, t1, sy, t2, sp, s3, g2, g3, R1, R2, R3, h3⟩
  · rintro ⟨hl, x, y, sx, t1, sy, t2, sp, t3, g2, g3, R1, R2, R3, h3⟩
    obtain ⟨q1, q2, _, _⟩ := hstep x y hl g2 g3 t1 R1.returned
    obtain ⟨_, _, hxy, hlx, hly, _, _⟩ := thrusters_plain hS hP hl hp g2 g3
    have hly1 : (note_destroyed t1).live y := (R1.reclaim_live_iff y).2 ⟨fun e => hxy e.symm, hly⟩
    refine ⟨hl, note_destroyed t2, t3, ?_, R3.returned, h3⟩
    exact (destroy_player_iff L d s _ p).2 ⟨0, x, y, note_destroyed t1, hp.2.2.2, g2, g3,
      (destroy_plain_iff L d s _ x q1).2 ⟨hlx, t1, R1.returned, rfl⟩,
      (destroy_plain_iff L d _ _ y q2).2 ⟨hly1, t2, R2.returned, rfl⟩⟩

@[simp] theorem note_created_entities (s : State) :
    (note_created s).entity_buffer = s.entity_buffer := rfl

@[simp] theorem note_created_mask (s : State) :
    (note_created s).entity_buffer_mask = s.entity_buffer_mask := rfl

@[simp] theorem note_created_next (s : State) :
    (note_created s).next_entity_id = s.next_entity_id := rfl

@[simp] theorem note_created_active (s : State) :
    (note_created s).active_entities = s.active_entities := rfl

@[simp] theorem note_created_players (s : State) :
    (note_created s).player_buffer = s.player_buffer := rfl

@[simp] theorem note_created_player_mask (s : State) :
    (note_created s).player_buffer_mask = s.player_buffer_mask := rfl

@[simp] theorem note_created_creates (s : State) :
    (note_created s).ghost_creates = s.ghost_creates + 1 := rfl

@[simp] theorem note_created_destroys (s : State) :
    (note_created s).ghost_destroys = s.ghost_destroys := rfl

@[simp] theorem note_created_root (s : State) :
    (note_created s).root_entity = s.root_entity := rfl

@[simp] theorem note_destroyed_entities (s : State) :
    (note_destroyed s).entity_buffer = s.entity_buffer := rfl

@[simp] theorem note_destroyed_mask (s : State) :
    (note_destroyed s).entity_buffer_mask = s.entity_buffer_mask := rfl

@[simp] theorem note_destroyed_next (s : State) :
    (note_destroyed s).next_entity_id = s.next_entity_id := rfl

@[simp] theorem note_destroyed_active (s : State) :
    (note_destroyed s).active_entities = s.active_entities := rfl

@[simp] theorem note_destroyed_players (s : State) :
    (note_destroyed s).player_buffer = s.player_buffer := rfl

@[simp] theorem note_destroyed_player_mask (s : State) :
    (note_destroyed s).player_buffer_mask = s.player_buffer_mask := rfl

@[simp] theorem note_destroyed_creates (s : State) :
    (note_destroyed s).ghost_creates = s.ghost_creates := rfl

@[simp] theorem note_destroyed_destroys (s : State) :
    (note_destroyed s).ghost_destroys = s.ghost_destroys + 1 := rfl

@[simp] theorem note_destroyed_root (s : State) :
    (note_destroyed s).root_entity = s.root_entity := rfl

@[simp] theorem store_thrust_ids_entities (s : State) (k l r : Nat) :
    (store_thrust_ids s k l r).entity_buffer = s.entity_buffer := rfl

@[simp] theorem store_thrust_ids_mask (s : State) (k l r : Nat) :
    (store_thrust_ids s k l r).entity_buffer_mask = s.entity_buffer_mask := rfl

@[simp] theorem store_thrust_ids_next (s : State) (k l r : Nat) :
    (store_thrust_ids s k l r).next_entity_id = s.next_entity_id := rfl

@[simp] theorem store_thrust_ids_active (s : State) (k l r : Nat) :
    (store_thrust_ids s k l r).active_entities = s.active_entities := rfl

@[simp] theorem store_thrust_ids_player_mask (s : State) (k l r : Nat) :
    (store_thrust_ids s k l r).player_buffer_mask = s.player_buffer_mask := rfl

@[simp] theorem store_thrust_ids_creates (s : State) (k l r : Nat) :
    (store_thrust_ids s k l r).ghost_creates = s.ghost_creates := rfl

@[simp] theorem store_thrust_ids_destroys (s : State) (k l r : Nat) :
    (store_thrust_ids s k l r).ghost_destroys = s.ghost_destroys := rfl

@[simp] theorem store_thrust_ids_root (s : State) (k l r : Nat) :
    (store_thrust_ids s k l r).root_entity = s.root_entity := rfl

namespace PlayerCreated

variable {s s1 t2 t3 s' : State} {parent : EntityPtr} {p l r : Nat}

theorem distinct (C : PlayerCreated s parent p l r s1 t2 t3 s') : p ≠ l ∧ p ≠ r ∧ l ≠ r := by
  obtain ⟨h1, h2, _⟩ := create_player_core C.left.toAllocation C.right.toAllocation p
    C.player.live_new
  refine ⟨h1, h2, ?_⟩
  rintro rfl
  have h3 := C.right.was_free
  have h4 := C.left.live_new.2
  simp only [modify_mask, note_created] at h3
  rw [h4] at h3; exact absurd h3 (by simp)

theorem created_mask (C : PlayerCreated s parent p l r s1 t2 t3 s') :
    s'.entity_buffer_mask = upd (upd (upd s.entity_buffer_mask p true) l true) r true := by
  rw [C.result, note_created_mask, store_thrust_ids_mask, modify_mask, note_created_mask,
    C.right.alloc_mask, modify_mask, note_created_mask, C.left.alloc_mask, modify_mask, C.player.alloc_mask]

theorem created_live_iff (C : PlayerCreated s parent p l r s1 t2 t3 s') (j : Nat) :
    s'.live j ↔ j = p ∨ j = l ∨ j = r ∨ s.live j := by
  have h1 := C.player.alloc_live_iff j
  have h2 := C.left.alloc_live_iff j
  have h3 := C.right.alloc_live_iff j
  have e1 : (s1.modify (EntityPtr.slot p) set_ship_sprite).live j ↔ s1.live j :=
    live_transfer (by simp) j
  have e2 : ((note_created t2).modify (EntityPtr.slot l) (set_thruster (-3 / 10))).live j
      ↔ t2.live j := live_transfer (by simp [note_created]) j
  have e3 : s'.live j ↔ t3.live j := by
    rw [C.result]
    exact live_transfer (by simp [note_created, store_thrust_ids]) j
  rw [e3, h3, e2, h2, e1, h1]
  tauto

theorem created_next (C : PlayerCreated s parent p l r s1 t2 t3 s') :
    s'.next_entity_id = wrap32 (wrap32 (wrap32 (s.next_entity_id + 1) + 1) + 1) := by
  rw [C.result, note_created_next, store_thrust_ids_next, modify_next, note_created_next,
    C.right.alloc_next, modify_next, note_created_next, C.left.alloc_next, modify_next, C.player.alloc_next]

/-- The cores after the creation: every entity other than the three new ones keeps its
core; the player carries the identifier the counter had, its type, its hooks and payload
slot 0; the thrusters are plain and carry the next two identifiers. -/
theorem cores (C : PlayerCreated s parent p l r s1 t2 t3 s') :
    (∀ j, j ≠ p → j ≠ l → j ≠ r → (s'.entity_buffer j).core = (s.entity_buffer j).core) ∧
    (s'.entity_buffer p).id = s.next_entity_id ∧ (s'.entity_buffer p).piloted ∧
    (s'.entity_buffer l).id = wrap32 (s.next_entity_id + 1) ∧ (s'.entity_buffer l).plain ∧
    (s'.entity_buffer r).id = wrap32 (wrap32 (s.next_entity_id + 1) + 1) ∧
    (s'.entity_buffer r).plain := by
  obtain ⟨hpl, hpr, hlr⟩ := C.distinct
  have hfin : ∀ j, (s'.entity_buffer j).core = (t3.entity_buffer j).core := by
    intro j
    rw [C.result, note_created_entities, store_thrust_ids_entities,
      modify_core _ _ _ (set_thruster_core _), note_created_entities]
  have h32 : ∀ j, j ≠ r → (t3.entity_buffer j).core = (t2.entity_buffer j).core := by
    intro j hj
    rw [C.right.core_old j hj, modify_core _ _ _ (set_thruster_core _), note_created_entities]
  have h21 : ∀ j, j ≠ l → (t2.entity_buffer j).core = (s1.entity_buffer j).core := by
    intro j hj
    rw [C.left.core_old j hj, modify_core _ _ _ set_ship_sprite_core]
  obtain ⟨d1, d2, d3, _, d5, _⟩ := C.player.toAllocation.player_data
  refine ⟨?_, ?_, ?_, ?_, ?_, ?_, ?_⟩
  · intro j h1 h2 h3
    rw [hfin, h32 j h3, h21 j h2, C.player.core_old j h1]
  · have := hfin p
    rw [h32 p hpr, h21 p hpl] at this
    rw [((Entity.core_eq_iff _ _).1 this).1, C.player.id]
  · have := hfin p
    rw [h32 p hpr, h21 p hpl] at this
    exact Entity.piloted_congr this ⟨d1, d2, d3, (d5 C.free).1⟩
  · have := hfin l
    rw [h32 l hlr] at this
    rw [((Entity.core_eq_iff _ _).1 this).1, C.left.id, modify_next, C.player.alloc_next]
  · have := hfin l
    rw [h32 l hlr] at this
    exact Entity.plain_congr this C.left.toAllocation.none_plain
  · rw [((Entity.core_eq_iff _ _).1 (hfin r)).1, C.right.id, modify_next, note_created_next,
      C.left.alloc_next, modify_next, C.player.alloc_next]
  · exact Entity.plain_congr (hfin r) C.right.toAllocation.none_plain

/-- The payload after the creation: slot 0 is occupied and holds the identifiers of the two
thrusters. -/
theorem payload (C : PlayerCreated s parent p l r s1 t2 t3 s') :
    s'.player_buffer_mask = upd s.player_buffer_mask 0 true ∧
    (s'.player_buffer 0).left_thrust_id = (s'.entity_buffer l).id ∧
    (s'.player_buffer 0).right_thrust_id = (s'.entity_buffer r).id := by
  refine ⟨?_, ?_, ?_⟩
  · rw [C.result, note_created_player_mask, store_thrust_ids_player_mask, modify_player_mask,
      note_created_player_mask, C.right.toAllocation.none_data.2.2.1, modify_player_mask,
      note_created_player_mask, C.left.toAllocation.none_data.2.2.1, modify_player_mask,
      (C.player.toAllocation.player_data.2.2.2.2.1 C.free).2.1]
  · rw [C.result]; simp [note_created, store_thrust_ids]
  · rw [C.result]; simp [note_created, store_thrust_ids]

theorem created_sound (C : PlayerCreated s parent p l r s1 t2 t3 s') (h : Sound s) : Sound s' := by
  have S1 := h.alloc_player C.player C.free
  have S2 := (S1.modify (EntityPtr.slot p) set_ship_sprite set_ship_sprite_core (fun _ => rfl)
    (fun _ => rfl) (fun _ => rfl)).alloc_none C.left
  have S3 := (S2.note_created.modify (EntityPtr.slot l) (set_thruster (-3 / 10))
    (set_thruster_core _) (fun _ => rfl) (fun _ => rfl) (fun _ => rfl)).alloc_none C.right
  rw [C.result]
  exact ((S3.note_created.modify (EntityPtr.slot r) (set_thruster (3 / 10))
    (set_thruster_core _) (fun _ => rfl) (fun _ => rfl) (fun _ => rfl)).store_thrust_ids
      0 l r).note_created

/-- The counters after the creation: three more live entities, three more returned
creations. -/
theorem created_counters (C : PlayerCreated s parent p l r s1 t2 t3 s') (h : Sound s) :
    s'.active_entities = s.active_entities + 3 ∧ s'.ghost_creates = s.ghost_creates + 3 ∧
      s'.ghost_destroys = s.ghost_destroys := by
  have S1 := h.alloc_player C.player C.free
  have S2 := (S1.modify (EntityPtr.slot p) set_ship_sprite set_ship_sprite_core (fun _ => rfl)
    (fun _ => rfl) (fun _ => rfl))
  have S3 := ((S2.alloc_none C.left).note_created.modify (EntityPtr.slot l)
    (set_thruster (-3 / 10)) (set_thruster_core _) (fun _ => rfl) (fun _ => rfl) (fun _ => rfl))
  have a1 := (C.player.alloc_counted h.counted).2
  have a2 := (C.left.alloc_counted S2.counted).2
  have a3 := (C.right.alloc_counted S3.counted).2
  simp only [modify_active, note_created_active] at a2 a3
  have c1 := C.player.alloc_creates
  have c2 := C.left.alloc_creates
  have c3 := C.right.alloc_creates
  simp only [modify_creates, note_created_creates] at c2 c3
  have d1 := C.player.alloc_destroys
  have d2 := C.left.alloc_destroys
  have d3 := C.right.alloc_destroys
  simp only [modify_destroys, note_created_destroys] at d2 d3
  rw [C.result]
  simp only [note_created_active, store_thrust_ids_active, modify_active, note_created_creates,
    store_thrust_ids_creates, modify_creates, note_created_destroys, store_thrust_ids_destroys,
    modify_destroys]
  omega

end PlayerCreated

namespace PlayerDestroyed

variable {s sx t1 sy t2 sp t3 s' : State} {p x y : Nat}

theorem destroyed_live_iff (D : PlayerDestroyed s p x y sx t1 sy t2 sp t3 s') (j : Nat) :
    s'.live j ↔ j ≠ x ∧ j ≠ y ∧ j ≠ p ∧ s.live j := by
  have h1 := D.left.reclaim_live_iff j
  have h2 := D.right.reclaim_live_iff j
  have h3 := D.player.reclaim_live_iff j
  have e1 : (note_destroyed t1).live j ↔ t1.live j := live_transfer rfl j
  have e2 : (note_destroyed t2).live j ↔ t2.live j := live_transfer rfl j
  have e3 : s'.live j ↔ t3.live j := by rw [D.result]; exact live_transfer rfl j
  rw [e3, h3, e2, h2, e1, h1]
  tauto

theorem destroyed_core (D : PlayerDestroyed s p x y sx t1 sy t2 sp t3 s') (j : Nat) :
    (s'.entity_buffer j).core = (s.entity_buffer j).core := by
  rw [D.result, note_destroyed_entities, D.player.reclaim_core, note_destroyed_entities,
    D.right.reclaim_core, note_destroyed_entities, D.left.reclaim_core]

theorem destroyed_next (D : PlayerDestroyed s p x y sx t1 sy t2 sp t3 s') :
    s'.next_entity_id = s.next_entity_id := by
  rw [D.result, note_destroyed_next, D.player.reclaim_next, note_destroyed_next, D.right.reclaim_next,
    note_destroyed_next, D.left.reclaim_next]

theorem destroyed_players (D : PlayerDestroyed s p x y sx t1 sy t2 sp t3 s') :
    s'.player_buffer = s.player_buffer := by
  rw [D.result, note_destroyed_players, D.player.reclaim_players, note_destroyed_players,
    D.right.reclaim_players, note_destroyed_players, D.left.reclaim_players]

/-- The states between the three reclamations are sound, and so is the last; the payload
slot is free at the end. -/
theorem destroyed_sound (D : PlayerDestroyed s p x y sx t1 sy t2 sp t3 s') (hS : Sound s)
    (hP : Paired s) (hl : s.live p) (hp : (s.entity_buffer p).piloted) :
    Sound (note_destroyed t1) ∧ Sound (note_destroyed t2) ∧ Sound s' ∧
      s'.player_buffer_mask 0 = false ∧ (note_destroyed t1).live y ∧
      (note_destroyed t2).live p := by
  obtain ⟨hxp, hyp, hxy, hlx, hly, hpx, hpy⟩ :=
    thrusters_plain hS hP hl hp D.found_left D.found_right
  have S1 : Sound (note_destroyed t1) := (hS.reclaim_plain D.left hlx hpx).note_destroyed
  have hly1 : (note_destroyed t1).live y := (D.left.reclaim_live_iff y).2 ⟨fun e => hxy e.symm, hly⟩
  have hpy1 : ((note_destroyed t1).entity_buffer y).plain :=
    Entity.plain_congr (D.left.reclaim_core y) hpy
  have S2 : Sound (note_destroyed t2) := (S1.reclaim_plain D.right hly1 hpy1).note_destroyed
  have hl1 : (note_destroyed t1).live p := (D.left.reclaim_live_iff p).2 ⟨fun e => hxp e.symm, hl⟩
  have hl2 : (note_destroyed t2).live p := (D.right.reclaim_live_iff p).2 ⟨fun e => hyp e.symm, hl1⟩
  have hp2 : ((note_destroyed t2).entity_buffer p).piloted := by
    refine Entity.piloted_congr ?_ hp
    rw [note_destroyed_entities, D.right.reclaim_core, note_destroyed_entities, D.left.reclaim_core]
  obtain ⟨S3, hoff⟩ := S2.reclaim_piloted D.player hl2 hp2
  rw [D.result]
  exact ⟨S1, S2, S3.note_destroyed, hoff, hly1, hl2⟩

/-- The counters after the destruction: three fewer live entities, three more returned
destructions. -/
theorem destroyed_counters (D : PlayerDestroyed s p x y sx t1 sy t2 sp t3 s') (hS : Sound s)
    (hP : Paired s) (hl : s.live p) (hp : (s.entity_buffer p).piloted) :
    s'.active_entities = s.active_entities - 3 ∧ s'.ghost_creates = s.ghost_creates ∧
      s'.ghost_destroys = s.ghost_destroys + 3 := by
  obtain ⟨_, _, _, hlx, _, _, _⟩ := thrusters_plain hS hP hl hp D.found_left D.found_right
  obtain ⟨S1, S2, _, _, hly1, hl2⟩ := D.destroyed_sound hS hP hl hp
  have a1 := (D.left.reclaim_counted hlx hS.counted).2
  have a2 := (D.right.reclaim_counted hly1 S1.counted).2
  have a3 := (D.player.reclaim_counted hl2 S2.counted).2
  have c1 := D.left.reclaim_creates
  have c2 := D.right.reclaim_creates
  have c3 := D.player.reclaim_creates
  have d1 := D.left.reclaim_destroys
  have d2 := D.right.reclaim_destroys
  have d3 := D.player.reclaim_destroys
  simp only [note_destroyed_active, note_destroyed_creates, note_destroyed_destroys]
    at a2 a3 c2 c3 d2 d3
  rw [D.result]
  simp only [note_destroyed_active, note_destroyed_creates, note_destroyed_destroys]
  omega

end PlayerDestroyed

/-! ## The invariant of the states between two calls -/

theorem occupancy_zero (mask : Nat → Bool) : ∀ n, (∀ j, j < n → mask j = false) →
    occupancy mask n = 0
  | 0, _ => by simp [occupancy]
  | n + 1, h => by
    rw [occupancy_succ, occupancy_zero mask n (fun j hj => h j (by omega)), h n (by omega)]
    simp

theorem Inv.initial : Inv initial_state := by
  have hdead : ∀ i, ¬ initial_state.live i := by
    intro i h
    have := h.2
    simp [initial_state] at this
  refine ⟨⟨?_, ?_, ?_, ?_, ?_⟩, ?_, ?_⟩
  · intro n
    refine ⟨[], ?_, List.nodup_nil, by simp⟩
    cases n <;> simp [State.child_of, State.deref, initial_state, Chain]
  · show initial_state.active_entities = _
    rw [occupancy_zero initial_state.entity_buffer_mask ENTITY_COUNT (fun _ _ => rfl)]
    rfl
  · intro i hi; exact absurd hi (hdead i)
  · intro i j hi; exact absurd hi (hdead i)
  · constructor
    · intro h; simp [initial_state] at h
    · rintro ⟨i, hi, _⟩; exact absurd hi (hdead i)
  · intro i hi; exact absurd hi (hdead i)
  · show initial_state.active_entities = _
    simp [initial_state]

theorem destroy_ok_live (L : LaserHooks) (d : Nat) (s s' : State) (entity : EntityPtr)
    (h : destroy_entity_aux L d entity s = Res.ok s' ()) :
    ∃ e, entity = EntityPtr.slot e ∧ s.live e := by
  cases d with
  | zero => simp [destroy_entity_aux] at h
  | succ d =>
    cases entity with
    | null => simp [destroy_entity_aux] at h
    | root => simp [destroy_entity_aux] at h
    | slot e =>
      refine ⟨e, rfl, ?_⟩
      unfold destroy_entity_aux at h
      by_cases h1 : e < ENTITY_COUNT
      · by_cases h2 : s.entity_buffer_mask e = true
        · exact ⟨h1, h2⟩
        · simp [h1, h2] at h
      · simp [h1] at h

/-- A returning `create_entity(NONE, parent)` keeps the invariant. -/
theorem Inv.create_none {s s1 : State} {parent : EntityPtr} {e : Nat}
    (A : Allocated s Entity_Type.NONE parent e s1) (h : Inv s) : Inv (note_created s1) := by
  have hpl := A.toAllocation.none_plain
  refine ⟨(h.sound.alloc_none A).note_created, ?_, ?_⟩
  · intro i hi gi
    have hie : i ≠ e := by rintro rfl; exact Entity.not_plain_and_piloted hpl gi
    have hi' : s.live i := ((A.alloc_live_iff i).1 hi).resolve_left hie
    have hc := A.core_old i hie
    have := h.paired i hi' (Entity.piloted_congr hc.symm gi)
    simp only [note_created_players, note_created_entities, A.toAllocation.none_data.2.1,
      ((Entity.core_eq_iff _ _).1 hc).1]
    exact this
  · have a := (A.alloc_counted h.sound.counted).2
    have c := A.alloc_creates
    have d := A.alloc_destroys
    have t : s.active_entities = (s.ghost_creates : Int) - (s.ghost_destroys : Int) := h.tallied
    show (note_created s1).active_entities = _
    simp only [note_created_active, note_created_creates, note_created_destroys]
    omega

/-- A returning `create_entity(PLAYER, parent)` keeps the invariant. -/
theorem Inv.create_player {s s1 t2 t3 s' : State} {parent : EntityPtr} {p l r : Nat}
    (C : PlayerCreated s parent p l r s1 t2 t3 s') (h : Inv s) : Inv s' := by
  have S' := C.created_sound h.sound
  obtain ⟨_, c2, c3, c4, _, c6, _⟩ := C.cores
  obtain ⟨_, p2, p3⟩ := C.payload
  refine ⟨S', ?_, ?_⟩
  · intro i hi gi
    have : i = p := S'.single i p hi ((C.created_live_iff p).2 (Or.inl rfl)) gi c3
    subst this
    rw [p2, p3, c2, c4, c6]
    exact ⟨wrap32_succ_ne _, wrap32_succ_succ_ne _, fun e => wrap32_succ_ne _ e.symm⟩
  · obtain ⟨a, c, d⟩ := C.created_counters h.sound
    have t : s.active_entities = (s.ghost_creates : Int) - (s.ghost_destroys : Int) := h.tallied
    show s'.active_entities = _
    omega

/-- A returning `destroy_entity` on a plain entity keeps the invariant. -/
theorem Inv.destroy_plain {s sp s1 : State} {e : Nat} (R : Reclaimed s sp e s1)
    (he : s.live e) (hp : (s.entity_buffer e).plain) (h : Inv s) :
    Inv (note_destroyed s1) := by
  refine ⟨(h.sound.reclaim_plain R he hp).note_destroyed, ?_, ?_⟩
  · intro i hi gi
    have hi' : s.live i := ((R.reclaim_live_iff i).1 hi).2
    have hc := R.reclaim_core i
    have := h.paired i hi' (Entity.piloted_congr hc.symm gi)
    simp only [note_destroyed_players, note_destroyed_entities, R.reclaim_players,
      ((Entity.core_eq_iff _ _).1 hc).1]
    exact this
  · have a := (R.reclaim_counted he h.sound.counted).2
    have c := R.reclaim_creates
    have d := R.reclaim_destroys
    have t : s.active_entities = (s.ghost_creates : Int) - (s.ghost_destroys : Int) := h.tallied
    show (note_destroyed s1).active_entities = _
    simp only [note_destroyed_active, note_destroyed_creates, note_destroyed_destroys]
    omega

/-- A returning `destroy_entity` on a player entity keeps the invariant. -/
theorem Inv.destroy_player {s sx t1 sy t2 sp t3 s' : State} {p x y : Nat}
    (D : PlayerDestroyed s p x y sx t1 sy t2 sp t3 s') (hl : s.live p)
    (hp : (s.entity_buffer p).piloted) (h : Inv s) : Inv s' := by
  obtain ⟨_, _, S', hoff, _, _⟩ := D.destroyed_sound h.sound h.paired hl hp
  refine ⟨S', ?_, ?_⟩
  · intro i hi gi
    have := S'.owned.2 ⟨i, hi, gi⟩
    rw [hoff] at this; exact absurd this (by simp)
  · obtain ⟨a, c, d⟩ := D.destroyed_counters h.sound h.paired hl hp
    have t : s.active_entities = (s.ghost_creates : Int) - (s.ghost_destroys : Int) := h.tallied
    show s'.active_entities = _
    omega

/-- In a state that satisfies the invariant, a returning call has one of the four effects. -/
theorem step_effect (L : LaserHooks) {s s' : State} (c : Call) (h : Inv s)
    (hc : c.returns L s s') : Effect s c s' := by
  cases c with
  | create type parent =>
    obtain ⟨ht, e, he⟩ := hc
    cases type with
    | LASER => exact absurd rfl ht
    | NONE =>
      obtain ⟨s1, h1, rfl⟩ := (create_none_iff L 513 s s' parent e).1 he
      exact Effect.created_none parent e s1 (allocate_effect _ _ _ _ _ h.sound.linked h1)
    | PLAYER =>
      obtain ⟨l, r, s1, t2, t3, C⟩ :=
        (create_piloted_steps L 512 s s' parent e h.sound.linked).1 he
      exact Effect.created_player parent e l r s1 t2 t3 s' C
  | destroy entity =>
    have hc' : destroy_entity_aux L (512 + 2) entity s = Res.ok s' () := hc
    obtain ⟨e, rfl, hl⟩ := destroy_ok_live L _ s s' entity hc'
    rcases h.sound.typed e hl with q | q
    · obtain ⟨_, s1, h1, rfl⟩ := (destroy_plain_iff L 513 s s' e q.2.2.1).1 hc'
      obtain ⟨sp, R⟩ := reclaim_effect _ _ _ h.sound.linked h1
      exact Effect.destroyed_plain e sp s1 hl q R
    · obtain ⟨_, x, y, sx, t1, sy, t2, sp, t3, D⟩ :=
        (destroy_piloted_steps L 512 s s' e h.sound h.paired q).1 hc'
      exact Effect.destroyed_player e x y sx t1 sy t2 sp t3 s' hl q D

/-- Every returning call keeps the invariant. -/
theorem Inv.step (L : LaserHooks) {s s' : State} (c : Call) (h : Inv s)
    (hc : c.returns L s s') : Inv s' := by
  cases step_effect L c h hc with
  | created_none parent e s1 A => exact h.create_none A
  | created_player parent p l r s1 t2 t3 s' C => exact h.create_player C
  | destroyed_plain e sp s1 hl hp R => exact h.destroy_plain R hl hp
  | destroyed_player p x y sx t1 sy t2 sp t3 s' hl hp D => exact h.destroy_player D hl hp

/-- Every state reachable by returning calls satisfies the invariant. -/
theorem Inv.reachable (L : LaserHooks) (allowed : State → Call → State → Prop) (s : State)
    (h : ReachableBy L allowed s) : Inv s := by
  induction h with
  | init => exact Inv.initial
  | step s s' c _ hc _ ih => exact ih.step L c hc

/-! ## Concrete reachable states -/

theorem started_returns :
    (Call.create Entity_Type.PLAYER EntityPtr.root).returns idle_lasers initial_state
      started_state :=
  ⟨by decide, 0, rfl⟩

theorem started_reachable : Reachable idle_lasers started_state :=
  ReachableBy.step initial_state started_state _ ReachableBy.init started_returns trivial

/-! ## Claims -/

theorem occupancy_one (q : Nat → Bool) (i n : Nat) (hi : i < n) (h1 : q i = true)
    (h2 : ∀ j, j < n → j ≠ i → q j = false) : occupancy q n = 1 := by
  have h := occupancy_set (fun _ => false) i rfl n
  rw [if_pos hi, occupancy_zero _ n (fun _ _ => rfl), Nat.zero_add] at h
  rw [← h]
  apply occupancy_congr
  intro j hj
  by_cases e : j = i
  · subst e; simp [h1]
  · rw [upd_other _ _ e, h2 j hj e]

/-- C4. In every state reachable by returning `create_entity` / `destroy_entity` calls, the
number of occupied PLAYER payload slots equals the number of live entities of type PLAYER,
and the payload pointer of every live PLAYER entity designates an occupied slot of the
player pool that no other live entity references. -/
theorem payload_lifetime_coupling (L : LaserHooks) (s : State) (h : Reachable L s) :
    occupancy s.player_buffer_mask PLAYER_COUNT = live_of_type s Entity_Type.PLAYER ∧
    ∀ i, s.live i → (s.entity_buffer i).type = Entity_Type.PLAYER →
      ∃ k, (s.entity_buffer i).derived = PayloadPtr.player k ∧ k < PLAYER_COUNT ∧
        s.player_buffer_mask k = true ∧
        ∀ j, s.live j → (s.entity_buffer j).derived = PayloadPtr.player k → j = i := by
  have hS := (Inv.reachable L _ s h).sound
  have hpil : ∀ i, s.live i → (s.entity_buffer i).type = Entity_Type.PLAYER →
      (s.entity_buffer i).piloted := by
    intro i hi ht
    rcases hS.typed i hi with q | q
    · rw [q.1] at ht; exact absurd ht (by simp)
    · exact q
  constructor
  · have hocc : occupancy s.player_buffer_mask PLAYER_COUNT
        = if s.player_buffer_mask 0 = true then 1 else 0 := by
      show occupancy s.player_buffer_mask (0 + 1) = _
      rw [occupancy_succ]; simp [occupancy]
    rw [hocc]
    unfold live_of_type
    by_cases hm : s.player_buffer_mask 0 = true
    · rw [if_pos hm]
      obtain ⟨i, hi, gi⟩ := hS.owned.1 hm
      symm
      apply occupancy_one _ i ENTITY_COUNT hi.1
      · simp [hi.2, gi.1]
      · intro j hj hne
        by_contra hc
        have hc' : s.entity_buffer_mask j = true ∧ (s.entity_buffer j).type = Entity_Type.PLAYER := by
          simpa using hc
        exact hne (hS.single j i ⟨hj, hc'.1⟩ hi (hpil j ⟨hj, hc'.1⟩ hc'.2) gi)
    · rw [if_neg hm]
      symm
      apply occupancy_zero
      intro j hj
      by_contra hc
      have hc' : s.entity_buffer_mask j = true ∧ (s.entity_buffer j).type = Entity_Type.PLAYER := by
        simpa using hc
      exact hm (hS.owned.2 ⟨j, ⟨hj, hc'.1⟩, hpil j ⟨hj, hc'.1⟩ hc'.2⟩)
  · intro i hi ht
    have gi := hpil i hi ht
    refine ⟨0, gi.2.2.2, by decide, hS.owned.2 ⟨i, hi, gi⟩, fun j hj hd => ?_⟩
    rcases hS.typed j hj with q | q
    · rw [q.2.2.2] at hd; exact absurd hd (by simp)
    · exact hS.single j i hj hi q gi

/-- Witness of C4: the state `init_asteroids` leaves. -/
theorem payload_lifetime_coupling_witness :
    Reachable idle_lasers started_state ∧
    occupancy started_state.player_buffer_mask PLAYER_COUNT
      = live_of_type started_state Entity_Type.PLAYER ∧
    ∀ i, started_state.live i → (started_state.entity_buffer i).type = Entity_Type.PLAYER →
      ∃ k, (started_state.entity_buffer i).derived = PayloadPtr.player k ∧ k < PLAYER_COUNT ∧
        started_state.player_buffer_mask k = true ∧
        ∀ j, started_state.live j →
          (started_state.entity_buffer j).derived = PayloadPtr.player k → j = i :=
  ⟨started_reachable, payload_lifetime_coupling idle_lasers started_state started_reachable⟩

/-- A returning `find_entity` leaves the state as it was and returns the lowest live slot
that carries the identifier. -/
theorem find_entity_returns (s s' : State) (id : Int) (i : Nat)
    (h : find_entity id s = Res.ok s' i) :
    s' = s ∧ s.live i ∧ (s.entity_buffer i).id = id ∧
      ∀ j, j < i → ¬ (s.live j ∧ (s.entity_buffer j).id = id) := by
  obtain ⟨h1, h2⟩ := (find_entity_ok id s s' i).1 h
  obtain ⟨_, g2, g3, g4, g5⟩ := scan_id_some s id _ _ _ h2
  exact ⟨h1, ⟨by omega, g3⟩, g4, fun j hj hc => g5 j (Nat.zero_le _) hj ⟨hc.1.2, hc.2⟩⟩

/-- When no live slot carries the identifier, `find_entity` fails on the assertion of line
235 and leaves the state as it was. -/
theorem find_entity_fails (s : State) (id : Int)
    (hno : ¬ ∃ i, s.live i ∧ (s.entity_buffer i).id = id) :
    find_entity id s = Res.fatal s (Fault.assertion 235) := by
  unfold find_entity
  cases hs : scan_id s id ENTITY_COUNT 0 with
  | none => rfl
  | some i =>
    obtain ⟨_, g2, g3, g4, _⟩ := scan_id_some s id _ _ _ hs
    exact absurd ⟨i, ⟨by omega, g3⟩, g4⟩ hno

/-- C6. For every state and identifier: `find_entity` returns exactly when some live slot
carries the identifier; the slot it returns is the lowest live slot that carries it; when no
live slot carries it, the call fails on the assertion of line 235; in every case the state
is left as it was. -/
theorem find_entity_specification (s : State) (id : Int) :
    ((∃ s' i, find_entity id s = Res.ok s' i) ↔ ∃ i, s.live i ∧ (s.entity_buffer i).id = id) ∧
    (∀ s' i, find_entity id s = Res.ok s' i →
      s' = s ∧ s.live i ∧ (s.entity_buffer i).id = id ∧
        ∀ j, j < i → ¬ (s.live j ∧ (s.entity_buffer j).id = id)) ∧
    ((¬ ∃ i, s.live i ∧ (s.entity_buffer i).id = id) →
      find_entity id s = Res.fatal s (Fault.assertion 235)) ∧
    (find_entity id s).state = s := by
  refine ⟨⟨?_, ?_⟩, fun s' i h => find_entity_returns s s' id i h, find_entity_fails s id, ?_⟩
  · rintro ⟨s', i, h⟩
    exact ⟨i, (find_entity_returns s s' id i h).2.1, (find_entity_returns s s' id i h).2.2.1⟩
  · rintro ⟨i, hi, hid⟩
    cases hs : scan_id s id ENTITY_COUNT 0 with
    | none =>
      exact absurd ⟨hi.2, hid⟩ (scan_id_none s id _ _ hs i (Nat.zero_le _) (by have := hi.1; omega))
    | some k => exact ⟨s, k, (find_entity_ok id s s k).2 ⟨rfl, hs⟩⟩
  · unfold find_entity
    cases scan_id s id ENTITY_COUNT 0 <;> rfl

/-- C7. In every state reachable by returning calls, `active_entities` equals the number of
`create_entity` invocations that have returned (those made by create hooks included) minus
the number of `destroy_entity` invocations that have returned (those made by destroy hooks
included). -/
theorem live_count_bookkeeping (L : LaserHooks) (s : State) (h : Reachable L s) :
    s.active_entities = (s.ghost_creates : Int) - (s.ghost_destroys : Int) :=
  (Inv.reachable L _ s h).tallied

/-- Witness of C7: the state `init_asteroids` leaves, after three returned creations. -/
theorem live_count_bookkeeping_witness :
    Reachable idle_lasers started_state ∧ started_state.ghost_creates = 3 ∧
    started_state.active_entities
      = (started_state.ghost_creates : Int) - (started_state.ghost_destroys : Int) :=
  ⟨started_reachable, by decide, live_count_bookkeeping idle_lasers started_state started_reachable⟩

theorem wrap_position_x (WL WR WB WT : ℚ) (p : Vector2) :
    (wrap_position WL WR WB WT p).x
      = if (if p.x < WL then WR else p.x) > WR then WL else (if p.x < WL then WR else p.x) := by
  simp only [wrap_position]
  split_ifs <;> simp_all

theorem wrap_position_y (WL WR WB WT : ℚ) (p : Vector2) :
    (wrap_position WL WR WB WT p).y
      = if (if p.y < WB then WT else p.y) > WT then WB else (if p.y < WB then WT else p.y) := by
  simp only [wrap_position]
  split_ifs <;> simp_all

/-- C10. With `WORLD_LEFT < WORLD_RIGHT` and `WORLD_BOTTOM < WORLD_TOP`, the wrap-around step
sends a first coordinate beyond the right bound to the left bound and one below the left
bound to the right bound, a second coordinate beyond the top bound to the bottom bound and
one below the bottom bound to the top bound, and leaves a coordinate within the closed
interval, the bounds included, unchanged. -/
theorem wrap_around_step (WL WR WB WT : ℚ) (hx : WL < WR) (hy : WB < WT) (p : Vector2) :
    (WR < p.x → (wrap_position WL WR WB WT p).x = WL) ∧
    (p.x < WL → (wrap_position WL WR WB WT p).x = WR) ∧
    (WT < p.y → (wrap_position WL WR WB WT p).y = WB) ∧
    (p.y < WB → (wrap_position WL WR WB WT p).y = WT) ∧
    (WL ≤ p.x → p.x ≤ WR → (wrap_position WL WR WB WT p).x = p.x) ∧
    (WB ≤ p.y → p.y ≤ WT → (wrap_position WL WR WB WT p).y = p.y) := by
  rw [wrap_position_x, wrap_position_y]
  refine ⟨?_, ?_, ?_, ?_, ?_, ?_⟩
  · intro h
    rw [if_neg (not_lt.2 (le_of_lt (lt_trans hx h))), if_pos h]
  · intro h
    rw [if_pos h, if_neg (lt_irrefl _)]
  · intro h
    rw [if_neg (not_lt.2 (le_of_lt (lt_trans hy h))), if_pos h]
  · intro h
    rw [if_pos h, if_neg (lt_irrefl _)]
  · intro h1 h2
    rw [if_neg (not_lt.2 h1), if_neg (not_lt.2 h2)]
  · intro h1 h2
    rw [if_neg (not_lt.2 h1), if_neg (not_lt.2 h2)]

/-- Witness of C10: a 20 by 15 world and the position (11, -8). -/
theorem wrap_around_step_witness :
    (-10 : ℚ) < 10 ∧ (-15 / 2 : ℚ) < 15 / 2 ∧
    wrap_position (-10) 10 (-15 / 2) (15 / 2) { x := 11, y := -8 }
      = { x := -10, y := 15 / 2 } := by
  have h1 : (-10 : ℚ) < 10 := by norm_num
  have h2 : (-15 / 2 : ℚ) < 15 / 2 := by norm_num
  have h := wrap_around_step (-10) 10 (-15 / 2) (15 / 2) h1 h2 { x := 11, y := -8 }
  refine ⟨h1, h2, ?_⟩
  have gx := h.1 (by norm_num)
  have gy := h.2.2.2.1 (by norm_num)
  cases hw : wrap_position (-10) 10 (-15 / 2) (15 / 2) { x := 11, y := -8 } with
  | mk a b =>
    rw [hw] at gx gy
    simp only at gx gy
    rw [gx, gy]

/-! ## Identifiers while the counter has not wrapped -/

theorem PlayerCreated.fresh_slots {s s1 t2 t3 s' : State} {parent : EntityPtr} {p l r : Nat}
    (C : PlayerCreated s parent p l r s1 t2 t3 s') :
    ¬ s.live p ∧ ¬ s.live l ∧ ¬ s.live r := by
  have hfree : ∀ {a : State} {type : Entity_Type} {q : EntityPtr} {e : Nat} {b : State},
      Allocation a type q e b → ¬ a.live e := by
    intro a type q e b A h
    have := A.was_free
    rw [h.2] at this; exact absurd this (by simp)
  refine ⟨hfree C.player.toAllocation, fun h => ?_, fun h => ?_⟩
  · have h1 : s1.live l := C.player.live_old h
    exact hfree C.left.toAllocation ((live_transfer (by simp) l).2 h1)
  · have h1 : s1.live r := C.player.live_old h
    have h2 : t2.live r := C.left.live_old ((live_transfer (by simp) r).2 h1)
    exact hfree C.right.toAllocation ((live_transfer (by simp) r).2 h2)

theorem wrap32_no_wrap (n : Int) (h1 : -2147483648 ≤ n) (h2 : n < 2147483648)
    (h : n ≤ wrap32 (n + 1)) : wrap32 (n + 1) = n + 1 ∧ n + 1 < 2147483648 := by
  unfold wrap32 at h ⊢; omega

theorem wrap32_no_wrap3 (n : Int) (h1 : -2147483648 ≤ n) (h2 : n < 2147483648)
    (h : n ≤ wrap32 (wrap32 (wrap32 (n + 1) + 1) + 1)) :
    wrap32 (n + 1) = n + 1 ∧ wrap32 (wrap32 (n + 1) + 1) = n + 2 ∧
      wrap32 (wrap32 (wrap32 (n + 1) + 1) + 1) = n + 3 ∧ n + 3 < 2147483648 := by
  unfold wrap32 at h ⊢; omega

theorem Fresh.fresh_initial : Fresh initial_state := by
  have hdead : ∀ i, ¬ initial_state.live i := by
    intro i h
    have := h.2
    simp [initial_state] at this
  refine ⟨by simp [initial_state], fun i hi => absurd hi (hdead i),
    fun i j hi => absurd hi (hdead i)⟩

/-- A returning call that does not wrap the counter keeps `Fresh`, and keeps every
identifier gone that was gone. -/
theorem Fresh.fresh_step {s s' : State} {c : Call} (E : Effect s c s') (hw : no_wrap s c s')
    (h : Fresh s) : Fresh s' ∧ ∀ id, Gone s id → Gone s' id := by
  have hw' : s.next_entity_id ≤ s'.next_entity_id := hw
  obtain ⟨r1, r2⟩ := h.range
  cases E with
  | created_none parent e s1 A =>
    rw [note_created_next, A.alloc_next] at hw'
    obtain ⟨w1, w2⟩ := wrap32_no_wrap _ r1 r2 hw'
    have hnext : (note_created s1).next_entity_id = s.next_entity_id + 1 := by
      rw [note_created_next, A.alloc_next, w1]
    have hid : ∀ j, (note_created s1).live j →
        (j = e ∧ ((note_created s1).entity_buffer j).id = s.next_entity_id) ∨
        (s.live j ∧ ((note_created s1).entity_buffer j).id = (s.entity_buffer j).id) := by
      intro j hj
      rcases (A.alloc_live_iff j).1 hj with rfl | g
      · exact Or.inl ⟨rfl, A.id⟩
      · have hje : j ≠ e := by
          rintro rfl
          have := g.2; rw [A.was_free] at this; exact absurd this (by simp)
        exact Or.inr ⟨g, ((Entity.core_eq_iff _ _).1 (A.core_old j hje)).1⟩
    refine ⟨⟨by rw [hnext]; omega, ?_, ?_⟩, ?_⟩
    · intro i hi
      rw [hnext]
      rcases hid i hi with ⟨_, g⟩ | ⟨g1, g2⟩
      · rw [g]; omega
      · rw [g2]; have := h.below i g1; omega
    · intro i j hi hj hij
      rcases hid i hi with ⟨a1, a2⟩ | ⟨a1, a2⟩ <;> rcases hid j hj with ⟨b1, b2⟩ | ⟨b1, b2⟩
      · rw [a1, b1]
      · rw [a2, b2] at hij; have := h.below j b1; omega
      · rw [a2, b2] at hij; have := h.below i a1; omega
      · rw [a2, b2] at hij; exact h.distinct i j a1 b1 hij
    · rintro id ⟨g1, g2⟩
      refine ⟨by rw [hnext]; omega, fun j hj => ?_⟩
      rcases hid j hj with ⟨_, a⟩ | ⟨a1, a2⟩
      · rw [a]; omega
      · rw [a2]; exact g2 j a1
  | created_player parent p l r s1 t2 t3 s' C =>
    rw [C.created_next] at hw'
    obtain ⟨w1, w2, w3, w4⟩ := wrap32_no_wrap3 _ r1 r2 hw'
    obtain ⟨c1, c2, _, c4, _, c6, _⟩ := C.cores
    obtain ⟨f1, f2, f3⟩ := C.fresh_slots
    rw [w1] at c4
    rw [w2] at c6
    have hnext : s'.next_entity_id = s.next_entity_id + 3 := by rw [C.created_next, w3]
    have hid : ∀ j, s'.live j →
        (j = p ∧ (s'.entity_buffer j).id = s.next_entity_id) ∨
        (j = l ∧ (s'.entity_buffer j).id = s.next_entity_id + 1) ∨
        (j = r ∧ (s'.entity_buffer j).id = s.next_entity_id + 2) ∨
        (s.live j ∧ (s'.entity_buffer j).id = (s.entity_buffer j).id) := by
      intro j hj
      rcases (C.created_live_iff j).1 hj with rfl | rfl | rfl | g
      · exact Or.inl ⟨rfl, c2⟩
      · exact Or.inr (Or.inl ⟨rfl, c4⟩)
      · exact Or.inr (Or.inr (Or.inl ⟨rfl, c6⟩))
      · refine Or.inr (Or.inr (Or.inr ⟨g, ((Entity.core_eq_iff _ _).1 (c1 j ?_ ?_ ?_)).1⟩))
        · rintro rfl; exact f1 g
        · rintro rfl; exact f2 g
        · rintro rfl; exact f3 g
    refine ⟨⟨by rw [hnext]; omega, ?_, ?_⟩, ?_⟩
    · intro i hi
      rw [hnext]
      rcases hid i hi with ⟨_, g⟩ | ⟨_, g⟩ | ⟨_, g⟩ | ⟨g1, g2⟩
      · rw [g]; omega
      · rw [g]; omega
      · rw [g]; omega
      · rw [g2]; have := h.below i g1; omega
    · intro i j hi hj hij
      rcases hid i hi with ⟨a1, a2⟩ | ⟨a1, a2⟩ | ⟨a1, a2⟩ | ⟨a1, a2⟩ <;>
        rcases hid j hj with ⟨b1, b2⟩ | ⟨b1, b2⟩ | ⟨b1, b2⟩ | ⟨b1, b2⟩ <;>
        rw [a2, b2] at hij <;>
        first
          | (exfalso; omega)
          | (exfalso; have := h.below j b1; omega)
          | (exfalso; have := h.below i a1; omega)
          | exact h.distinct i j a1 b1 hij
          | rw [a1, b1]
    · rintro id ⟨g1, g2⟩
      refine ⟨by rw [hnext]; omega, fun j hj => ?_⟩
      rcases hid j hj with ⟨_, a⟩ | ⟨_, a⟩ | ⟨_, a⟩ | ⟨a1, a2⟩
      · rw [a]; omega
      · rw [a]; omega
      · rw [a]; omega
      · rw [a2]; exact g2 j a1
  | destroyed_plain e sp s1 hl hp R =>
    have hnext : (note_destroyed s1).next_entity_id = s.next_entity_id := by
      rw [note_destroyed_next, R.reclaim_next]
    have hid : ∀ j, (note_destroyed s1).live j →
        s.live j ∧ ((note_destroyed s1).entity_buffer j).id = (s.entity_buffer j).id :=
      fun j hj => ⟨((R.reclaim_live_iff j).1 hj).2, ((Entity.core_eq_iff _ _).1 (R.reclaim_core j)).1⟩
    refine ⟨⟨by rw [hnext]; exact h.range, ?_, ?_⟩, ?_⟩
    · intro i hi
      rw [hnext, (hid i hi).2]; exact h.below i (hid i hi).1
    · intro i j hi hj hij
      rw [(hid i hi).2, (hid j hj).2] at hij
      exact h.distinct i j (hid i hi).1 (hid j hj).1 hij
    · rintro id ⟨g1, g2⟩
      exact ⟨by rw [hnext]; exact g1, fun j hj => by rw [(hid j hj).2]; exact g2 j (hid j hj).1⟩
  | destroyed_player p x y sx t1 sy t2 sp t3 s' hl hp D =>
    have hnext : s'.next_entity_id = s.next_entity_id := D.destroyed_next
    have hid : ∀ j, s'.live j →
        s.live j ∧ (s'.entity_buffer j).id = (s.entity_buffer j).id :=
      fun j hj => ⟨((D.destroyed_live_iff j).1 hj).2.2.2, ((Entity.core_eq_iff _ _).1 (D.destroyed_core j)).1⟩
    refine ⟨⟨by rw [hnext]; exact h.range, ?_, ?_⟩, ?_⟩
    · intro i hi
      rw [hnext, (hid i hi).2]; exact h.below i (hid i hi).1
    · intro i j hi hj hij
      rw [(hid i hi).2, (hid j hj).2] at hij
      exact h.distinct i j (hid i hi).1 (hid j hj).1 hij
    · rintro id ⟨g1, g2⟩
      exact ⟨by rw [hnext]; exact g1, fun j hj => by rw [(hid j hj).2]; exact g2 j (hid j hj).1⟩

/-- After a returning `destroy_entity` on slot `e`, the identifier that slot carried is
gone. -/
theorem Gone.after_destroy {s s' : State} {e : Nat} (E : Effect s (Call.destroy (EntityPtr.slot e)) s')
    (h : Fresh s) : Gone s' (s.entity_buffer e).id := by
  have key : ∀ (hl : s.live e), s'.next_entity_id = s.next_entity_id →
      (∀ j, s'.live j → j ≠ e ∧ s.live j ∧ (s'.entity_buffer j).id = (s.entity_buffer j).id) →
      Gone s' (s.entity_buffer e).id := by
    intro hl hnext hid
    refine ⟨by rw [hnext]; exact h.below e hl, fun j hj hc => ?_⟩
    obtain ⟨g1, g2, g3⟩ := hid j hj
    rw [g3] at hc
    exact g1 (h.distinct j e g2 hl hc)
  cases E with
  | destroyed_plain e sp s1 hl hp R =>
    exact key hl (by rw [note_destroyed_next, R.reclaim_next])
      (fun j hj => ⟨((R.reclaim_live_iff j).1 hj).1, ((R.reclaim_live_iff j).1 hj).2,
        ((Entity.core_eq_iff _ _).1 (R.reclaim_core j)).1⟩)
  | destroyed_player p x y sx t1 sy t2 sp t3 s' hl hp D =>
    exact key hl D.destroyed_next
      (fun j hj => ⟨((D.destroyed_live_iff j).1 hj).2.2.1, ((D.destroyed_live_iff j).1 hj).2.2.2,
        ((Entity.core_eq_iff _ _).1 (D.destroyed_core j)).1⟩)

/-- Every state reached without wrapping the counter satisfies `Fresh`. -/
theorem Fresh.fresh_reachable (L : LaserHooks) (s : State) (h : ReachableBy L no_wrap s) :
    Inv s ∧ Fresh s := by
  induction h with
  | init => exact ⟨Inv.initial, Fresh.fresh_initial⟩
  | step s s' c _ hc hw ih =>
    exact ⟨ih.1.step L c hc, (ih.2.fresh_step (step_effect L c ih.1 hc) hw).1⟩

theorem Gone.follows (L : LaserHooks) (s s' : State) (id : Int) (h : FollowsBy L no_wrap s s')
    (hI : Inv s) (hF : Fresh s) (hG : Gone s id) : Inv s' ∧ Fresh s' ∧ Gone s' id := by
  induction h with
  | refl => exact ⟨hI, hF, hG⟩
  | step s' s'' c _ hc hw ih =>
    obtain ⟨i1, i2, i3⟩ := ih
    have E := step_effect L c i1 hc
    exact ⟨i1.step L c hc, (i2.fresh_step E hw).1, (i2.fresh_step E hw).2 id i3⟩

theorem started_reachable_no_wrap : ReachableBy idle_lasers no_wrap started_state :=
  ReachableBy.step initial_state started_state _ ReachableBy.init started_returns
    (by unfold no_wrap; decide)

theorem Effect.destroy_next {s s' : State} {entity : EntityPtr}
    (E : Effect s (Call.destroy entity) s') : s'.next_entity_id = s.next_entity_id := by
  cases E with
  | destroyed_plain e sp s1 hl hp R => rw [note_destroyed_next, R.reclaim_next]
  | destroyed_player p x y sx t1 sy t2 sp t3 s' hl hp D => exact D.destroyed_next

/-- C2. In every state reachable by returning `create_entity` / `destroy_entity` calls none
of which wrapped `next_entity_id` (the creations made by the create hook of the player
included), two different live slots carry different identifiers. -/
theorem identifier_uniqueness (L : LaserHooks) (s : State) (h : ReachableBy L no_wrap s)
    (i j : Nat) (hi : s.live i) (hj : s.live j) (hij : i ≠ j) :
    (s.entity_buffer i).id ≠ (s.entity_buffer j).id :=
  fun e => hij ((Fresh.fresh_reachable L s h).2.distinct i j hi hj e)

/-- Witness of C2: the player and its left thruster in the state `init_asteroids` leaves. -/
theorem identifier_uniqueness_witness :
    ReachableBy idle_lasers no_wrap started_state ∧ started_state.live 0 ∧
      started_state.live 1 ∧ (0 : Nat) ≠ 1 ∧
      (started_state.entity_buffer 0).id ≠ (started_state.entity_buffer 1).id :=
  ⟨started_reachable_no_wrap, by decide, by decide, by decide,
    identifier_uniqueness idle_lasers started_state started_reachable_no_wrap 0 1
      (by decide) (by decide) (by decide)⟩

/-- C5. In every state reached without wrapping the identifier counter, after
`destroy_entity` has returned on a live entity, and after any further returning calls none
of which wraps the counter, `find_entity` on the identifier the entity carried fails on the
assertion of line 235: no live slot carries that identifier. -/
theorem lookup_after_destroy (L : LaserHooks) (s : State) (h : ReachableBy L no_wrap s)
    (e : Nat) (_ : s.live e) (s' : State)
    (hd : destroy_entity L (EntityPtr.slot e) s = Res.ok s' ()) (s'' : State)
    (hf : FollowsBy L no_wrap s' s'') :
    find_entity (s.entity_buffer e).id s'' = Res.fatal s'' (Fault.assertion 235) ∧
      ¬ ∃ i, s''.live i ∧ (s''.entity_buffer i).id = (s.entity_buffer e).id := by
  obtain ⟨hI, hF⟩ := Fresh.fresh_reachable L s h
  have hc : (Call.destroy (EntityPtr.slot e)).returns L s s' := hd
  have E := step_effect L _ hI hc
  have hw : no_wrap s (Call.destroy (EntityPtr.slot e)) s' := by
    unfold no_wrap; rw [E.destroy_next]
  have hG := Gone.after_destroy E hF
  obtain ⟨_, _, g⟩ := Gone.follows L s' s'' _ hf (hI.step L _ hc) (hF.fresh_step E hw).1 hG
  have hno : ¬ ∃ i, s''.live i ∧ (s''.entity_buffer i).id = (s.entity_buffer e).id := by
    rintro ⟨i, hi, hid⟩; exact g.2 i hi hid
  exact ⟨find_entity_fails s'' _ hno, hno⟩

/-- Witness of C5: the left thruster of the state `init_asteroids` leaves is destroyed and
its identifier 1 looked up. -/
theorem lookup_after_destroy_witness :
    ReachableBy idle_lasers no_wrap started_state ∧ started_state.live 1 ∧
    destroy_entity idle_lasers (EntityPtr.slot 1) started_state
      = Res.ok thruster_gone_state () ∧
    FollowsBy idle_lasers no_wrap thruster_gone_state thruster_gone_state ∧
    find_entity (started_state.entity_buffer 1).id thruster_gone_state
      = Res.fatal thruster_gone_state (Fault.assertion 235) :=
  ⟨started_reachable_no_wrap, by decide, rfl, FollowsBy.refl,
    (lookup_after_destroy idle_lasers started_state started_reachable_no_wrap 1 (by decide)
      thruster_gone_state rfl thruster_gone_state FollowsBy.refl).1⟩

/-! ## The two scenarios -/

theorem occupancy_full (mask : Nat → Bool) : ∀ n, (∀ j, j < n → mask j = true) →
    occupancy mask n = n
  | 0, _ => by simp [occupancy]
  | n + 1, h => by
    rw [occupancy_succ, occupancy_full mask n (fun j hj => h j (by omega)), h n (by omega)]
    simp

theorem exists_free (mask : Nat → Bool) (n : Nat) (h : occupancy mask n < n) :
    ∃ k, scan_free mask n 0 = some k := by
  cases hs : scan_free mask n 0 with
  | some k => exact ⟨k, rfl⟩
  | none =>
    have := occupancy_full mask n
      (fun j hj => scan_free_none mask n 0 hs j (Nat.zero_le _) (by omega))
    omega

theorem check_parent_of_valid (s : State) (i : Nat) (type : Entity_Type) (parent : EntityPtr)
    (h : parent = EntityPtr.root ∨ ∃ k, parent = EntityPtr.slot k ∧ s.live k) :
    check_parent (alloc_entity s i type) parent = none := by
  rcases h with rfl | ⟨k, rfl, hk⟩
  · rfl
  · have hm : (alloc_entity s i type).entity_buffer_mask k = true := by
      simp only [alloc_entity, upd_apply]
      split
      · rfl
      · exact hk.2
    simp [check_parent, hk.1, hm]

theorem release_payload_none (s : State) (i : Nat)
    (h : (s.entity_buffer i).type = Entity_Type.NONE) : release_payload s i = Res.ok s () := by
  simp [release_payload, h]

theorem upd_upd_clear (mask : Nat → Bool) (i : Nat) (h : mask i = false) :
    upd (upd mask i true) i false = mask := by
  funext j
  simp only [upd_apply]
  split
  · next e => rw [e, h]
  · rfl

theorem erase_snoc (l : List Nat) (i : Nat) (h : i ∉ l) : (l ++ [i]).erase i = l := by
  rw [List.erase_append_right _ h]
  simp

/-- In a state with well-formed chains, `create_entity(NONE, parent)` returns as soon as a
slot is free and the parent is the root or live. -/
theorem create_none_total (L : LaserHooks) (d : Nat) (s : State) (parent : EntityPtr)
    (hG : Linked s) (hfree : occupancy s.entity_buffer_mask ENTITY_COUNT < ENTITY_COUNT)
    (hp : parent = EntityPtr.root ∨ ∃ k, parent = EntityPtr.slot k ∧ s.live k) :
    ∃ e s1, Allocated s Entity_Type.NONE parent e s1 ∧
      create_entity_aux L (d + 1) Entity_Type.NONE parent s = Res.ok (note_created s1) e := by
  obtain ⟨i, hscan⟩ := exists_free _ _ hfree
  obtain ⟨s1, hret, _⟩ := allocate_spec s Entity_Type.NONE parent i hG hscan
    (check_parent_of_valid s i _ parent hp)
  exact ⟨i, s1, allocate_effect _ _ _ _ _ hG hret,
    (create_none_iff L d s _ parent i).2 ⟨s1, hret, rfl⟩⟩

/-- In a state with well-formed chains, `destroy_entity` on a live plain entity that occurs
in the child chain of the node its parent link designates returns. -/
theorem destroy_plain_total (L : LaserHooks) (d : Nat) (s : State) (e : Nat) (hG : Linked s)
    (hl : s.live e) (hp : (s.entity_buffer e).plain) (l : List Nat)
    (hc : Chain s (s.child_of (s.entity_buffer e).parent) l) (he : e ∈ l) :
    ∃ s1, Reclaimed s s e s1 ∧
      destroy_entity_aux L (d + 1) (EntityPtr.slot e) s = Res.ok (note_destroyed s1) () := by
  have hrel := release_payload_none s e hp.1
  obtain ⟨s1, hret⟩ := reclaim_total s s e hG hrel l hc he
  obtain ⟨sp, R⟩ := reclaim_effect s s1 e hG hret
  have : sp = s := by
    have := R.payload
    rw [hrel] at this
    injection this with h1 _
    exact h1.symm
  subst this
  exact ⟨s1, R, (destroy_plain_iff L d sp _ e hp.2.2.1).2 ⟨hl, s1, hret, rfl⟩⟩

/-- C8. In every reachable state with a free entity slot, `create_entity(NONE, root)`
returns an entity `e`, raises `active_entities` by exactly 1 and appends `e` to the root's
child chain; `destroy_entity(e)` then returns, brings `active_entities` back to its prior
value, restores the entity mask, and leaves the root's child chain equal to the chain
before the creation, in which `e` does not occur. -/
theorem scenario_a_round_trip (L : LaserHooks) (s : State) (h : Reachable L s)
    (hfree : ∃ i, i < ENTITY_COUNT ∧ s.entity_buffer_mask i = false) :
    ∃ s1 e l, create_entity L Entity_Type.NONE EntityPtr.root s = Res.ok s1 e ∧
      s1.active_entities = s.active_entities + 1 ∧
      Chain s (s.child_of EntityPtr.root) l ∧ e ∉ l ∧
      Chain s1 (s1.child_of EntityPtr.root) (l ++ [e]) ∧
      ∃ s2, destroy_entity L (EntityPtr.slot e) s1 = Res.ok s2 () ∧
        s2.active_entities = s.active_entities ∧
        s2.entity_buffer_mask = s.entity_buffer_mask ∧
        Chain s2 (s2.child_of EntityPtr.root) l := by
  have hI := Inv.reachable L _ s h
  obtain ⟨i0, hi0, hm0⟩ := hfree
  obtain ⟨e, s1, A, hcreate⟩ := create_none_total L 513 s EntityPtr.root hI.sound.linked
    (occupancy_lt_of_free _ i0 _ hm0 hi0) (Or.inl rfl)
  obtain ⟨l, hl, _, hmem⟩ := hI.sound.linked EntityPtr.root
  have hel : e ∉ l := by
    intro he
    have := (hmem e he).1.2
    rw [A.was_free] at this; exact absurd this (by simp)
  have hI1 : Inv (note_created s1) := hI.create_none A
  have hch1 : Chain s1 (s1.child_of EntityPtr.root) (l ++ [e]) := by
    have := A.chains EntityPtr.root l (by simp) hl
    simpa using this
  have hlk := links_note_created s1
  have hch1' : Chain (note_created s1) ((note_created s1).child_of EntityPtr.root) (l ++ [e]) := by
    rw [hlk.child_of]; exact hlk.chain hch1
  have hpar : ((note_created s1).entity_buffer e).parent = EntityPtr.root := A.parent_new
  obtain ⟨s2, R, hdestroy⟩ := destroy_plain_total L 513 (note_created s1) e hI1.sound.linked
    A.live_new A.toAllocation.none_plain (l ++ [e]) (by rw [hpar]; exact hch1') (by simp)
  refine ⟨note_created s1, e, l, hcreate, (A.alloc_counted hI.sound.counted).2, hl, hel, hch1',
    note_destroyed s2, hdestroy, ?_, ?_, ?_⟩
  · have a1 := (A.alloc_counted hI.sound.counted).2
    have a2 := (R.reclaim_counted A.live_new hI1.sound.counted).2
    simp only [note_created_active] at a2
    rw [note_destroyed_active, a2, a1]; omega
  · rw [note_destroyed_mask, R.reclaim_mask, note_created_mask, A.alloc_mask]
    exact upd_upd_clear _ _ A.was_free
  · have := R.chains EntityPtr.root (l ++ [e]) hch1'
    rw [hpar, if_pos rfl, erase_snoc l e hel] at this
    have hlk2 := links_note_destroyed s2
    rw [hlk2.child_of]; exact hlk2.chain this

/-- Witness of C8: the state `init_asteroids` leaves, where slot 3 is free. -/
theorem scenario_a_round_trip_witness :
    Reachable idle_lasers started_state ∧
    (∃ i, i < ENTITY_COUNT ∧ started_state.entity_buffer_mask i = false) ∧
    ∃ s1 e l, create_entity idle_lasers Entity_Type.NONE EntityPtr.root started_state
        = Res.ok s1 e ∧
      s1.active_entities = started_state.active_entities + 1 ∧
      Chain started_state (started_state.child_of EntityPtr.root) l ∧ e ∉ l ∧
      Chain s1 (s1.child_of EntityPtr.root) (l ++ [e]) ∧
      ∃ s2, destroy_entity idle_lasers (EntityPtr.slot e) s1 = Res.ok s2 () ∧
        s2.active_entities = started_state.active_entities ∧
        s2.entity_buffer_mask = started_state.entity_buffer_mask ∧
        Chain s2 (s2.child_of EntityPtr.root) l :=
  ⟨started_reachable, ⟨3, by decide, by decide⟩,
    scenario_a_round_trip idle_lasers started_state started_reachable
      ⟨3, by decide, by decide⟩⟩

theorem Allocation.occupancy {s s' : State} {type : Entity_Type} {parent : EntityPtr} {e : Nat}
    (A : Allocation s type parent e s') :
    occupancy s'.entity_buffer_mask ENTITY_COUNT
      = occupancy s.entity_buffer_mask ENTITY_COUNT + 1 := by
  rw [A.alloc_mask, occupancy_set _ _ A.was_free, if_pos A.slot_lt]

/-- The links after the creation of a player below a parent other than itself: the player
hangs below `parent`, both thrusters below the player, and the player's child chain is the
left thruster followed by the right one. -/
theorem PlayerCreated.family {s s1 t2 t3 s' : State} {parent : EntityPtr} {p l r : Nat}
    (C : PlayerCreated s parent p l r s1 t2 t3 s') (hp : parent ≠ EntityPtr.slot p) :
    (s'.entity_buffer p).parent = parent ∧ (s'.entity_buffer l).parent = EntityPtr.slot p ∧
    (s'.entity_buffer r).parent = EntityPtr.slot p ∧
    Chain s' (s'.child_of (EntityPtr.slot p)) [l, r] := by
  obtain ⟨hpl, hpr, hlr⟩ := C.distinct
  have k1 := links_set_ship_sprite s1 (EntityPtr.slot p)
  have k2 := (links_note_created t2).trans
    (links_set_thruster (note_created t2) (EntityPtr.slot l) (-3 / 10))
  have k3 : SameLinks t3 s' := by
    rw [C.result]
    exact ((links_note_created t3).trans
      (links_set_thruster (note_created t3) (EntityPtr.slot r) (3 / 10))).trans
      ((links_store_thrust_ids _ 0 l r).trans (links_note_created _))
  refine ⟨?_, ?_, ?_, ?_⟩
  · rw [k3.parent, C.right.parent_old p hpr, k2.parent, C.left.parent_old p hpl, k1.parent,
      C.player.parent_new]
  · rw [k3.parent, C.right.parent_old l hlr, k2.parent, C.left.parent_new]
  · rw [k3.parent, C.right.parent_new]
  · have c1 := C.player.own_chain
    rw [if_neg hp] at c1
    have c1' := k1.chain c1
    rw [← k1.child_of] at c1'
    have c2 := C.left.chains (EntityPtr.slot p) [] (by simpa using hpl) c1'
    rw [if_pos rfl] at c2
    have c2' := k2.chain c2
    rw [← k2.child_of] at c2'
    have c3 := C.right.chains (EntityPtr.slot p) _ (by simpa using hpr) c2'
    rw [if_pos rfl] at c3
    have c3' := k3.chain c3
    rw [← k3.child_of] at c3'
    simpa using c3'

/-- In a sound state, `create_entity(PLAYER, parent)` returns as soon as three entity slots
and the player payload slot are free and the parent is the root or live. -/
theorem create_player_total (L : LaserHooks) (d : Nat) (s : State) (parent : EntityPtr)
    (hG : Linked s)
    (hslots : occupancy s.entity_buffer_mask ENTITY_COUNT + 3 ≤ ENTITY_COUNT)
    (hpay : s.player_buffer_mask 0 = false)
    (hp : parent = EntityPtr.root ∨ ∃ k, parent = EntityPtr.slot k ∧ s.live k) :
    ∃ p l r s1 t2 t3 s', PlayerCreated s parent p l r s1 t2 t3 s' ∧
      parent ≠ EntityPtr.slot p ∧
      create_entity_aux L (d + 2) Entity_Type.PLAYER parent s = Res.ok s' p := by
  obtain ⟨p, hscan1⟩ := exists_free s.entity_buffer_mask ENTITY_COUNT (by omega)
  obtain ⟨s1, hret1, _⟩ := allocate_spec s Entity_Type.PLAYER parent p hG hscan1
    (check_parent_of_valid s p _ parent hp)
  have A1 := allocate_effect _ _ _ _ _ hG hret1
  have G1 := (A1.alloc_linked hG).set_ship_sprite (EntityPtr.slot p)
  have o1 := A1.toAllocation.occupancy
  have hlp : (s1.modify (EntityPtr.slot p) set_ship_sprite).live p :=
    (live_transfer (by simp) p).2 A1.live_new
  obtain ⟨l, hscan2⟩ := exists_free
    (s1.modify (EntityPtr.slot p) set_ship_sprite).entity_buffer_mask ENTITY_COUNT
    (by rw [modify_mask]; omega)
  obtain ⟨t2, hret2, _⟩ := allocate_spec _ Entity_Type.NONE (EntityPtr.slot p) l G1 hscan2
    (check_parent_of_valid _ l _ _ (Or.inr ⟨p, rfl, hlp⟩))
  have A2 := allocate_effect _ _ _ _ _ G1 hret2
  have G2 := (A2.alloc_linked G1).thruster (EntityPtr.slot l) (-3 / 10)
  have o2 := A2.toAllocation.occupancy
  rw [modify_mask] at o2
  have hlp2 : ((note_created t2).modify (EntityPtr.slot l) (set_thruster (-3 / 10))).live p :=
    (live_transfer (by simp) p).2 (A2.live_old hlp)
  obtain ⟨r, hscan3⟩ := exists_free
    ((note_created t2).modify (EntityPtr.slot l) (set_thruster (-3 / 10))).entity_buffer_mask
    ENTITY_COUNT (by rw [modify_mask, note_created_mask]; omega)
  obtain ⟨t3, hret3, _⟩ := allocate_spec _ Entity_Type.NONE (EntityPtr.slot p) r G2 hscan3
    (check_parent_of_valid _ r _ _ (Or.inr ⟨p, rfl, hlp2⟩))
  have A3 := allocate_effect _ _ _ _ _ G2 hret3
  have C : PlayerCreated s parent p l r s1 t2 t3 _ := ⟨hpay, A1, A2, A3, rfl⟩
  have hne : parent ≠ EntityPtr.slot p := by
    rcases hp with rfl | ⟨k, rfl, hk⟩
    · simp
    · intro e
      have : k = p := by simpa using e
      subst this
      have := A1.was_free
      rw [hk.2] at this; exact absurd this (by simp)
  exact ⟨p, l, r, s1, t2, t3, _, C, hne,
    (create_piloted_steps L d s _ parent p hG).2 ⟨l, r, s1, t2, t3, C⟩⟩

theorem orphan_reachable : ReachableBy idle_lasers valid_call orphan_state_4 := by
  have r1 : ReachableBy idle_lasers valid_call orphan_state_1 :=
    ReachableBy.step initial_state orphan_state_1
      (Call.create Entity_Type.NONE EntityPtr.root) ReachableBy.init
      ⟨by decide, 0, rfl⟩ (Or.inl rfl)
  have r2 : ReachableBy idle_lasers valid_call orphan_state_2 :=
    ReachableBy.step orphan_state_1 orphan_state_2
      (Call.create Entity_Type.NONE (EntityPtr.slot 0)) r1
      ⟨by decide, 1, rfl⟩ (Or.inr ⟨0, rfl, by decide⟩)
  have r3 : ReachableBy idle_lasers valid_call orphan_state_3 :=
    ReachableBy.step orphan_state_2 orphan_state_3
      (Call.destroy (EntityPtr.slot 0)) r2 rfl ⟨0, rfl, by decide⟩
  exact ReachableBy.step orphan_state_3 orphan_state_4
      (Call.create Entity_Type.NONE (EntityPtr.slot 1)) r3
      ⟨by decide, 0, rfl⟩ (Or.inr ⟨1, rfl, by decide⟩)

theorem orphan_cycle : ∀ n,
    ancestor orphan_state_4 n (EntityPtr.slot 0) ≠ EntityPtr.root ∧
    ancestor orphan_state_4 n (EntityPtr.slot 1) ≠ EntityPtr.root
  | 0 => ⟨by simp [ancestor], by simp [ancestor]⟩
  | n + 1 => by
    have h0 : orphan_state_4.parent_of (EntityPtr.slot 0) = EntityPtr.slot 1 := by decide
    have h1 : orphan_state_4.parent_of (EntityPtr.slot 1) = EntityPtr.slot 0 := by decide
    have ih := orphan_cycle n
    simp only [ancestor, h0, h1]
    exact ⟨ih.2, ih.1⟩

/-- Counterexample to C1 as stated. Calls: create A below the root (slot 0); create B
below A (slot 1); destroy A; create C below B. C is handed slot 0, which the parent link
of B still designates: following parent links from B alternates between slots 0 and 1 and
never reaches the root. -/
theorem tree_invariant_counterexample :
    ¬ ∀ (L : LaserHooks) (s : State), ReachableBy L valid_call s →
      ∀ i, s.live i → s.rooted i ∧ s.listed_once i := by
  intro h
  obtain ⟨⟨n, hn⟩, _⟩ := h idle_lasers orphan_state_4 orphan_reachable 1 (by decide)
  exact (orphan_cycle n).2 hn

theorem ancestor_transfer (s s' : State) (A : Nat → Prop)
    (hpar : ∀ j, A j → (s'.entity_buffer j).parent = (s.entity_buffer j).parent)
    (hup : ∀ j, A j → (s.entity_buffer j).parent = EntityPtr.root ∨
      ∃ k, (s.entity_buffer j).parent = EntityPtr.slot k ∧ A k) :
    ∀ n j, A j → ancestor s n (EntityPtr.slot j) = EntityPtr.root → s'.rooted j
  | 0, j, _, h => by simp [ancestor] at h
  | n + 1, j, hj, h => by
    have hstep : ∀ m, ancestor s' (m + 1) (EntityPtr.slot j)
        = ancestor s' m (s.entity_buffer j).parent := by
      intro m
      show ancestor s' m (s'.parent_of (EntityPtr.slot j)) = _
      simp only [State.parent_of, State.deref, hpar j hj]
    rcases hup j hj with hr | ⟨k, hk, hak⟩
    · exact ⟨1, by rw [hstep, hr]; rfl⟩
    · have h' : ancestor s n (EntityPtr.slot k) = EntityPtr.root := by
        have : ancestor s (n + 1) (EntityPtr.slot j) = ancestor s n (s.entity_buffer j).parent := rfl
        rw [this, hk] at h; exact h
      obtain ⟨m, hm⟩ := ancestor_transfer s s' A hpar hup n k hak h'
      exact ⟨m + 1, by rw [hstep, hk]; exact hm⟩

theorem Rooted.rooted_initial : Rooted initial_state := by
  have hdead : ∀ i, ¬ initial_state.live i := by
    intro i h
    have := h.2
    simp [initial_state] at this
  exact ⟨fun i hi => absurd hi (hdead i), fun i hi => absurd hi (hdead i),
    fun i hi => absurd hi (hdead i)⟩

/-- The tree invariant only reads links and the entity mask. -/
theorem Rooted.transfer {s t : State} (hl : SameLinks s t)
    (hm : t.entity_buffer_mask = s.entity_buffer_mask) (h : Rooted s) : Rooted t := by
  have hlive := live_transfer hm
  refine ⟨?_, ?_, ?_⟩
  · intro i hi
    rw [hl.parent]
    rcases h.up i ((hlive i).1 hi) with g | ⟨k, g1, g2⟩
    · exact Or.inl g
    · exact Or.inr ⟨k, g1, (hlive k).2 g2⟩
  · intro i hi
    obtain ⟨n, hn⟩ := h.path i ((hlive i).1 hi)
    exact ancestor_transfer s t s.live (fun j _ => hl.parent j) h.up n i ((hlive i).1 hi) hn
  · intro i hi
    obtain ⟨l, h1, h2⟩ := h.member i ((hlive i).1 hi)
    exact ⟨l, by rw [hl.parent, hl.child_of]; exact hl.chain h1, h2⟩

/-- An allocation below the root or a live entity keeps the tree invariant. -/
theorem Rooted.alloc {s s' : State} {type : Entity_Type} {parent : EntityPtr} {e : Nat}
    (A : Allocated s type parent e s') (hG : Linked s)
    (hp : parent = EntityPtr.root ∨ ∃ k, parent = EntityPtr.slot k ∧ s.live k)
    (h : Rooted s) : Rooted s' := by
  have hfree : ¬ s.live e := by
    intro he
    have := A.was_free
    rw [he.2] at this; exact absurd this (by simp)
  have hne : ∀ j, s.live j → j ≠ e := by
    rintro j hj rfl; exact hfree hj
  have hold : ∀ j, s.live j → s'.rooted j := by
    intro j hj
    obtain ⟨n, hn⟩ := h.path j hj
    exact ancestor_transfer s s' s.live (fun i hi => A.parent_old i (hne i hi)) h.up n j hj hn
  have hpe : parent ≠ EntityPtr.slot e := by
    rcases hp with rfl | ⟨k, rfl, hk⟩
    · simp
    · intro e'
      have : k = e := by simpa using e'
      exact hne k hk this
  refine ⟨?_, ?_, ?_⟩
  · intro i hi
    rcases (A.alloc_live_iff i).1 hi with rfl | g
    · rw [A.parent_new]
      rcases hp with g | ⟨k, g1, g2⟩
      · exact Or.inl g
      · exact Or.inr ⟨k, g1, A.live_old g2⟩
    · rw [A.parent_old i (hne i g)]
      rcases h.up i g with q | ⟨k, q1, q2⟩
      · exact Or.inl q
      · exact Or.inr ⟨k, q1, A.live_old q2⟩
  · intro i hi
    rcases (A.alloc_live_iff i).1 hi with rfl | g
    · have hstep : ∀ m, ancestor s' (m + 1) (EntityPtr.slot i) = ancestor s' m parent := by
        intro m
        show ancestor s' m (s'.parent_of (EntityPtr.slot i)) = _
        simp only [State.parent_of, State.deref, A.parent_new]
      rcases hp with rfl | ⟨k, rfl, hk⟩
      · exact ⟨1, by rw [hstep]; rfl⟩
      · obtain ⟨m, hm⟩ := hold k hk
        exact ⟨m + 1, by rw [hstep]; exact hm⟩
    · exact hold i g
  · intro i hi
    rcases (A.alloc_live_iff i).1 hi with rfl | g
    · obtain ⟨l, h1, _, _⟩ := hG parent
      have := A.chains parent l hpe h1
      rw [if_pos rfl] at this
      exact ⟨l ++ [i], by rw [A.parent_new]; exact this, by simp⟩
    · obtain ⟨l, h1, h2⟩ := h.member i g
      have hn : (s.entity_buffer i).parent ≠ EntityPtr.slot e := by
        rcases h.up i g with q | ⟨k, q1, q2⟩
        · rw [q]; simp
        · rw [q1]; intro e'
          have : k = e := by simpa using e'
          exact hne k q2 this
      have := A.chains _ l hn h1
      refine ⟨_, by rw [A.parent_old i (hne i g)]; exact this, ?_⟩
      split
      · exact List.mem_append_left _ h2
      · exact h2

theorem Shrinks.shrinks_trans {s t u : State} (h1 : Shrinks s t) (h2 : Shrinks t u) : Shrinks s u := by
  refine ⟨fun j hj => h1.live j (h2.live j hj), fun j => (h2.parent j).trans (h1.parent j), ?_⟩
  intro n l hl
  obtain ⟨l1, g1, g2⟩ := h1.chains n l hl
  obtain ⟨l2, k1, k2⟩ := h2.chains n l1 g1
  exact ⟨l2, k1, fun j hj hu => k2 j (g2 j hj (h2.live j hu)) hu⟩

theorem Shrinks.of_reclaimed {s sp s' : State} {e : Nat} (R : Reclaimed s sp e s') :
    Shrinks s (note_destroyed s') := by
  have hlk := links_note_destroyed s'
  refine ⟨?_, ?_, ?_⟩
  · intro j hj
    exact ((R.reclaim_live_iff j).1 ((live_transfer rfl j).1 hj)).2
  · intro j; rw [hlk.parent, R.parent]
  · intro n l hl
    refine ⟨_, by rw [hlk.child_of]; exact hlk.chain (R.chains n l hl), ?_⟩
    intro j hj hlive
    have hje : j ≠ e := ((R.reclaim_live_iff j).1 ((live_transfer rfl j).1 hlive)).1
    split
    · exact (List.mem_erase_of_ne hje).2 hj
    · exact hj

/-- Freeing entities without leaving a live entity whose parent link designates a freed
slot keeps the tree invariant. -/
theorem Rooted.shrink {s s' : State} (S : Shrinks s s')
    (htidy : ∀ j k, s'.live j → (s'.entity_buffer j).parent = EntityPtr.slot k → s.live k →
      s'.live k) (h : Rooted s) : Rooted s' := by
  have hup : ∀ j, s'.live j → (s.entity_buffer j).parent = EntityPtr.root ∨
      ∃ k, (s.entity_buffer j).parent = EntityPtr.slot k ∧ s'.live k := by
    intro j hj
    rcases h.up j (S.live j hj) with q | ⟨k, q1, q2⟩
    · exact Or.inl q
    · exact Or.inr ⟨k, q1, htidy j k hj (by rw [S.parent, q1]) q2⟩
  refine ⟨?_, ?_, ?_⟩
  · intro i hi; rw [S.parent]; exact hup i hi
  · intro i hi
    obtain ⟨n, hn⟩ := h.path i (S.live i hi)
    exact ancestor_transfer s s' s'.live (fun j _ => S.parent j) hup n i hi hn
  · intro i hi
    obtain ⟨l, h1, h2⟩ := h.member i (S.live i hi)
    obtain ⟨l', g1, g2⟩ := S.chains _ l h1
    exact ⟨l', by rw [S.parent]; exact g1, g2 i h2 hi⟩

/-- Every tidy call keeps the tree invariant. -/
theorem Rooted.rooted_step {s s' : State} {c : Call} (E : Effect s c s') (ht : tidy_call s c s')
    (hI : Inv s) (h : Rooted s) : Rooted s' := by
  obtain ⟨hv, htidy⟩ := ht
  cases E with
  | created_none parent e s1 A =>
    exact (h.alloc A hI.sound.linked hv).transfer (links_note_created s1) rfl
  | created_player parent p l r s1 t2 t3 s' C =>
    have G0 := hI.sound.linked
    have R1 := h.alloc C.player G0 hv
    have G1 := (C.player.alloc_linked G0).set_ship_sprite (EntityPtr.slot p)
    have R1' : Rooted (s1.modify (EntityPtr.slot p) set_ship_sprite) :=
      R1.transfer (links_set_ship_sprite s1 _) (by simp)
    have hlp : (s1.modify (EntityPtr.slot p) set_ship_sprite).live p :=
      (live_transfer (by simp) p).2 C.player.live_new
    have R2 := R1'.alloc C.left G1 (Or.inr ⟨p, rfl, hlp⟩)
    have G2 := (C.left.alloc_linked G1).thruster (EntityPtr.slot l) (-3 / 10)
    have R2' : Rooted ((note_created t2).modify (EntityPtr.slot l) (set_thruster (-3 / 10))) :=
      R2.transfer ((links_note_created t2).trans (links_set_thruster _ _ _)) (by simp)
    have hlp2 : ((note_created t2).modify (EntityPtr.slot l) (set_thruster (-3 / 10))).live p :=
      (live_transfer (by simp) p).2 (C.left.live_old hlp)
    have R3 := R2'.alloc C.right G2 (Or.inr ⟨p, rfl, hlp2⟩)
    rw [C.result]
    exact R3.transfer (((links_note_created t3).trans (links_set_thruster _ _ _)).trans
      ((links_store_thrust_ids _ 0 l r).trans (links_note_created _))) (by simp)
  | destroyed_plain e sp s1 hl hp R =>
    exact h.shrink (Shrinks.of_reclaimed R) htidy
  | destroyed_player p x y sx t1 sy t2 sp t3 s' hl hp D =>
    have S := ((Shrinks.of_reclaimed D.left).shrinks_trans (Shrinks.of_reclaimed D.right)).shrinks_trans
      (Shrinks.of_reclaimed D.player)
    rw [← D.result] at S
    exact h.shrink S htidy

theorem Rooted.rooted_reachable (L : LaserHooks) (s : State) (h : ReachableBy L tidy_call s) :
    Inv s ∧ Rooted s := by
  induction h with
  | init => exact ⟨Inv.initial, Rooted.rooted_initial⟩
  | step s s' c _ hc ht ih =>
    exact ⟨ih.1.step L c hc, ih.2.rooted_step (step_effect L c ih.1 hc) ht ih.1⟩

theorem started_reachable_tidy : ReachableBy idle_lasers tidy_call started_state :=
  ReachableBy.step initial_state started_state _ ReachableBy.init started_returns
    ⟨Or.inl rfl, fun _ k _ _ hk => absurd hk.2 (by simp [initial_state])⟩

/-- C1, amended. In every state reachable from the initial state by returning
`create_entity` and `destroy_entity` calls (types NONE and PLAYER) that name the root or a
live entity as parent, or a live entity to destroy, and that leave no live entity whose
parent link designates a slot the call freed, following parent links from any live entity
reaches `root_entity` in finitely many steps, and the entity occurs exactly once in the
child chain of the entity its parent link designates. -/
theorem tree_invariant_tidy (L : LaserHooks) (s : State) (h : ReachableBy L tidy_call s)
    (i : Nat) (hi : s.live i) : s.rooted i ∧ s.listed_once i := by
  obtain ⟨hI, hR⟩ := Rooted.rooted_reachable L s h
  refine ⟨hR.path i hi, ?_⟩
  obtain ⟨l, h1, h2⟩ := hR.member i hi
  obtain ⟨l0, g1, g2, _⟩ := hI.sound.linked (s.entity_buffer i).parent
  have : l = l0 := chain_unique s _ _ _ h1 g1
  subst this
  exact ⟨l, h1, List.count_eq_one_of_mem g2 h2⟩

/-- Witness of C1, amended: the right thruster in the state `init_asteroids` leaves. -/
theorem tree_invariant_tidy_witness :
    ReachableBy idle_lasers tidy_call started_state ∧ started_state.live 2 ∧
      started_state.rooted 2 ∧ started_state.listed_once 2 :=
  ⟨started_reachable_tidy, by decide,
    tree_invariant_tidy idle_lasers started_state started_reachable_tidy 2 (by decide)⟩

/-- C3, what the code does. In the state `init_asteroids` leaves, the one PLAYER payload
slot is occupied. A further `create_entity(PLAYER)` reaches no assertion: the type switch
finds no free payload slot and leaves the payload pointer `NULL`; the entity has by then
been marked live in slot 3 and linked below the root, and both counters are raised; the
create hook creates both thrusters in slots 4 and 5 and then stops on the `NULL` payload
pointer. Three entity slots have become live and `active_entities` has gone from 3 to 6. -/
theorem payload_exhaustion_leaks :
    started_state.player_buffer_mask 0 = true ∧
    (create_entity idle_lasers Entity_Type.PLAYER EntityPtr.root started_state).fault
      = some Fault.bad_pointer ∧
    started_state.entity_buffer_mask 3 = false ∧
    (create_entity idle_lasers Entity_Type.PLAYER EntityPtr.root
      started_state).state.entity_buffer_mask 3 = true ∧
    (create_entity idle_lasers Entity_Type.PLAYER EntityPtr.root
      started_state).state.entity_buffer_mask 4 = true ∧
    (create_entity idle_lasers Entity_Type.PLAYER EntityPtr.root
      started_state).state.entity_buffer_mask 5 = true ∧
    ((create_entity idle_lasers Entity_Type.PLAYER EntityPtr.root
      started_state).state.entity_buffer 3).derived = PayloadPtr.null ∧
    started_state.active_entities = 3 ∧
    (create_entity idle_lasers Entity_Type.PLAYER EntityPtr.root
      started_state).state.active_entities = 6 ∧
    Chain started_state (started_state.child_of EntityPtr.root) [0] ∧
    Chain (create_entity idle_lasers Entity_Type.PLAYER EntityPtr.root started_state).state
      ((create_entity idle_lasers Entity_Type.PLAYER EntityPtr.root
        started_state).state.child_of EntityPtr.root) [0, 3] := by
  refine ⟨by decide, by decide, by decide, by decide, by decide, by decide, by decide,
    by decide, by decide, by decide, by decide⟩

/-! ## Rejected and accepted references -/

theorem destroy_ok_dead (L : LaserHooks) (d : Nat) (s s' : State) (e : Nat)
    (h : destroy_entity_aux L d (EntityPtr.slot e) s = Res.ok s' ()) :
    s'.entity_buffer_mask e = false := by
  cases d with
  | zero => simp [destroy_entity_aux] at h
  | succ d =>
    unfold destroy_entity_aux at h
    by_cases h1 : e < ENTITY_COUNT
    · by_cases h2 : s.entity_buffer_mask e = true
      · simp only [h1, h2, not_true_eq_false, if_false] at h
        split at h
        · exact absurd h (by simp)
        · exact absurd h (by simp)
        · rename_i s1 u hk
          cases hr : reclaim e s1 with
          | fatal t f => rw [hr] at h; exact absurd h (by simp)
          | hang t => rw [hr] at h; exact absurd h (by simp)
          | ok s4 u =>
            rw [hr] at h
            injection h with h3 _
            obtain ⟨sp, R⟩ := reclaim_data s1 s4 e hr
            rw [← h3, note_destroyed_mask, R.reclaim_mask, upd_same]
      · simp [h1, h2] at h
    · simp [h1] at h

/-- C16. On a slot of the pool whose mask entry is clear, `destroy_entity` stops at the
assertion of line 174 and leaves the state as it was: whatever the hooks are, none has run
and no mask, link or counter has been written.  In particular, in the state a returning
`destroy_entity` on that slot leaves, a second `destroy_entity` on it stops at that
assertion. -/
theorem destroy_rejects_dead_slot (L : LaserHooks) (s : State) (i : Nat)
    (hi : i < ENTITY_COUNT) :
    (s.entity_buffer_mask i = false →
      destroy_entity L (EntityPtr.slot i) s = Res.fatal s (Fault.assertion 174)) ∧
    (∀ s', destroy_entity L (EntityPtr.slot i) s = Res.ok s' () →
      destroy_entity L (EntityPtr.slot i) s' = Res.fatal s' (Fault.assertion 174)) := by
  have key : ∀ t : State, t.entity_buffer_mask i = false →
      destroy_entity L (EntityPtr.slot i) t = Res.fatal t (Fault.assertion 174) := by
    intro t ht
    show destroy_entity_aux L (513 + 1) (EntityPtr.slot i) t = _
    unfold destroy_entity_aux
    simp [hi, ht]
  exact ⟨key s, fun s' h => key s' (destroy_ok_dead L _ s s' i h)⟩

/-- Witness of C16: slot 7 of the state `init_asteroids` leaves is free, and slot 1, the
left thruster, has been destroyed in `thruster_gone_state`. -/
theorem destroy_rejects_dead_slot_witness :
    started_state.entity_buffer_mask 7 = false ∧
    destroy_entity idle_lasers (EntityPtr.slot 7) started_state
      = Res.fatal started_state (Fault.assertion 174) ∧
    destroy_entity idle_lasers (EntityPtr.slot 1) started_state
      = Res.ok thruster_gone_state () ∧
    destroy_entity idle_lasers (EntityPtr.slot 1) thruster_gone_state
      = Res.fatal thruster_gone_state (Fault.assertion 174) :=
  ⟨by decide,
    (destroy_rejects_dead_slot idle_lasers started_state 7 (by decide)).1 (by decide), rfl,
    (destroy_rejects_dead_slot idle_lasers started_state 1 (by decide)).2
      thruster_gone_state rfl⟩

/-! ## Counter and mask -/

/-- C19. In every state reachable from the initial state by returning `create_entity` and
`destroy_entity` calls, `active_entities` equals the number of set entries of
`entity_buffer_mask`, and so lies between 0 and 512. -/
theorem counter_mask_agreement (L : LaserHooks) (s : State) (h : Reachable L s) :
    s.active_entities = (occupancy s.entity_buffer_mask ENTITY_COUNT : Int) ∧
    0 ≤ s.active_entities ∧ s.active_entities ≤ 512 := by
  have hc : Counted s := (Inv.reachable L _ s h).sound.counted
  have hle := occupancy_le s.entity_buffer_mask ENTITY_COUNT
  have h512 : ENTITY_COUNT = 512 := rfl
  unfold Counted at hc
  refine ⟨hc, ?_, ?_⟩
  · rw [hc]; exact Int.ofNat_nonneg _
  · rw [hc]; omega

/-- Witness of C19: the state `init_asteroids` leaves, with three live entities. -/
theorem counter_mask_agreement_witness :
    Reachable idle_lasers started_state ∧ started_state.active_entities = 3 ∧
    started_state.active_entities
      = (occupancy started_state.entity_buffer_mask ENTITY_COUNT : Int) ∧
    0 ≤ started_state.active_entities ∧ started_state.active_entities ≤ 512 :=
  ⟨started_reachable, by decide,
    counter_mask_agreement idle_lasers started_state started_reachable⟩

/-! ## Closure of the wrap-around step -/

/-- What lines 303-304 make of a first coordinate, and lines 305-306 of a second one. -/
theorem wrap_float_position_x (WL WR WB WT : ℚ) (p : FloatVector2) :
    (wrap_float_position WL WR WB WT p).x
      = if (if p.x.below WL = true then Coordinate.number WR else p.x).above WR = true
        then Coordinate.number WL
        else (if p.x.below WL = true then Coordinate.number WR else p.x) := by
  simp only [wrap_float_position]
  split_ifs <;> simp_all

theorem wrap_float_position_y (WL WR WB WT : ℚ) (p : FloatVector2) :
    (wrap_float_position WL WR WB WT p).y
      = if (if p.y.below WB = true then Coordinate.number WT else p.y).above WT = true
        then Coordinate.number WB
        else (if p.y.below WB = true then Coordinate.number WT else p.y) := by
  simp only [wrap_float_position]
  split_ifs <;> simp_all

/-- One coordinate through its two statements: a NaN stays a NaN, anything else ends
within the bounds, and the result is left as it is by the same two statements. -/
theorem wrap_coordinate_closed (low high : ℚ) (h : low ≤ high) (c : Coordinate) :
    (c = Coordinate.nan →
      (if (if c.below low = true then Coordinate.number high else c).above high = true
        then Coordinate.number low
        else (if c.below low = true then Coordinate.number high else c)) = Coordinate.nan) ∧
    (c ≠ Coordinate.nan →
      (if (if c.below low = true then Coordinate.number high else c).above high = true
        then Coordinate.number low
        else (if c.below low = true then Coordinate.number high else c)).within low high) ∧
    ∀ r, r = (if (if c.below low = true then Coordinate.number high else c).above high = true
        then Coordinate.number low
        else (if c.below low = true then Coordinate.number high else c)) →
      (if (if r.below low = true then Coordinate.number high else r).above high = true
        then Coordinate.number low
        else (if r.below low = true then Coordinate.number high else r)) = r := by
  cases c with
  | nan =>
    refine ⟨fun _ => by simp [Coordinate.below, Coordinate.above], fun hc => absurd rfl hc, ?_⟩
    intro r hr
    have : r = Coordinate.nan := by rw [hr]; simp [Coordinate.below, Coordinate.above]
    subst this
    simp [Coordinate.below, Coordinate.above]
  | pos_inf =>
    refine ⟨fun hc => by simp at hc, fun _ => ?_, ?_⟩
    · simp [Coordinate.below, Coordinate.above, Coordinate.within, h]
    · intro r hr
      have : r = Coordinate.number low := by rw [hr]; simp [Coordinate.below, Coordinate.above]
      subst this
      simp [Coordinate.below, Coordinate.above, not_lt.2 h]
  | neg_inf =>
    refine ⟨fun hc => by simp at hc, fun _ => ?_, ?_⟩
    · simp [Coordinate.below, Coordinate.above, Coordinate.within, h]
    · intro r hr
      have : r = Coordinate.number high := by rw [hr]; simp [Coordinate.below, Coordinate.above]
      subst this
      simp [Coordinate.below, Coordinate.above, not_lt.2 h]
  | number q =>
    refine ⟨fun hc => by simp at hc, fun _ => ?_, ?_⟩
    · by_cases h1 : q < low
      · simp [Coordinate.below, Coordinate.above, Coordinate.within, h1, h]
      · by_cases h2 : high < q
        · simp [Coordinate.below, Coordinate.above, Coordinate.within, h1, h2, h]
        · simp [Coordinate.below, Coordinate.above, Coordinate.within, h1, h2]
          exact ⟨not_lt.1 h1, not_lt.1 h2⟩
    · intro r hr
      by_cases h1 : q < low
      · have : r = Coordinate.number high := by
          rw [hr]; simp [Coordinate.below, Coordinate.above, h1]
        subst this
        simp [Coordinate.below, Coordinate.above, not_lt.2 h]
      · by_cases h2 : high < q
        · have : r = Coordinate.number low := by
            rw [hr]; simp [Coordinate.below, Coordinate.above, h1, h2]
          subst this
          simp [Coordinate.below, Coordinate.above, not_lt.2 h]
        · have : r = Coordinate.number q := by
            rw [hr]; simp [Coordinate.below, Coordinate.above, h1, h2]
          subst this
          simp [Coordinate.below, Coordinate.above, h1, h2]

theorem FloatVector2.eq_of_coordinates (a b : FloatVector2) (hx : a.x = b.x) (hy : a.y = b.y) :
    a = b := by
  cases a; cases b; simp_all

/-- On number coordinates the step on `float` coordinates is `wrap_position`. -/
theorem wrap_float_position_number (WL WR WB WT : ℚ) (p : Vector2) :
    wrap_float_position WL WR WB WT p.to_float = (wrap_position WL WR WB WT p).to_float := by
  refine FloatVector2.eq_of_coordinates _ _ ?_ ?_
  · rw [wrap_float_position_x]
    show _ = Coordinate.number (wrap_position WL WR WB WT p).x
    rw [wrap_position_x]
    simp only [Vector2.to_float, Coordinate.below, Coordinate.above]
    split_ifs <;> simp_all
  · rw [wrap_float_position_y]
    show _ = Coordinate.number (wrap_position WL WR WB WT p).y
    rw [wrap_position_y]
    simp only [Vector2.to_float, Coordinate.below, Coordinate.above]
    split_ifs <;> simp_all

/-- C20, the claim as stated fails.  In a world from -10 to 10 and from -8 to 8, the
position whose first coordinate is a NaN and whose second is 0 passes the four statements
unchanged: each of the comparisons of lines 303-304 is false on a NaN.  The first
coordinate of the result is the NaN, which is not between the left and the right bound. -/
theorem wrap_closure_counterexample :
    (-10 : ℚ) ≤ 10 ∧ (-8 : ℚ) ≤ 8 ∧
    Coordinate.nan.below (-10) = false ∧ Coordinate.nan.above 10 = false ∧
    wrap_float_position (-10) 10 (-8) 8 { x := Coordinate.nan, y := Coordinate.number 0 }
      = { x := Coordinate.nan, y := Coordinate.number 0 } ∧
    ¬ (wrap_float_position (-10) 10 (-8) 8
        { x := Coordinate.nan, y := Coordinate.number 0 }).x.within (-10) 10 := by
  have h : wrap_float_position (-10) 10 (-8) 8
      { x := Coordinate.nan, y := Coordinate.number 0 }
      = { x := Coordinate.nan, y := Coordinate.number 0 } := by
    refine FloatVector2.eq_of_coordinates _ _ ?_ ?_
    · rw [wrap_float_position_x]; simp [Coordinate.below, Coordinate.above]
    · rw [wrap_float_position_y]; norm_num [Coordinate.below, Coordinate.above]
  refine ⟨by norm_num, by norm_num, rfl, rfl, h, ?_⟩
  rw [h]
  simp [Coordinate.within]

/-- C20, amended.  With `WORLD_LEFT ≤ WORLD_RIGHT` and `WORLD_BOTTOM ≤ WORLD_TOP`, the
wrap-around step on `float` coordinates leaves a NaN coordinate a NaN, sends every
coordinate that is not a NaN (the infinities included) to a number within the bounds of its
axis, and, applied to its own result, changes nothing, whatever the input position. -/
theorem wrap_closure (WL WR WB WT : ℚ) (hx : WL ≤ WR) (hy : WB ≤ WT) (p : FloatVector2) :
    (p.x = Coordinate.nan → (wrap_float_position WL WR WB WT p).x = Coordinate.nan) ∧
    (p.y = Coordinate.nan → (wrap_float_position WL WR WB WT p).y = Coordinate.nan) ∧
    (p.x ≠ Coordinate.nan → (wrap_float_position WL WR WB WT p).x.within WL WR) ∧
    (p.y ≠ Coordinate.nan → (wrap_float_position WL WR WB WT p).y.within WB WT) ∧
    wrap_float_position WL WR WB WT (wrap_float_position WL WR WB WT p)
      = wrap_float_position WL WR WB WT p := by
  obtain ⟨a1, a2, a3⟩ := wrap_coordinate_closed WL WR hx p.x
  obtain ⟨b1, b2, b3⟩ := wrap_coordinate_closed WB WT hy p.y
  refine ⟨?_, ?_, ?_, ?_, FloatVector2.eq_of_coordinates _ _ ?_ ?_⟩
  · rw [wrap_float_position_x]; exact a1
  · rw [wrap_float_position_y]; exact b1
  · rw [wrap_float_position_x]; exact a2
  · rw [wrap_float_position_y]; exact b2
  · rw [wrap_float_position_x WL WR WB WT (wrap_float_position WL WR WB WT p)]
    exact a3 _ (wrap_float_position_x WL WR WB WT p)
  · rw [wrap_float_position_y WL WR WB WT (wrap_float_position WL WR WB WT p)]
    exact b3 _ (wrap_float_position_y WL WR WB WT p)

/-- Witness of the amended C20: a world whose left and right bounds coincide, and the
position (11, -infinity). -/
theorem wrap_closure_witness :
    (3 : ℚ) ≤ 3 ∧ (-8 : ℚ) ≤ 8 ∧
    Coordinate.number 11 ≠ Coordinate.nan ∧ Coordinate.neg_inf ≠ Coordinate.nan ∧
    (wrap_float_position 3 3 (-8) 8
      { x := Coordinate.number 11, y := Coordinate.neg_inf }).x.within 3 3 ∧
    (wrap_float_position 3 3 (-8) 8
      { x := Coordinate.number 11, y := Coordinate.neg_inf }).y.within (-8) 8 ∧
    wrap_float_position 3 3 (-8) 8
        (wrap_float_position 3 3 (-8) 8 { x := Coordinate.number 11, y := Coordinate.neg_inf })
      = wrap_float_position 3 3 (-8) 8 { x := Coordinate.number 11, y := Coordinate.neg_inf } := by
  have h1 : (3 : ℚ) ≤ 3 := le_refl _
  have h2 : (-8 : ℚ) ≤ 8 := by norm_num
  have h := wrap_closure 3 3 (-8) 8 h1 h2 { x := Coordinate.number 11, y := Coordinate.neg_inf }
  exact ⟨h1, h2, by simp, by simp, h.2.2.1 (by simp), h.2.2.2.1 (by simp), h.2.2.2.2⟩

/-! ## The parent assertion of `create_entity` -/

theorem allocate_dead_parent (s : State) (type : Entity_Type) (i k : Nat)
    (hscan : scan_free s.entity_buffer_mask ENTITY_COUNT 0 = some i)
    (hk : k < ENTITY_COUNT) (hdead : s.entity_buffer_mask k = false) (hki : k ≠ i) :
    allocate type (EntityPtr.slot k) s
      = Res.fatal (alloc_entity s i type) (Fault.assertion 106) := by
  unfold allocate
  rw [hscan]
  have hm : (alloc_entity s i type).entity_buffer_mask k = false := by
    show upd s.entity_buffer_mask i true k = false
    rw [upd_other _ _ hki]; exact hdead
  simp [check_parent, hk, hm]

theorem allocate_own_slot (s : State) (i : Nat)
    (hscan : scan_free s.entity_buffer_mask ENTITY_COUNT 0 = some i) :
    ∃ s', allocate Entity_Type.NONE (EntityPtr.slot i) s = Res.ok s' i ∧
      (s'.entity_buffer i).parent = EntityPtr.slot i ∧
      (s'.entity_buffer i).child = EntityPtr.slot i ∧
      (s'.entity_buffer i).create = none := by
  have hi := (scan_free_some _ _ _ _ hscan).2.1
  have hi' : i < ENTITY_COUNT := by omega
  unfold allocate
  rw [hscan]
  have hm : (alloc_entity s i Entity_Type.NONE).entity_buffer_mask i = true := by
    show upd s.entity_buffer_mask i true i = true
    exact upd_same _ _ _
  have hc : check_parent (alloc_entity s i Entity_Type.NONE) (EntityPtr.slot i) = none := by
    simp [check_parent, hi', hm]
  simp only [hc]
  have hl : link_child (alloc_entity s i Entity_Type.NONE) (EntityPtr.slot i) i
      = Res.ok ((((alloc_entity s i Entity_Type.NONE).modify (EntityPtr.slot i)
          (fun e => { e with parent := EntityPtr.slot i })).modify (EntityPtr.slot i)
          (fun e => { e with child := EntityPtr.slot i }))) () := by
    unfold link_child
    simp [State.deref, modify_entity, alloc_entity]
  rw [hl]
  refine ⟨_, rfl, ?_, ?_, ?_⟩ <;>
    simp [bump_counters, bind_type, modify_entity, alloc_entity]

/-- C18. Let `i` be the slot the scan of `create_entity` selects and `k` a slot of the pool
whose mask entry is clear when `create_entity` is called with `&entity_buffer[k]` as
parent.  For `k ≠ i` the call stops at the assertion of line 106, in the state in which slot
`i` has already been marked.  For `k = i` the mask entry of the parent has been set at line
91 before line 106 reads it: the assertion passes, and `create_entity(NONE, parent)` returns
the entity in slot `i`, whose parent link and whose child link designate that entity
itself. -/
theorem parent_assertion_after_marking (L : LaserHooks) (s : State) (type : Entity_Type)
    (i k : Nat) (hscan : scan_free s.entity_buffer_mask ENTITY_COUNT 0 = some i)
    (hk : k < ENTITY_COUNT) (hdead : s.entity_buffer_mask k = false) :
    (k ≠ i → create_entity L type (EntityPtr.slot k) s
      = Res.fatal (alloc_entity s i type) (Fault.assertion 106)) ∧
    (k = i → ∃ s', create_entity L Entity_Type.NONE (EntityPtr.slot k) s = Res.ok s' k ∧
      (s'.entity_buffer k).parent = EntityPtr.slot k ∧
      (s'.entity_buffer k).child = EntityPtr.slot k) := by
  constructor
  · intro hki
    show create_entity_aux L (513 + 1) type (EntityPtr.slot k) s = _
    unfold create_entity_aux
    rw [allocate_dead_parent s type i k hscan hk hdead hki]
  · intro hki
    subst hki
    obtain ⟨s1, h1, h2, h3, h4⟩ := allocate_own_slot s k hscan
    refine ⟨note_created s1, ?_, ?_, ?_⟩
    · show create_entity_aux L (513 + 1) Entity_Type.NONE (EntityPtr.slot k) s = _
      exact (create_none_iff L 513 s _ _ k).2 ⟨s1, h1, rfl⟩
    · rw [note_created_entities]; exact h2
    · rw [note_created_entities]; exact h3

/-- Witness of C18: in the initial state every slot is free and the scan selects slot 0;
with `&entity_buffer[5]` as parent the call stops at line 106, with `&entity_buffer[0]` it
returns slot 0 as its own parent and child. -/
theorem parent_assertion_after_marking_witness :
    scan_free initial_state.entity_buffer_mask ENTITY_COUNT 0 = some 0 ∧
    initial_state.entity_buffer_mask 5 = false ∧ initial_state.entity_buffer_mask 0 = false ∧
    create_entity idle_lasers Entity_Type.NONE (EntityPtr.slot 5) initial_state
      = Res.fatal (alloc_entity initial_state 0 Entity_Type.NONE) (Fault.assertion 106) ∧
    ∃ s', create_entity idle_lasers Entity_Type.NONE (EntityPtr.slot 0) initial_state
        = Res.ok s' 0 ∧
      (s'.entity_buffer 0).parent = EntityPtr.slot 0 ∧
      (s'.entity_buffer 0).child = EntityPtr.slot 0 :=
  ⟨by decide, by decide, by decide,
    (parent_assertion_after_marking idle_lasers initial_state Entity_Type.NONE 0 5 (by decide)
      (by decide) (by decide)).1 (by decide),
    (parent_assertion_after_marking idle_lasers initial_state Entity_Type.NONE 0 0 (by decide)
      (by decide) (by decide)).2 rfl⟩

/-! ## Append and unlink -/

theorem chain_drop (s : State) : ∀ (a c : List Nat) (p : EntityPtr),
    Chain s p (a ++ c) → ∃ q, Chain s q c
  | [], _, p, h => ⟨p, h⟩
  | _ :: a, c, _, h => chain_drop s a c _ h.2

theorem chain_nodup (s : State) : ∀ (l : List Nat) (p : EntityPtr), Chain s p l → l.Nodup
  | [], _, _ => List.nodup_nil
  | i :: l, p, h => by
    refine List.nodup_cons.2 ⟨?_, chain_nodup s l _ h.2⟩
    intro hi
    obtain ⟨a, b, hab⟩ := List.append_of_mem hi
    have h2 := h.2
    rw [hab] at h2
    obtain ⟨q, hq⟩ := chain_drop s a (i :: b) _ h2
    have hq1 : q = EntityPtr.slot i := hq.1
    have hp1 : p = EntityPtr.slot i := h.1
    rw [hq1, ← hp1] at hq
    have := chain_unique s _ _ p h hq
    have hlen := congrArg List.length this
    rw [hab] at hlen
    simp at hlen
    omega

theorem chain_last (s : State) (l : List Nat) (e : Nat) (p : EntityPtr)
    (h : Chain s p (l ++ [e])) : (s.entity_buffer e).sibling = EntityPtr.null := by
  obtain ⟨q, hq⟩ := chain_drop s l [e] p h
  exact hq.2

theorem chain_length_lt (s : State) (l : List Nat) (p : EntityPtr) (h : Chain s p l)
    (hb : ∀ j ∈ l, j < ENTITY_COUNT) : l.length < WALK_FUEL := by
  have := length_le_of_nodup l ENTITY_COUNT (chain_nodup s l p h) hb
  unfold WALK_FUEL
  omega

/-- C13. Let the child chain of `parent`, the root or a live entity, be a finite chain `l`
of live entities, and let the pool have a free slot.  Then `create_entity(NONE, parent)`
returns an entity `e` that was not in `l`; afterwards the child chain of `parent` is `l`
followed by `e`, the sibling link of `e` is `NULL`, its parent link is `parent`, and its
child link is `NULL`. -/
theorem tail_append (L : LaserHooks) (s : State) (parent : EntityPtr) (l : List Nat)
    (hp : parent = EntityPtr.root ∨ ∃ k, parent = EntityPtr.slot k ∧ s.live k)
    (hfree : ∃ i, i < ENTITY_COUNT ∧ s.entity_buffer_mask i = false)
    (hl : Chain s (s.child_of parent) l) (hlive : ∀ j ∈ l, s.live j) :
    ∃ s' e, create_entity L Entity_Type.NONE parent s = Res.ok s' e ∧ e ∉ l ∧
      Chain s' (s'.child_of parent) (l ++ [e]) ∧
      (s'.entity_buffer e).sibling = EntityPtr.null ∧
      (s'.entity_buffer e).parent = parent ∧
      (s'.entity_buffer e).child = EntityPtr.null := by
  obtain ⟨i0, hi0, hm0⟩ := hfree
  obtain ⟨e, hscan⟩ := scan_free_exists s.entity_buffer_mask ENTITY_COUNT 0 i0 (Nat.zero_le _)
    (by omega) hm0
  have hfe := (scan_free_some _ _ _ _ hscan).2.2.1
  have hel : e ∉ l := by
    intro he
    have := (hlive e he).2
    rw [hfe] at this; exact absurd this (by simp)
  have hpe : parent ≠ EntityPtr.slot e := by
    rcases hp with hp | ⟨k, hk, hkl⟩
    · rw [hp]; simp
    · rw [hk]
      intro h
      injection h with h
      subst h
      have := hkl.2
      rw [hfe] at this; exact absurd this (by simp)
  have hpn : parent ≠ EntityPtr.null := by
    rcases hp with hp | ⟨k, hk, _⟩
    · rw [hp]; simp
    · rw [hk]; simp
  have hcheck := check_parent_of_valid s e Entity_Type.NONE parent hp
  have hl1 := alloc_chain s e Entity_Type.NONE parent l hpe hl hel
  have hsib : ((alloc_entity s e Entity_Type.NONE).entity_buffer e).sibling
      = EntityPtr.null := by
    simp [alloc_entity]
  have hlen : l.length < WALK_FUEL :=
    chain_length_lt s l _ hl (fun j hj => (hlive j hj).1)
  obtain ⟨s2, hlink, _, hpar, _, _, hch, hothers⟩ :=
    link_child_spec (alloc_entity s e Entity_Type.NONE) parent e l hpn hl1
      (chain_nodup s l _ hl) hel hlen hsib
  have hown : Chain s2 (s2.child_of (EntityPtr.slot e)) [] := by
    refine hothers (EntityPtr.slot e) [] (Ne.symm hpe) ?_ (by simp)
    show (alloc_entity s e Entity_Type.NONE).child_of (EntityPtr.slot e) = EntityPtr.null
    simp [State.child_of, State.deref, alloc_entity]
  have halloc : allocate Entity_Type.NONE parent s
      = Res.ok (bump_counters (bind_type s2 e)) e := by
    unfold allocate
    rw [hscan]
    simp only [hcheck, hlink]
  have hlk : SameLinks s2 (note_created (bump_counters (bind_type s2 e))) :=
    ((bind_type_links s2 e).trans (bump_counters_links _)).trans (links_note_created _)
  refine ⟨note_created (bump_counters (bind_type s2 e)), e,
    (create_none_iff L 513 s _ parent e).2 ⟨_, halloc, rfl⟩, hel, ?_, ?_, ?_, ?_⟩
  · rw [hlk.child_of]; exact hlk.chain hch
  · exact chain_last _ l e _ (hlk.chain hch)
  · rw [hlk.parent]; exact hpar
  · rw [hlk.child]; exact hown

/-- Witness of C13: a thruster-like third child appended below the player in the state
`init_asteroids` leaves, where the player's child chain is slots 1 and 2. -/
theorem tail_append_witness :
    started_state.live 0 ∧ started_state.entity_buffer_mask 3 = false ∧
    Chain started_state (started_state.child_of (EntityPtr.slot 0)) [1, 2] ∧
    ∃ s' e, create_entity idle_lasers Entity_Type.NONE (EntityPtr.slot 0) started_state
        = Res.ok s' e ∧ e ∉ [1, 2] ∧
      Chain s' (s'.child_of (EntityPtr.slot 0)) ([1, 2] ++ [e]) ∧
      (s'.entity_buffer e).sibling = EntityPtr.null ∧
      (s'.entity_buffer e).parent = EntityPtr.slot 0 ∧
      (s'.entity_buffer e).child = EntityPtr.null :=
  ⟨by decide, by decide, by decide,
    tail_append idle_lasers started_state (EntityPtr.slot 0) [1, 2]
      (Or.inr ⟨0, rfl, by decide⟩) ⟨3, by decide, by decide⟩ (by decide) (by decide)⟩

/-- C14. Let `e` be a live entity of type NONE without destroy hook, and let the child chain
of the node its parent link designates be a finite chain `l` of live entities in which `e`
occurs.  Then `destroy_entity(e)` returns; `e` occurred once in `l`; afterwards the child
chain of that node is `l` with `e` erased, the other members in their order; the mask
entry of `e` is clear and no other entry of the entity mask has changed; and
`active_entities`, when it was above the least `int`, is less by exactly 1. -/
theorem unlink_on_free (L : LaserHooks) (s : State) (e : Nat) (l : List Nat)
    (he : s.live e) (ht : (s.entity_buffer e).type = Entity_Type.NONE)
    (hd : (s.entity_buffer e).destroy = none)
    (hl : Chain s (s.child_of (s.entity_buffer e).parent) l) (hlive : ∀ j ∈ l, s.live j)
    (hel : e ∈ l) :
    ∃ s', destroy_entity L (EntityPtr.slot e) s = Res.ok s' () ∧ l.count e = 1 ∧
      Chain s' (s'.child_of (s.entity_buffer e).parent) (l.erase e) ∧
      s'.entity_buffer_mask = upd s.entity_buffer_mask e false ∧
      s'.active_entities = wrap32 (s.active_entities - 1) ∧
      (-2147483648 < s.active_entities → s.active_entities < 2147483648 →
        s'.active_entities = s.active_entities - 1) := by
  have hnd := chain_nodup s l _ hl
  have hlen : l.length < WALK_FUEL :=
    chain_length_lt s l _ hl (fun j hj => (hlive j hj).1)
  obtain ⟨s2, hunlink, hdata, _, _, hch, _⟩ := unlink_child_spec s e l hl hnd hlen hel
  have hrec : reclaim e s = Res.ok (release_entity s2 e) () := by
    unfold reclaim
    rw [release_payload_none s e ht]
    simp only [hunlink]
  have hlk : SameLinks s2 (note_destroyed (release_entity s2 e)) :=
    (release_entity_links s2 e).trans (links_note_destroyed _)
  have hact : (note_destroyed (release_entity s2 e)).active_entities
      = wrap32 (s.active_entities - 1) := by
    show wrap32 (s2.active_entities - 1) = _
    rw [hdata.active]
  refine ⟨note_destroyed (release_entity s2 e),
    (destroy_plain_iff L 513 s _ e hd).2 ⟨he, _, hrec, rfl⟩,
    List.count_eq_one_of_mem hnd hel, ?_, ?_, hact, ?_⟩
  · rw [hlk.child_of]; exact hlk.chain hch
  · show upd s2.entity_buffer_mask e false = _
    rw [hdata.mask]
  · intro h1 h2
    rw [hact]
    exact wrap32_of_range _ (by omega) (by omega)

/-- Witness of C14: the left thruster, slot 1, head of the player's child chain in the
state `init_asteroids` leaves. -/
theorem unlink_on_free_witness :
    started_state.live 1 ∧ (started_state.entity_buffer 1).parent = EntityPtr.slot 0 ∧
    Chain started_state (started_state.child_of (EntityPtr.slot 0)) [1, 2] ∧
    ∃ s', destroy_entity idle_lasers (EntityPtr.slot 1) started_state = Res.ok s' () ∧
      [1, 2].count 1 = 1 ∧
      Chain s' (s'.child_of (started_state.entity_buffer 1).parent) ([1, 2].erase 1) ∧
      s'.entity_buffer_mask = upd started_state.entity_buffer_mask 1 false ∧
      s'.active_entities = wrap32 (started_state.active_entities - 1) ∧
      (-2147483648 < started_state.active_entities →
        started_state.active_entities < 2147483648 →
        s'.active_entities = started_state.active_entities - 1) :=
  ⟨by decide, by decide, by decide,
    unlink_on_free idle_lasers started_state 1 [1, 2] (by decide) (by decide) (by decide)
      (by decide) (by decide) (by decide)⟩

/-! ## Children of a freed entity -/

theorem unlink_child_touch (s : State) (i : Nat) (l : List Nat)
    (hl : Chain s (s.child_of (s.entity_buffer i).parent) l) (hnd : l.Nodup)
    (hlen : l.length < WALK_FUEL) (hi : i ∈ l) :
    ∃ q f, unlink_child s i = Res.ok (s.modify q f) () ∧
      (q = (s.entity_buffer i).parent ∨ ∃ prev, prev ∈ l ∧ q = EntityPtr.slot prev) := by
  generalize hpar : (s.entity_buffer i).parent = parent at hl
  have hp : parent ≠ EntityPtr.null := by
    rintro rfl
    cases l with
    | nil => simp at hi
    | cons a l => simp [State.child_of, State.deref, Chain] at hl
  obtain ⟨pe, hpe⟩ : ∃ pe, s.deref parent = some pe := by
    cases parent with
    | null => exact absurd rfl hp
    | root => exact ⟨_, rfl⟩
    | slot k => exact ⟨_, rfl⟩
  have hchild : pe.child = s.child_of parent := by simp [State.child_of, hpe]
  unfold unlink_child
  simp only [hpar, hpe]
  cases l with
  | nil => simp at hi
  | cons a l =>
    rw [← hchild] at hl
    simp only [Chain] at hl
    by_cases ha : a = i
    · subst ha
      simp only [hl.1, if_true]
      exact ⟨_, _, rfl, Or.inl rfl⟩
    · have hne : ¬ pe.child = EntityPtr.slot i := by
        rw [hl.1]; simpa using ha
      have hi' : i ∈ l := by
        rcases List.mem_cons.1 hi with e | e
        · exact absurd e.symm ha
        · exact e
      obtain ⟨prev, h1, h2, _, _⟩ := find_previous_spec s i l a pe.child WALK_FUEL
        (show pe.child = EntityPtr.slot a ∧ Chain s _ l from hl) ha hi' hnd
        (by simp at hlen; omega)
      simp only [hne, if_false, h1]
      exact ⟨_, _, rfl, Or.inr ⟨prev, h2, rfl⟩⟩

theorem scan_free_first (mask : Nat → Bool) (n e : Nat) (he : e < n) (hfree : mask e = false)
    (hfull : ∀ j, j < e → mask j = true) : scan_free mask n 0 = some e := by
  obtain ⟨k, hk⟩ := scan_free_exists mask n 0 e (Nat.zero_le _) (by omega) hfree
  obtain ⟨_, _, hk3, hk4⟩ := scan_free_some mask n 0 k hk
  rcases Nat.lt_trichotomy k e with h | h | h
  · rw [hfull k h] at hk3; exact absurd hk3 (by simp)
  · rw [hk, h]
  · rw [hk4 e (Nat.zero_le _) h] at hfree; exact absurd hfree (by simp)

/-- C15, the claim as stated fails.  In the state `create_entity(NONE, &entity_buffer[0])`
leaves when called in the initial state, the entity in slot 0 is live, of type NONE, without
destroy hook, and has a child: its child chain is slot 0, the entity itself, whose parent
link designates slot 0.  `destroy_entity` on it returns, and afterwards that child is not
live. -/
theorem cascade_counterexample :
    Reachable idle_lasers self_parent_state ∧ self_parent_state.live 0 ∧
    (self_parent_state.entity_buffer 0).type = Entity_Type.NONE ∧
    (self_parent_state.entity_buffer 0).destroy = none ∧
    Chain self_parent_state (self_parent_state.child_of (EntityPtr.slot 0)) [0] ∧
    (self_parent_state.entity_buffer 0).parent = EntityPtr.slot 0 ∧
    ∃ s', destroy_entity idle_lasers (EntityPtr.slot 0) self_parent_state = Res.ok s' () ∧
      ¬ s'.live 0 :=
  ⟨ReachableBy.step initial_state self_parent_state
      (Call.create Entity_Type.NONE (EntityPtr.slot 0)) ReachableBy.init
      ⟨by decide, 0, rfl⟩ trivial,
    by decide, by decide, by decide, by decide, by decide,
    (destroy_entity idle_lasers (EntityPtr.slot 0) self_parent_state).state, rfl, by decide⟩

/-- C15, amended.  Let `e` be a live entity of type NONE without destroy hook that occurs in
the child chain `lp`, a finite chain of live entities, of the node its parent link
designates; let its own child chain be a finite chain `lc` of live entities whose parent
link designates `e`, none of which is in `lp` (so none is `e` or a sibling of `e`) and none
of which is the node the parent link of `e` designates.  Then `destroy_entity(e)` returns,
and afterwards every member of `lc` is still live, its whole entity record (identifier,
parent, child and sibling links included) is as before, and its parent link designates the
slot of `e`, whose mask entry is now clear; that slot is the one the scan of
`create_entity` selects when no lower slot is free. -/
theorem free_does_not_cascade (L : LaserHooks) (s : State) (e : Nat) (lp lc : List Nat)
    (he : s.live e) (ht : (s.entity_buffer e).type = Entity_Type.NONE)
    (hd : (s.entity_buffer e).destroy = none)
    (hlp : Chain s (s.child_of (s.entity_buffer e).parent) lp) (hplive : ∀ j ∈ lp, s.live j)
    (hep : e ∈ lp)
    (_ : Chain s (s.child_of (EntityPtr.slot e)) lc)
    (hclive : ∀ c ∈ lc, s.live c ∧ (s.entity_buffer c).parent = EntityPtr.slot e)
    (hsib : ∀ c ∈ lc, c ∉ lp)
    (hpar : ∀ c ∈ lc, (s.entity_buffer e).parent ≠ EntityPtr.slot c) :
    ∃ s', destroy_entity L (EntityPtr.slot e) s = Res.ok s' () ∧
      s'.entity_buffer_mask e = false ∧
      (∀ c ∈ lc, s'.live c ∧ s'.entity_buffer c = s.entity_buffer c ∧
        (s'.entity_buffer c).parent = EntityPtr.slot e) ∧
      ((∀ j, j < e → s'.entity_buffer_mask j = true) →
        scan_free s'.entity_buffer_mask ENTITY_COUNT 0 = some e) := by
  have hnd := chain_nodup s lp _ hlp
  have hlen : lp.length < WALK_FUEL :=
    chain_length_lt s lp _ hlp (fun j hj => (hplive j hj).1)
  obtain ⟨q, f, hunlink, hq⟩ := unlink_child_touch s e lp hlp hnd hlen hep
  have hrec : reclaim e s = Res.ok (release_entity (s.modify q f) e) () := by
    unfold reclaim
    rw [release_payload_none s e ht]
    simp only [hunlink]
  have hmask : (note_destroyed (release_entity (s.modify q f) e)).entity_buffer_mask
      = upd s.entity_buffer_mask e false := by
    show upd (s.modify q f).entity_buffer_mask e false = _
    rw [modify_mask]
  have hme : (note_destroyed (release_entity (s.modify q f) e)).entity_buffer_mask e
      = false := by
    rw [hmask, upd_same]
  have hkeep : ∀ c ∈ lc, (note_destroyed (release_entity (s.modify q f) e)).entity_buffer c
      = s.entity_buffer c := by
    intro c hc
    show (s.modify q f).entity_buffer c = _
    rw [modify_entity, if_neg]
    rcases hq with hq | ⟨prev, hprev, hq⟩
    · rw [hq]; exact hpar c hc
    · rw [hq]
      intro h
      injection h with h
      exact hsib c hc (h ▸ hprev)
  refine ⟨note_destroyed (release_entity (s.modify q f) e),
    (destroy_plain_iff L 513 s _ e hd).2 ⟨he, _, hrec, rfl⟩, hme, ?_, ?_⟩
  · intro c hc
    refine ⟨⟨(hclive c hc).1.1, ?_⟩, hkeep c hc, ?_⟩
    · rw [hmask, upd_other _ _ (fun h : c = e => hsib c hc (by rw [h]; exact hep))]
      exact (hclive c hc).1.2
    · rw [hkeep c hc]; exact (hclive c hc).2
  · intro hfull
    exact scan_free_first _ _ e he.1 hme hfull

/-- Witness of C15: the left thruster, slot 1, with one child in slot 3, is destroyed; its
parent is the player in slot 0, whose child chain is slots 1 and 2. -/
theorem free_does_not_cascade_witness :
    nested_state.live 1 ∧ (nested_state.entity_buffer 1).parent = EntityPtr.slot 0 ∧
    Chain nested_state (nested_state.child_of (EntityPtr.slot 0)) [1, 2] ∧
    Chain nested_state (nested_state.child_of (EntityPtr.slot 1)) [3] ∧
    ∃ s', destroy_entity idle_lasers (EntityPtr.slot 1) nested_state = Res.ok s' () ∧
      s'.entity_buffer_mask 1 = false ∧
      (∀ c ∈ [3], s'.live c ∧ s'.entity_buffer c = nested_state.entity_buffer c ∧
        (s'.entity_buffer c).parent = EntityPtr.slot 1) ∧
      ((∀ j, j < 1 → s'.entity_buffer_mask j = true) →
        scan_free s'.entity_buffer_mask ENTITY_COUNT 0 = some 1) :=
  ⟨by decide, by decide, by decide, by decide,
    free_does_not_cascade idle_lasers nested_state 1 [1, 2] [3] (by decide) (by decide)
      (by decide) (by decide) (by decide) (by decide) (by decide) (by decide) (by decide)
      (by decide)⟩

/-! ## Round trip of a player -/

theorem PlayerCreated.outer_chains {s s1 t2 t3 s' : State} {parent : EntityPtr} {p l r : Nat}
    (C : PlayerCreated s parent p l r s1 t2 t3 s') (n : EntityPtr) (lst : List Nat)
    (hp : n ≠ EntityPtr.slot p) (hl : n ≠ EntityPtr.slot l) (hr : n ≠ EntityPtr.slot r)
    (h : Chain s (s.child_of n) lst) :
    Chain s' (s'.child_of n) (if n = parent then lst ++ [p] else lst) := by
  have k1 := links_set_ship_sprite s1 (EntityPtr.slot p)
  have k2 := (links_note_created t2).trans
    (links_set_thruster (note_created t2) (EntityPtr.slot l) (-3 / 10))
  have k3 : SameLinks t3 s' := by
    rw [C.result]
    exact ((links_note_created t3).trans
      (links_set_thruster (note_created t3) (EntityPtr.slot r) (3 / 10))).trans
      ((links_store_thrust_ids _ 0 l r).trans (links_note_created _))
  have c1 := C.player.chains n lst hp h
  have c1' := k1.chain c1
  rw [← k1.child_of] at c1'
  have c2 := C.left.chains n _ hl c1'
  rw [if_neg hp] at c2
  have c2' := k2.chain c2
  rw [← k2.child_of] at c2'
  have c3 := C.right.chains n _ hr c2'
  rw [if_neg hp] at c3
  have c3' := k3.chain c3
  rw [← k3.child_of] at c3'
  exact c3'

theorem scan_id_unique (s : State) (id : Int) (i : Nat) (hi : s.live i)
    (hid : (s.entity_buffer i).id = id)
    (huniq : ∀ j, s.live j → (s.entity_buffer j).id = id → j = i) :
    scan_id s id ENTITY_COUNT 0 = some i := by
  cases h : scan_id s id ENTITY_COUNT 0 with
  | none =>
    exact absurd ⟨hi.2, hid⟩ (scan_id_none s id _ _ h i (Nat.zero_le _) (by have := hi.1; omega))
  | some k =>
    obtain ⟨_, k2, k3, k4, _⟩ := scan_id_some s id _ _ _ h
    rw [huniq k ⟨by omega, k3⟩ k4]

theorem release_payload_piloted (s : State) (p : Nat) (hp : (s.entity_buffer p).piloted)
    (hm : s.player_buffer_mask 0 = true) :
    ∃ sp, release_payload s p = Res.ok sp () := by
  unfold release_payload
  rw [hp.1, hp.2.2.2]
  simp [PLAYER_COUNT, hm]

/-- In a sound state, `destroy_entity` on a live player returns as soon as both thruster
identifiers are found and the two entities found and the player each occur in the child
chain of the node their parent link designates. -/
theorem piloted_destroy_total (L : LaserHooks) (d : Nat) (s : State) (p x y : Nat)
    (hS : Sound s) (hP : Paired s) (hl : s.live p) (hp : (s.entity_buffer p).piloted)
    (hx : scan_id s (s.player_buffer 0).left_thrust_id ENTITY_COUNT 0 = some x)
    (hy : scan_id s (s.player_buffer 0).right_thrust_id ENTITY_COUNT 0 = some y)
    (mx : ∃ l, Chain s (s.child_of (s.entity_buffer x).parent) l ∧ x ∈ l)
    (my : ∃ l, Chain s (s.child_of (s.entity_buffer y).parent) l ∧ y ∈ l)
    (mp : ∃ l, Chain s (s.child_of (s.entity_buffer p).parent) l ∧ p ∈ l) :
    ∃ sx t1 sy t2 sp t3 s', PlayerDestroyed s p x y sx t1 sy t2 sp t3 s' ∧
      destroy_entity_aux L (d + 2) (EntityPtr.slot p) s = Res.ok s' () := by
  obtain ⟨hxp, hyp, hxy, hlx, hly, hpx, hpy⟩ := thrusters_plain hS hP hl hp hx hy
  -- the left thruster
  obtain ⟨lx, cx, ex⟩ := mx
  obtain ⟨t1, r1⟩ := reclaim_total s s x hS.linked (release_payload_none s x hpx.1) lx cx ex
  obtain ⟨sx, R1⟩ := reclaim_effect s t1 x hS.linked r1
  have S1 : Sound (note_destroyed t1) := (hS.reclaim_plain R1 hlx hpx).note_destroyed
  have k1 := links_note_destroyed t1
  have move1 : ∀ e, e ≠ x →
      (∃ l, Chain s (s.child_of (s.entity_buffer e).parent) l ∧ e ∈ l) →
      ∃ l, Chain (note_destroyed t1)
        ((note_destroyed t1).child_of ((note_destroyed t1).entity_buffer e).parent) l ∧
        e ∈ l := by
    rintro e hex ⟨l, cl, el⟩
    have c := k1.chain (R1.chains _ l cl)
    rw [← k1.child_of] at c
    have hpar : ((note_destroyed t1).entity_buffer e).parent = (s.entity_buffer e).parent :=
      R1.parent e
    rw [hpar]
    refine ⟨_, c, ?_⟩
    split
    · exact (List.mem_erase_of_ne hex).2 el
    · exact el
  -- the right thruster
  have hly1 : (note_destroyed t1).live y := (R1.reclaim_live_iff y).2 ⟨fun e => hxy e.symm, hly⟩
  have hlp1 : (note_destroyed t1).live p := (R1.reclaim_live_iff p).2 ⟨fun e => hxp e.symm, hl⟩
  have hpy1 : ((note_destroyed t1).entity_buffer y).plain :=
    Entity.plain_congr (R1.reclaim_core y) hpy
  have hpp1 : ((note_destroyed t1).entity_buffer p).piloted :=
    Entity.piloted_congr (R1.reclaim_core p) hp
  obtain ⟨ly, cy, ey⟩ := move1 y (fun e => hxy e.symm) my
  obtain ⟨t2, r2⟩ := reclaim_total (note_destroyed t1) _ y S1.linked
    (release_payload_none _ y hpy1.1) ly cy ey
  obtain ⟨sy, R2⟩ := reclaim_effect _ t2 y S1.linked r2
  have S2 : Sound (note_destroyed t2) := (S1.reclaim_plain R2 hly1 hpy1).note_destroyed
  have k2 := links_note_destroyed t2
  -- the player
  have hlp2 : (note_destroyed t2).live p := (R2.reclaim_live_iff p).2 ⟨fun e => hyp e.symm, hlp1⟩
  have hpp2 : ((note_destroyed t2).entity_buffer p).piloted :=
    Entity.piloted_congr (R2.reclaim_core p) hpp1
  obtain ⟨lp1, cp1, ep1⟩ := move1 p (fun e => hxp e.symm) mp
  have cp2 := k2.chain (R2.chains _ lp1 cp1)
  rw [← k2.child_of] at cp2
  have hpar2 : ((note_destroyed t2).entity_buffer p).parent
      = ((note_destroyed t1).entity_buffer p).parent := R2.parent p
  rw [← hpar2] at cp2
  have ep2 : p ∈ (if ((note_destroyed t2).entity_buffer p).parent
      = ((note_destroyed t1).entity_buffer y).parent then lp1.erase y else lp1) := by
    split
    · exact (List.mem_erase_of_ne (fun e => hyp e.symm)).2 ep1
    · exact ep1
  obtain ⟨sp, hsp⟩ := release_payload_piloted (note_destroyed t2) p hpp2
    (S2.owned.2 ⟨p, hlp2, hpp2⟩)
  obtain ⟨t3, r3⟩ := reclaim_total (note_destroyed t2) sp p S2.linked hsp _ cp2 ep2
  obtain ⟨sp', R3⟩ := reclaim_effect _ t3 p S2.linked r3
  have D : PlayerDestroyed s p x y sx t1 sy t2 sp' t3 (note_destroyed t3) :=
    ⟨hx, hy, R1, R2, R3, rfl⟩
  exact ⟨sx, t1, sy, t2, sp', t3, _, D,
    (destroy_piloted_steps L d s _ p hS hP hp).2 ⟨hl, x, y, sx, t1, sy, t2, sp', t3, D⟩⟩

theorem PlayerDestroyed.destroyed_mask {s sx t1 sy t2 sp t3 s' : State} {p x y : Nat}
    (D : PlayerDestroyed s p x y sx t1 sy t2 sp t3 s') :
    s'.entity_buffer_mask = upd (upd (upd s.entity_buffer_mask x false) y false) p false := by
  rw [D.result, note_destroyed_mask, D.player.reclaim_mask, note_destroyed_mask,
    D.right.reclaim_mask, note_destroyed_mask, D.left.reclaim_mask]

theorem PlayerDestroyed.destroyed_chains {s sx t1 sy t2 sp t3 s' : State} {p x y : Nat}
    (D : PlayerDestroyed s p x y sx t1 sy t2 sp t3 s') (n : EntityPtr) (lst : List Nat)
    (hx : n ≠ (s.entity_buffer x).parent) (hy : n ≠ (s.entity_buffer y).parent)
    (h : Chain s (s.child_of n) lst) :
    Chain s' (s'.child_of n) (if n = (s.entity_buffer p).parent then lst.erase p else lst) := by
  have k1 := links_note_destroyed t1
  have k2 := links_note_destroyed t2
  have k3 := links_note_destroyed t3
  have c1 := D.left.chains n lst h
  rw [if_neg hx] at c1
  have c1' := k1.chain c1
  rw [← k1.child_of] at c1'
  have c2 := D.right.chains n lst c1'
  have hy1 : ((note_destroyed t1).entity_buffer y).parent = (s.entity_buffer y).parent :=
    D.left.parent y
  rw [hy1, if_neg hy] at c2
  have c2' := k2.chain c2
  rw [← k2.child_of] at c2'
  have c3 := D.player.chains n lst c2'
  have hp2 : ((note_destroyed t2).entity_buffer p).parent = (s.entity_buffer p).parent :=
    (D.right.parent p).trans (D.left.parent p)
  rw [hp2] at c3
  have c3' := k3.chain c3
  rw [← k3.child_of, ← D.result] at c3'
  exact c3'

theorem PlayerDestroyed.destroyed_data {s sx t1 sy t2 sp t3 s' : State} {p x y : Nat}
    (D : PlayerDestroyed s p x y sx t1 sy t2 sp t3 s') (j : Nat) :
    (s'.entity_buffer j).data = (s.entity_buffer j).data ∧
      (s'.entity_buffer j).parent = (s.entity_buffer j).parent := by
  rw [D.result]
  exact ⟨(D.player.entities j).trans ((D.right.entities j).trans (D.left.entities j)),
    (D.player.parent j).trans ((D.right.parent j).trans (D.left.parent j))⟩

theorem PlayerCreated.created_data {s s1 t2 t3 s' : State} {parent : EntityPtr} {p l r : Nat}
    (C : PlayerCreated s parent p l r s1 t2 t3 s') (j : Nat) (hp : j ≠ p) (hl : j ≠ l)
    (hr : j ≠ r) :
    (s'.entity_buffer j).data = (s.entity_buffer j).data ∧
      (s'.entity_buffer j).parent = (s.entity_buffer j).parent := by
  have e1 : (s1.modify (EntityPtr.slot p) set_ship_sprite).entity_buffer j
      = s1.entity_buffer j := by
    rw [modify_entity, if_neg (by simpa using fun e => hp e.symm)]
  have e2 : ((note_created t2).modify (EntityPtr.slot l) (set_thruster (-3 / 10))).entity_buffer j
      = t2.entity_buffer j := by
    rw [modify_entity, if_neg (by simpa using fun e => hl e.symm)]; rfl
  have e3 : s'.entity_buffer j = t3.entity_buffer j := by
    rw [C.result]
    show ((note_created t3).modify (EntityPtr.slot r) (set_thruster (3 / 10))).entity_buffer j
      = _
    rw [modify_entity, if_neg (by simpa using fun e => hr e.symm)]; rfl
  constructor
  · rw [e3, C.right.others j hr, e2, C.left.others j hl, e1, C.player.others j hp]
  · rw [e3, C.right.parent_old j hr, e2, C.left.parent_old j hl, e1, C.player.parent_old j hp]

theorem Allocation.none_lasers {s s' : State} {parent : EntityPtr} {e : Nat}
    (A : Allocation s Entity_Type.NONE parent e s') :
    s'.laser_buffer_mask = s.laser_buffer_mask := by
  rw [A.data.laser_mask]
  simp [bump_counters, bind_type, alloc_entity]

theorem PlayerCreated.created_lasers {s s1 t2 t3 s' : State} {parent : EntityPtr} {p l r : Nat}
    (C : PlayerCreated s parent p l r s1 t2 t3 s') :
    s'.laser_buffer_mask = s.laser_buffer_mask := by
  have e1 := C.player.toAllocation.player_data.2.2.2.1
  have e2 := C.left.toAllocation.none_lasers
  have e3 := C.right.toAllocation.none_lasers
  rw [modify_laser_mask] at e2 e3
  rw [C.result]
  show ((note_created t3).modify (EntityPtr.slot r) (set_thruster (3 / 10))).laser_buffer_mask
    = _
  rw [modify_laser_mask]
  show t3.laser_buffer_mask = _
  rw [e3]
  show t2.laser_buffer_mask = _
  rw [e2, e1]

theorem PlayerDestroyed.destroyed_lasers {s sx t1 sy t2 sp t3 s' : State} {p x y : Nat}
    (D : PlayerDestroyed s p x y sx t1 sy t2 sp t3 s')
    (hx : (s.entity_buffer x).type = Entity_Type.NONE)
    (hy : (s.entity_buffer y).type = Entity_Type.NONE)
    (hp : (s.entity_buffer p).type = Entity_Type.PLAYER) :
    s'.laser_buffer_mask = s.laser_buffer_mask := by
  have e1 := (D.left.pools_of_none hx).2
  have hy1 : ((note_destroyed t1).entity_buffer y).type = Entity_Type.NONE :=
    (((Entity.core_eq_iff _ _).1 (D.left.reclaim_core y)).2.1).trans hy
  have e2 := (D.right.pools_of_none hy1).2
  have hp2 : ((note_destroyed t2).entity_buffer p).type = Entity_Type.PLAYER :=
    ((((Entity.core_eq_iff _ _).1 (D.right.reclaim_core p)).2.1).trans
      (((Entity.core_eq_iff _ _).1 (D.left.reclaim_core p)).2.1)).trans hp
  obtain ⟨_, _, _, _, _, e3⟩ := D.player.pools_of_player hp2
  rw [D.result]
  show t3.laser_buffer_mask = _
  rw [e3]
  show t2.laser_buffer_mask = _
  rw [e2]
  show t1.laser_buffer_mask = _
  rw [e1]

theorem upd_round (mask : Nat → Bool) (p l r : Nat) (hp : mask p = false)
    (hl : mask l = false) (hr : mask r = false) :
    upd (upd (upd (upd (upd (upd mask p true) l true) r true) l false) r false) p false
      = mask := by
  funext j
  simp only [upd]
  split_ifs <;> simp_all

/-! ## Entities that the link steps leave alone -/

theorem link_child_frame (s : State) (parent : EntityPtr) (i : Nat) (l : List Nat)
    (hp : parent ≠ EntityPtr.null) (hl : Chain s (s.child_of parent) l)
    (hlen : l.length < WALK_FUEL) (s2 : State) (h : link_child s parent i = Res.ok s2 ()) :
    (∀ j, j ≠ i → EntityPtr.slot j ≠ parent → j ∉ l →
      s2.entity_buffer j = s.entity_buffer j) ∧
    s2.root_entity.sibling = s.root_entity.sibling ∧
    (parent ≠ EntityPtr.root → s2.root_entity = s.root_entity) := by
  have hc1 : ∀ n, (s.modify (EntityPtr.slot i) (fun e => { e with parent := parent })).child_of n
      = s.child_of n := fun n => child_of_modify _ _ _ _ (fun _ => rfl)
  have hs1 : ∀ j, ((s.modify (EntityPtr.slot i)
      (fun e => { e with parent := parent })).entity_buffer j).sibling
      = (s.entity_buffer j).sibling := by
    intro j; rw [modify_entity]; split <;> rfl
  have he1 : ∀ j, j ≠ i → (s.modify (EntityPtr.slot i)
      (fun e => { e with parent := parent })).entity_buffer j = s.entity_buffer j := by
    intro j hj
    rw [modify_entity, if_neg (by simpa using fun e => hj e.symm)]
  have hr1 : (s.modify (EntityPtr.slot i) (fun e => { e with parent := parent })).root_entity
      = s.root_entity := by rw [modify_root]; simp
  generalize hs1def : s.modify (EntityPtr.slot i) (fun e => { e with parent := parent }) = s1
    at hc1 hs1 he1 hr1
  have hl1 : Chain s1 (s1.child_of parent) l := by
    rw [hc1]; exact chain_congr s s1 l _ (fun j _ => hs1 j) hl
  obtain ⟨pe, hpe⟩ : ∃ pe, s1.deref parent = some pe := by
    cases parent with
    | null => exact absurd rfl hp
    | root => exact ⟨_, rfl⟩
    | slot k => exact ⟨_, rfl⟩
  have hchild : pe.child = s1.child_of parent := by simp [State.child_of, hpe]
  unfold link_child at h
  simp only [hs1def, hpe] at h
  cases l with
  | nil =>
    have hnull : pe.child = EntityPtr.null := by rw [hchild]; simpa [Chain] using hl1
    simp only [hnull, ne_eq, not_true_eq_false, if_false] at h
    injection h with h _
    subst h
    refine ⟨fun j hj hjp _ => ?_, ?_, fun hpr => ?_⟩
    · rw [modify_entity, if_neg (fun e => hjp e.symm), he1 j hj]
    · rw [modify_root, ← hr1]; split <;> rfl
    · rw [modify_root, if_neg hpr, hr1]
  | cons a l =>
    have hne : pe.child ≠ EntityPtr.null := by
      rw [hchild]
      simp only [Chain] at hl1
      rw [hl1.1]; simp
    have hlast := last_sibling_spec s1 (a :: l) pe.child WALK_FUEL (by simp)
      (by rw [hchild]; exact hl1) (Nat.le_of_lt hlen)
    simp only [hne, ne_eq, not_false_eq_true, if_true, hlast] at h
    injection h with h _
    subst h
    have hlm : (a :: l).getLast (by simp) ∈ a :: l := List.getLast_mem _
    refine ⟨fun j hj _ hjl => ?_, ?_, fun _ => ?_⟩
    · rw [modify_entity, if_neg, he1 j hj]
      intro e
      have : (a :: l).getLast (by simp) = j := by simpa using e
      exact hjl (this ▸ hlm)
    · rw [modify_root, if_neg (by simp), hr1]
    · rw [modify_root, if_neg (by simp), hr1]

theorem unlink_child_frame (s : State) (i : Nat) (l : List Nat)
    (hl : Chain s (s.child_of (s.entity_buffer i).parent) l) (hnd : l.Nodup)
    (hlen : l.length < WALK_FUEL) (hi : i ∈ l) (s2 : State)
    (h : unlink_child s i = Res.ok s2 ()) :
    (∀ j, EntityPtr.slot j ≠ (s.entity_buffer i).parent → j ∉ l →
      s2.entity_buffer j = s.entity_buffer j) ∧
    s2.root_entity.sibling = s.root_entity.sibling ∧
    ((s.entity_buffer i).parent ≠ EntityPtr.root → s2.root_entity = s.root_entity) := by
  generalize hpar : (s.entity_buffer i).parent = parent at hl
  have hp : parent ≠ EntityPtr.null := by
    rintro rfl
    cases l with
    | nil => simp at hi
    | cons a l => simp [State.child_of, State.deref, Chain] at hl
  obtain ⟨pe, hpe⟩ : ∃ pe, s.deref parent = some pe := by
    cases parent with
    | null => exact absurd rfl hp
    | root => exact ⟨_, rfl⟩
    | slot k => exact ⟨_, rfl⟩
  have hchild : pe.child = s.child_of parent := by simp [State.child_of, hpe]
  unfold unlink_child at h
  simp only [hpar, hpe] at h
  cases l with
  | nil => simp at hi
  | cons a l =>
    rw [← hchild] at hl
    simp only [Chain] at hl
    by_cases ha : a = i
    · subst ha
      simp only [hl.1, if_true] at h
      injection h with h _
      subst h
      refine ⟨fun j hjp _ => ?_, ?_, fun hpr => ?_⟩
      · rw [modify_entity, if_neg (fun e => hjp e.symm)]
      · rw [modify_root]; split <;> rfl
      · rw [modify_root, if_neg hpr]
    · have hne : ¬ pe.child = EntityPtr.slot i := by
        rw [hl.1]; simpa using ha
      have hi' : i ∈ l := by
        rcases List.mem_cons.1 hi with e | e
        · exact absurd e.symm ha
        · exact e
      obtain ⟨prev, h1, h2, _, _⟩ := find_previous_spec s i l a pe.child WALK_FUEL
        (show pe.child = EntityPtr.slot a ∧ Chain s _ l from hl) ha hi' hnd
        (by simp at hlen; omega)
      simp only [hne, if_false, h1] at h
      injection h with h _
      subst h
      refine ⟨fun j _ hjl => ?_, ?_, fun _ => ?_⟩
      · rw [modify_entity, if_neg]
        intro e
        have : prev = j := by simpa using e
        exact hjl (this ▸ h2)
      · rw [modify_root, if_neg (by simp)]
      · rw [modify_root, if_neg (by simp)]

theorem allocate_frame (s s' : State) (type : Entity_Type) (parent : EntityPtr) (e : Nat)
    (l : List Nat) (h : allocate type parent s = Res.ok s' e)
    (hpe : parent ≠ EntityPtr.slot e) (hpn : parent ≠ EntityPtr.null)
    (hl : Chain s (s.child_of parent) l) (hel : e ∉ l) (hb : ∀ j ∈ l, j < ENTITY_COUNT) :
    (∀ j, j ≠ e → EntityPtr.slot j ≠ parent → j ∉ l →
      s'.entity_buffer j = s.entity_buffer j) ∧
    s'.root_entity.sibling = s.root_entity.sibling ∧
    (parent ≠ EntityPtr.root → s'.root_entity = s.root_entity) := by
  obtain ⟨hscan, hcheck⟩ := allocate_ok type parent s s' e h
  unfold allocate at h
  rw [hscan] at h
  simp only [hcheck] at h
  cases hlk : link_child (alloc_entity s e type) parent e with
  | fatal t f => rw [hlk] at h; exact absurd h (by simp)
  | hang t => rw [hlk] at h; exact absurd h (by simp)
  | ok s2 u =>
    rw [hlk] at h
    injection h with h _
    subst h
    have hl1 := alloc_chain s e type parent l hpe hl hel
    obtain ⟨f1, f2, f3⟩ := link_child_frame (alloc_entity s e type) parent e l hpn hl1
      (chain_length_lt s l _ hl hb) s2 hlk
    obtain ⟨_, _, _, _, _, b6, b7, _, _⟩ := bind_type_frame s2 e
    refine ⟨fun j hj hjp hjl => ?_, ?_, fun hpr => ?_⟩
    · show (bind_type s2 e).entity_buffer j = _
      rw [b7 j hj, f1 j hj hjp hjl]
      show upd s.entity_buffer e _ j = _
      rw [upd_other _ _ hj]
    · show (bind_type s2 e).root_entity.sibling = _
      rw [b6, f2]; rfl
    · show (bind_type s2 e).root_entity = _
      rw [b6, f3 hpr]; rfl

theorem reclaim_frame (s s' : State) (e : Nat) (l : List Nat)
    (h : reclaim e s = Res.ok s' ())
    (hl : Chain s (s.child_of (s.entity_buffer e).parent) l) (hel : e ∈ l)
    (hb : ∀ j ∈ l, j < ENTITY_COUNT) :
    (∀ j, EntityPtr.slot j ≠ (s.entity_buffer e).parent → j ∉ l →
      s'.entity_buffer j = s.entity_buffer j) ∧
    s'.root_entity.sibling = s.root_entity.sibling ∧
    ((s.entity_buffer e).parent ≠ EntityPtr.root → s'.root_entity = s.root_entity) := by
  unfold reclaim at h
  cases hrel : release_payload s e with
  | fatal t f => rw [hrel] at h; exact absurd h (by simp)
  | hang t => rw [hrel] at h; exact absurd h (by simp)
  | ok sp u =>
    rw [hrel] at h
    simp only at h
    obtain ⟨r1, r2, _⟩ := release_payload_ok s sp e hrel
    cases hun : unlink_child sp e with
    | fatal t f => rw [hun] at h; exact absurd h (by simp)
    | hang t => rw [hun] at h; exact absurd h (by simp)
    | ok s3 u =>
      rw [hun] at h
      injection h with h _
      subst h
      have hlk := links_of_buffers r1 r2
      have hl' : Chain sp (sp.child_of (sp.entity_buffer e).parent) l := by
        rw [r1, hlk.child_of]; exact hlk.chain hl
      obtain ⟨f1, f2, f3⟩ := unlink_child_frame sp e l hl' (chain_nodup s l _ hl)
        (chain_length_lt s l _ hl hb) hel s3 hun
      rw [r1] at f1 f3
      rw [r2] at f2 f3
      exact ⟨fun j hjp hjl => f1 j hjp hjl, f2, f3⟩

theorem PlayerCreated.created_frame {s s1 t2 t3 s' : State} {parent : EntityPtr} {p l r : Nat}
    (C : PlayerCreated s parent p l r s1 t2 t3 s') (hne : parent ≠ EntityPtr.slot p)
    (hpn : parent ≠ EntityPtr.null) (l0 : List Nat) (hl0 : Chain s (s.child_of parent) l0)
    (hp0 : p ∉ l0) (hb : ∀ j ∈ l0, j < ENTITY_COUNT) :
    (∀ j, j ≠ p → j ≠ l → j ≠ r → EntityPtr.slot j ≠ parent → j ∉ l0 →
      s'.entity_buffer j = s.entity_buffer j) ∧
    s'.root_entity.sibling = s.root_entity.sibling := by
  obtain ⟨hpl, hpr, hlr⟩ := C.distinct
  have k1 := links_set_ship_sprite s1 (EntityPtr.slot p)
  have k2 := (links_note_created t2).trans
    (links_set_thruster (note_created t2) (EntityPtr.slot l) (-3 / 10))
  obtain ⟨a1, a2, _⟩ := allocate_frame s s1 Entity_Type.PLAYER parent p l0 C.player.returned
    hne hpn hl0 hp0 hb
  have c1 := C.player.own_chain
  rw [if_neg hne] at c1
  have c1' := k1.chain c1
  rw [← k1.child_of] at c1'
  obtain ⟨b1, b2, _⟩ := allocate_frame _ t2 Entity_Type.NONE (EntityPtr.slot p) l []
    C.left.returned (by simpa using hpl) (by simp) c1' (by simp) (by simp)
  have c2 := C.left.chains (EntityPtr.slot p) [] (by simpa using hpl) c1'
  rw [if_pos rfl] at c2
  have c2' := k2.chain c2
  rw [← k2.child_of] at c2'
  obtain ⟨d1, d2, _⟩ := allocate_frame _ t3 Entity_Type.NONE (EntityPtr.slot p) r [l]
    C.right.returned (by simpa using hpr) (by simp) c2' (by simpa using fun e => hlr e.symm)
    (by
      intro j hj
      have : j = l := by simpa using hj
      rw [this]; exact C.left.slot_lt)
  constructor
  · intro j hjp hjl hjr hjpar hj0
    have e3 : s'.entity_buffer j = t3.entity_buffer j := by
      rw [C.result]
      show ((note_created t3).modify (EntityPtr.slot r) (set_thruster (3 / 10))).entity_buffer j
        = _
      rw [modify_entity, if_neg (by simpa using fun e => hjr e.symm)]; rfl
    have e2 : ((note_created t2).modify (EntityPtr.slot l)
        (set_thruster (-3 / 10))).entity_buffer j = t2.entity_buffer j := by
      rw [modify_entity, if_neg (by simpa using fun e => hjl e.symm)]; rfl
    have e1 : (s1.modify (EntityPtr.slot p) set_ship_sprite).entity_buffer j
        = s1.entity_buffer j := by
      rw [modify_entity, if_neg (by simpa using fun e => hjp e.symm)]
    rw [e3, d1 j hjr (by simpa using hjp) (by simpa using hjl), e2,
      b1 j hjl (by simpa using hjp) (by simp), e1, a1 j hjp hjpar hj0]
  · have e3 : s'.root_entity = t3.root_entity := by
      rw [C.result]
      show ((note_created t3).modify (EntityPtr.slot r) (set_thruster (3 / 10))).root_entity
        = _
      rw [modify_root, if_neg (by simp)]; rfl
    have e2 : ((note_created t2).modify (EntityPtr.slot l)
        (set_thruster (-3 / 10))).root_entity = t2.root_entity := by
      rw [modify_root, if_neg (by simp)]; rfl
    have e1 : (s1.modify (EntityPtr.slot p) set_ship_sprite).root_entity = s1.root_entity := by
      rw [modify_root, if_neg (by simp)]
    rw [e3, d2, e2, b2, e1, a2]

theorem PlayerDestroyed.destroyed_frame {s sx t1 sy t2 sp t3 s' : State} {p x y : Nat}
    (D : PlayerDestroyed s p x y sx t1 sy t2 sp t3 s') (hxy : x ≠ y) (hxp : x ≠ p)
    (hyp : y ≠ p) (lx ly lp : List Nat)
    (hlx : Chain s (s.child_of (s.entity_buffer x).parent) lx) (hx : x ∈ lx)
    (hly : Chain s (s.child_of (s.entity_buffer y).parent) ly) (hy : y ∈ ly)
    (hlp : Chain s (s.child_of (s.entity_buffer p).parent) lp) (hp : p ∈ lp)
    (hbx : ∀ j ∈ lx, j < ENTITY_COUNT) (hby : ∀ j ∈ ly, j < ENTITY_COUNT)
    (hbp : ∀ j ∈ lp, j < ENTITY_COUNT) :
    (∀ j, EntityPtr.slot j ≠ (s.entity_buffer x).parent → j ∉ lx →
      EntityPtr.slot j ≠ (s.entity_buffer y).parent → j ∉ ly →
      EntityPtr.slot j ≠ (s.entity_buffer p).parent → j ∉ lp →
      s'.entity_buffer j = s.entity_buffer j) ∧
    s'.root_entity.sibling = s.root_entity.sibling := by
  have k1 := links_note_destroyed t1
  have k2 := links_note_destroyed t2
  obtain ⟨a1, a2, _⟩ := reclaim_frame s t1 x lx D.left.returned hlx hx hbx
  -- the chains of the parents of `y` and `p` after the first reclamation
  have py1 : ((note_destroyed t1).entity_buffer y).parent = (s.entity_buffer y).parent :=
    D.left.parent y
  have pp1 : ((note_destroyed t1).entity_buffer p).parent = (s.entity_buffer p).parent :=
    D.left.parent p
  have cy1 := k1.chain (D.left.chains _ ly hly)
  rw [← k1.child_of, ← py1] at cy1
  have cp1 := k1.chain (D.left.chains _ lp hlp)
  rw [← k1.child_of, ← pp1] at cp1
  have sub : ∀ (c : Prop) [Decidable c] (m : List Nat) (z j : Nat),
      j ∈ (if c then m.erase z else m) → j ∈ m := by
    intro c _ m z j hj
    split at hj
    · exact List.mem_of_mem_erase hj
    · exact hj
  have keep : ∀ (c : Prop) [Decidable c] (m : List Nat) (z j : Nat), j ≠ z → j ∈ m →
      j ∈ (if c then m.erase z else m) := by
    intro c _ m z j hjz hj
    split
    · exact (List.mem_erase_of_ne hjz).2 hj
    · exact hj
  obtain ⟨b1, b2, _⟩ := reclaim_frame (note_destroyed t1) t2 y _ D.right.returned cy1
    (keep _ ly x y (fun e => hxy e.symm) hy) (fun j hj => hby j (sub _ ly x j hj))
  have pp2 : ((note_destroyed t2).entity_buffer p).parent
      = ((note_destroyed t1).entity_buffer p).parent := D.right.parent p
  have cp2 := k2.chain (D.right.chains _ _ cp1)
  rw [← k2.child_of, ← pp2] at cp2
  obtain ⟨d1, d2, _⟩ := reclaim_frame (note_destroyed t2) t3 p _ D.player.returned cp2
    (keep _ _ y p (fun e => hyp e.symm) (keep _ lp x p (fun e => hxp e.symm) hp))
    (fun j hj => hbp j (sub _ lp x j (sub _ _ y j hj)))
  constructor
  · intro j h1 h2 h3 h4 h5 h6
    rw [D.result]
    show t3.entity_buffer j = _
    rw [d1 j (by rw [pp2, pp1]; exact h5) (fun g => h6 (sub _ lp x j (sub _ _ y j g)))]
    show t2.entity_buffer j = _
    rw [b1 j (by rw [py1]; exact h3) (fun g => h4 (sub _ ly x j g))]
    show t1.entity_buffer j = _
    rw [a1 j h1 h2]
  · rw [D.result]
    show t3.root_entity.sibling = _
    rw [d2]
    show t2.root_entity.sibling = _
    rw [b2]
    show t1.root_entity.sibling = _
    rw [a2]

theorem chain_head_eq (s s' : State) (p p' : EntityPtr) (l : List Nat) (h : Chain s p l)
    (h' : Chain s' p' l) : p' = p := by
  cases l with
  | nil => exact h'.trans h.symm
  | cons a l => exact h'.1.trans h.1.symm

theorem chain_sibling_eq (s s' : State) : ∀ (l : List Nat) (p p' : EntityPtr),
    Chain s p l → Chain s' p' l → ∀ j ∈ l,
      (s'.entity_buffer j).sibling = (s.entity_buffer j).sibling
  | [], _, _, _, _, j, hj => absurd hj (by simp)
  | a :: l, _, _, h, h', j, hj => by
    rcases List.mem_cons.1 hj with e | e
    · subst e
      exact chain_head_eq s s' _ _ l h.2 h'.2
    · exact chain_sibling_eq s s' l _ _ h.2 h'.2 j e

theorem PlayerCreated.created_root {s s1 t2 t3 s' : State} {parent : EntityPtr} {p l r : Nat}
    (C : PlayerCreated s parent p l r s1 t2 t3 s') :
    s'.root_entity.data = s.root_entity.data ∧
      s'.root_entity.parent = s.root_entity.parent := by
  have e3 : s'.root_entity = t3.root_entity := by
    rw [C.result]
    show ((note_created t3).modify (EntityPtr.slot r) (set_thruster (3 / 10))).root_entity = _
    rw [modify_root, if_neg (by simp)]; rfl
  have e2 : ((note_created t2).modify (EntityPtr.slot l)
      (set_thruster (-3 / 10))).root_entity = t2.root_entity := by
    rw [modify_root, if_neg (by simp)]; rfl
  have e1 : (s1.modify (EntityPtr.slot p) set_ship_sprite).root_entity = s1.root_entity := by
    rw [modify_root, if_neg (by simp)]
  constructor
  · rw [e3, C.right.alloc_root, e2, C.left.alloc_root, e1, C.player.alloc_root]
  · rw [e3, C.right.parent_root, e2, C.left.parent_root, e1, C.player.parent_root]

theorem PlayerDestroyed.destroyed_root {s sx t1 sy t2 sp t3 s' : State} {p x y : Nat}
    (D : PlayerDestroyed s p x y sx t1 sy t2 sp t3 s') :
    s'.root_entity.data = s.root_entity.data ∧
      s'.root_entity.parent = s.root_entity.parent := by
  rw [D.result]
  exact ⟨D.player.reclaim_root.trans (D.right.reclaim_root.trans D.left.reclaim_root),
    D.player.parent_root.trans (D.right.parent_root.trans D.left.parent_root)⟩

/-! ## The round trip -/

/-- C17. Let `s` be reachable by calls that do not wrap the identifier counter, with at
least three free entity slots, a free PLAYER payload slot, and an identifier counter that
three increments do not overflow.  Then `create_entity(PLAYER, root)` returns an entity `p`;
`find_entity` resolves the two identifiers stored in its payload, to the entities `x` and
`y` of its child chain; `destroy_entity(p)` then returns, and afterwards `p`, `x` and `y`
are not live, the entity mask, the player payload mask, the laser payload mask and
`active_entities` have their values of before the creation, every node other than the three
slots has its child chain of before the creation (the root in particular), the entity
record of every other slot and that of the root are as before, and `next_entity_id` is
greater by exactly 3. -/
theorem player_round_trip (L : LaserHooks) (s : State) (h : ReachableBy L no_wrap s)
    (hslots : occupancy s.entity_buffer_mask ENTITY_COUNT + 3 ≤ ENTITY_COUNT)
    (hpay : ∃ k, k < PLAYER_COUNT ∧ s.player_buffer_mask k = false)
    (hid : s.next_entity_id + 3 < 2147483648) :
    ∃ s1 p x y, create_entity L Entity_Type.PLAYER EntityPtr.root s = Res.ok s1 p ∧
      find_entity (s1.player_buffer 0).left_thrust_id s1 = Res.ok s1 x ∧
      find_entity (s1.player_buffer 0).right_thrust_id s1 = Res.ok s1 y ∧
      (s1.entity_buffer p).derived = PayloadPtr.player 0 ∧
      Chain s1 (s1.child_of (EntityPtr.slot p)) [x, y] ∧
      s1.live p ∧ s1.live x ∧ s1.live y ∧ s1.player_buffer_mask 0 = true ∧
      ∃ s2, destroy_entity L (EntityPtr.slot p) s1 = Res.ok s2 () ∧
        ¬ s2.live p ∧ ¬ s2.live x ∧ ¬ s2.live y ∧ s2.player_buffer_mask 0 = false ∧
        s2.entity_buffer_mask = s.entity_buffer_mask ∧
        s2.player_buffer_mask = s.player_buffer_mask ∧
        s2.laser_buffer_mask = s.laser_buffer_mask ∧
        s2.active_entities = s.active_entities ∧
        (∀ n lst, n ≠ EntityPtr.slot p → n ≠ EntityPtr.slot x → n ≠ EntityPtr.slot y →
          Chain s (s.child_of n) lst → Chain s2 (s2.child_of n) lst) ∧
        (∀ j, j ≠ p → j ≠ x → j ≠ y → s2.entity_buffer j = s.entity_buffer j) ∧
        s2.root_entity = s.root_entity ∧
        s2.next_entity_id = s.next_entity_id + 3 := by
  obtain ⟨hI, hF⟩ := Fresh.fresh_reachable L s h
  have hpay0 : s.player_buffer_mask 0 = false := by
    obtain ⟨k, hk, hm⟩ := hpay
    have : k = 0 := by unfold PLAYER_COUNT at hk; omega
    subst this; exact hm
  obtain ⟨p, l, r, sa, t2, t3, s1, C, hne, hcreate⟩ :=
    create_player_total L 512 s EntityPtr.root hI.sound.linked hslots hpay0 (Or.inl rfl)
  obtain ⟨hpl, hpr, hlr⟩ := C.distinct
  have hI1 : Inv s1 := hI.create_player C
  have hnext : s1.next_entity_id = s.next_entity_id + 3 := by
    rw [C.created_next]
    have r1 := hF.range.1
    rw [wrap32_of_range (s.next_entity_id + 1) (by omega) (by omega),
      wrap32_of_range (s.next_entity_id + 1 + 1) (by omega) (by omega),
      wrap32_of_range (s.next_entity_id + 1 + 1 + 1) (by omega) (by omega)]
    omega
  have hF1 : Fresh s1 :=
    (Fresh.fresh_step (Effect.created_player EntityPtr.root p l r sa t2 t3 s1 C)
      (show s.next_entity_id ≤ s1.next_entity_id by rw [hnext]; omega) hF).1
  obtain ⟨hparp, hparl, hparr, hfam⟩ := C.family hne
  have hlive := C.created_live_iff
  have hlp : s1.live p := (hlive p).2 (Or.inl rfl)
  have hll : s1.live l := (hlive l).2 (Or.inr (Or.inl rfl))
  have hlr' : s1.live r := (hlive r).2 (Or.inr (Or.inr (Or.inl rfl)))
  obtain ⟨_, _, hpil, _, _, _, _⟩ := C.cores
  obtain ⟨hpm, hleft, hright⟩ := C.payload
  have hx : scan_id s1 (s1.player_buffer 0).left_thrust_id ENTITY_COUNT 0 = some l :=
    scan_id_unique s1 _ l hll hleft.symm
      (fun j hj e => hF1.distinct j l hj hll (e.trans hleft))
  have hy : scan_id s1 (s1.player_buffer 0).right_thrust_id ENTITY_COUNT 0 = some r :=
    scan_id_unique s1 _ r hlr' hright.symm
      (fun j hj e => hF1.distinct j r hj hlr' (e.trans hright))
  -- the root's chain before and after the creation
  obtain ⟨l0, hl0, _, hmem0⟩ := hI.sound.linked EntityPtr.root
  obtain ⟨fp, fl, fr⟩ := C.fresh_slots
  have hroot1 := C.outer_chains EntityPtr.root l0 (by simp) (by simp) (by simp) hl0
  rw [if_pos rfl] at hroot1
  obtain ⟨sx, u1, sy, u2, sp, u3, s2, D, hdestroy⟩ :=
    piloted_destroy_total L 512 s1 p l r hI1.sound hI1.paired hlp hpil hx hy
      ⟨[l, r], by rw [hparl]; exact hfam, by simp⟩
      ⟨[l, r], by rw [hparr]; exact hfam, by simp⟩
      ⟨l0 ++ [p], by rw [hparp]; exact hroot1, by simp⟩
  have hdl := D.destroyed_live_iff
  have hmp : s.entity_buffer_mask p = false := C.player.was_free
  have hml : s.entity_buffer_mask l = false := by
    have h1 := C.left.was_free
    rw [modify_mask, C.player.alloc_mask, upd_other _ _ (fun e => hpl e.symm)] at h1
    exact h1
  have hmr : s.entity_buffer_mask r = false := by
    have h1 := C.right.was_free
    rw [modify_mask, note_created_mask, C.left.alloc_mask,
      upd_other _ _ (fun e => hlr e.symm), modify_mask, C.player.alloc_mask,
      upd_other _ _ (fun e => hpr e.symm)] at h1
    exact h1
  have hsound2 := D.destroyed_sound hI1.sound hI1.paired hlp hpil
  have hp0 : p ∉ l0 := fun g => fp (hmem0 p g).1
  have hl0' : l ∉ l0 := fun g => fl (hmem0 l g).1
  have hr0 : r ∉ l0 := fun g => fr (hmem0 r g).1
  have hb0 : ∀ j ∈ l0, j < ENTITY_COUNT := fun j hj => (hmem0 j hj).1.1
  have hchains : ∀ n lst, n ≠ EntityPtr.slot p → n ≠ EntityPtr.slot l →
      n ≠ EntityPtr.slot r → Chain s (s.child_of n) lst → Chain s2 (s2.child_of n) lst := by
    intro n lst hnp hnl hnr hc
    have c1 := C.outer_chains n lst hnp hnl hnr hc
    have c2 := D.destroyed_chains n _ (by rw [hparl]; exact hnp) (by rw [hparr]; exact hnp) c1
    rw [hparp] at c2
    by_cases hroot : n = EntityPtr.root
    · rw [if_pos hroot] at c2
      simp only [hroot, if_true] at c2
      subst hroot
      have hlst : lst = l0 := chain_unique s _ _ _ hc hl0
      subst hlst
      rw [erase_snoc lst p hp0] at c2
      exact c2
    · rw [if_neg hroot] at c2
      simpa [hroot] using c2
  have hroot2 := hchains EntityPtr.root l0 (by simp) (by simp) (by simp) hl0
  have hrec : ∀ j, j ≠ p → j ≠ l → j ≠ r → s2.entity_buffer j = s.entity_buffer j := by
    intro j hjp hjl hjr
    by_cases hj0 : j ∈ l0
    · obtain ⟨d1, d2⟩ := D.destroyed_data j
      obtain ⟨c1, c2⟩ := C.created_data j hjp hjl hjr
      obtain ⟨lj, hlj, _, _⟩ := hI.sound.linked (EntityPtr.slot j)
      have hcj := hchains (EntityPtr.slot j) lj (by simpa using hjp) (by simpa using hjl)
        (by simpa using hjr) hlj
      exact Entity.eq_of_data _ _ (d1.trans c1) (d2.trans c2)
        (chain_head_eq s s2 _ _ lj hlj hcj) (chain_sibling_eq s s2 l0 _ _ hl0 hroot2 j hj0)
    · have g1 := (C.created_frame hne (by simp) l0 hl0 hp0 hb0).1 j hjp hjl hjr (by simp) hj0
      have hb1 : ∀ i ∈ [l, r], i < ENTITY_COUNT := by
        intro i hi
        rcases List.mem_cons.1 hi with e | e
        · rw [e]; exact hll.1
        · have : i = r := by simpa using e
          rw [this]; exact hlr'.1
      have g2 := (D.destroyed_frame hlr (fun e => hpl e.symm) (fun e => hpr e.symm)
        [l, r] [l, r] (l0 ++ [p]) (by rw [hparl]; exact hfam) (by simp)
        (by rw [hparr]; exact hfam) (by simp) (by rw [hparp]; exact hroot1) (by simp)
        hb1 hb1 (by
          intro i hi
          rcases List.mem_append.1 hi with e | e
          · exact hb0 i e
          · have : i = p := by simpa using e
            rw [this]; exact hlp.1)).1 j
        (by rw [hparl]; simpa using hjp) (by simp [hjl, hjr])
        (by rw [hparr]; simpa using hjp) (by simp [hjl, hjr])
        (by rw [hparp]; simp) (by simp [hj0, hjp])
      exact g2.trans g1
  have hrootrec : s2.root_entity = s.root_entity := by
    obtain ⟨d1, d2⟩ := D.destroyed_root
    obtain ⟨c1, c2⟩ := C.created_root
    have hb1 : ∀ i ∈ [l, r], i < ENTITY_COUNT := by
      intro i hi
      rcases List.mem_cons.1 hi with e | e
      · rw [e]; exact hll.1
      · have : i = r := by simpa using e
        rw [this]; exact hlr'.1
    have g1 := (C.created_frame hne (by simp) l0 hl0 hp0 hb0).2
    have g2 := (D.destroyed_frame hlr (fun e => hpl e.symm) (fun e => hpr e.symm)
      [l, r] [l, r] (l0 ++ [p]) (by rw [hparl]; exact hfam) (by simp)
      (by rw [hparr]; exact hfam) (by simp) (by rw [hparp]; exact hroot1) (by simp)
      hb1 hb1 (by
        intro i hi
        rcases List.mem_append.1 hi with e | e
        · exact hb0 i e
        · have : i = p := by simpa using e
          rw [this]; exact hlp.1)).2
    exact Entity.eq_of_data _ _ (d1.trans c1) (d2.trans c2)
      (chain_head_eq s s2 _ _ l0 hl0 hroot2) (g2.trans g1)
  refine ⟨s1, p, l, r, hcreate, (find_entity_ok _ s1 s1 l).2 ⟨rfl, hx⟩,
    (find_entity_ok _ s1 s1 r).2 ⟨rfl, hy⟩, hpil.2.2.2, hfam, hlp, hll, hlr',
    by rw [hpm]; simp, s2, hdestroy, ?_, ?_, ?_, hsound2.2.2.2.1, ?_, ?_, ?_, ?_, hchains,
    hrec, hrootrec, ?_⟩
  · exact fun g => ((hdl p).1 g).2.2.1 rfl
  · exact fun g => ((hdl l).1 g).1 rfl
  · exact fun g => ((hdl r).1 g).2.1 rfl
  · rw [D.destroyed_mask, C.created_mask]
    exact upd_round _ p l r hmp hml hmr
  · funext k
    by_cases hk : k = 0
    · subst hk; rw [hsound2.2.2.2.1, hpay0]
    · obtain ⟨k', g1, _, _, g4, _⟩ := D.player.pools_of_player
        (Entity.piloted_congr ((D.right.reclaim_core p).trans (D.left.reclaim_core p)) hpil).1
      have hk' : k' = 0 := by
        have := g1.symm.trans
          (Entity.piloted_congr ((D.right.reclaim_core p).trans (D.left.reclaim_core p))
            hpil).2.2.2
        simpa using this
      subst hk'
      have e1 := (D.left.pools_of_none (C.cores.2.2.2.2.1).1).1
      have hplain_r : ((note_destroyed u1).entity_buffer r).type = Entity_Type.NONE :=
        (Entity.plain_congr (D.left.reclaim_core r) C.cores.2.2.2.2.2.2).1
      have e2 := (D.right.pools_of_none hplain_r).1
      rw [D.result, note_destroyed_player_mask, g4, note_destroyed_player_mask, e2,
        note_destroyed_player_mask, e1, hpm, upd_other _ _ hk, upd_other _ _ hk]
  · rw [D.destroyed_lasers C.cores.2.2.2.2.1.1 C.cores.2.2.2.2.2.2.1 hpil.1, C.created_lasers]
  · have a1 := (C.created_counters hI.sound).1
    have a2 := (D.destroyed_counters hI1.sound hI1.paired hlp hpil).1
    rw [a2, a1]; omega
  · rw [D.destroyed_next, hnext]

/-- Witness of C17: the initial state, where the round trip is that of the player that
`init_asteroids` creates. -/
theorem player_round_trip_witness :
    ReachableBy idle_lasers no_wrap initial_state ∧
    occupancy initial_state.entity_buffer_mask ENTITY_COUNT + 3 ≤ ENTITY_COUNT ∧
    (∃ k, k < PLAYER_COUNT ∧ initial_state.player_buffer_mask k = false) ∧
    initial_state.next_entity_id + 3 < 2147483648 ∧
    ∃ s1 p x y,
      create_entity idle_lasers Entity_Type.PLAYER EntityPtr.root initial_state
        = Res.ok s1 p ∧
      find_entity (s1.player_buffer 0).left_thrust_id s1 = Res.ok s1 x ∧
      find_entity (s1.player_buffer 0).right_thrust_id s1 = Res.ok s1 y ∧
      (s1.entity_buffer p).derived = PayloadPtr.player 0 ∧
      Chain s1 (s1.child_of (EntityPtr.slot p)) [x, y] ∧
      s1.live p ∧ s1.live x ∧ s1.live y ∧ s1.player_buffer_mask 0 = true ∧
      ∃ s2, destroy_entity idle_lasers (EntityPtr.slot p) s1 = Res.ok s2 () ∧
        ¬ s2.live p ∧ ¬ s2.live x ∧ ¬ s2.live y ∧ s2.player_buffer_mask 0 = false ∧
        s2.entity_buffer_mask = initial_state.entity_buffer_mask ∧
        s2.player_buffer_mask = initial_state.player_buffer_mask ∧
        s2.laser_buffer_mask = initial_state.laser_buffer_mask ∧
        s2.active_entities = initial_state.active_entities ∧
        (∀ n lst, n ≠ EntityPtr.slot p → n ≠ EntityPtr.slot x → n ≠ EntityPtr.slot y →
          Chain initial_state (initial_state.child_of n) lst →
          Chain s2 (s2.child_of n) lst) ∧
        (∀ j, j ≠ p → j ≠ x → j ≠ y → s2.entity_buffer j = initial_state.entity_buffer j) ∧
        s2.root_entity = initial_state.root_entity ∧
        s2.next_entity_id = initial_state.next_entity_id + 3 :=
  have hocc : occupancy initial_state.entity_buffer_mask ENTITY_COUNT + 3 ≤ ENTITY_COUNT := by
    rw [occupancy_zero initial_state.entity_buffer_mask ENTITY_COUNT (fun _ _ => rfl)]
    decide
  ⟨ReachableBy.init, hocc, ⟨0, by decide, rfl⟩, by decide,
    player_round_trip idle_lasers initial_state ReachableBy.init hocc ⟨0, by decide, rfl⟩
      (by decide)⟩

/-! ## The hierarchy rebuild -/

@[simp] theorem set_transform_state {M : Type} (sc : Scene M) (p : EntityPtr) (m : M) :
    (sc.set_transform p m).state = sc.state := by
  cases p <;> rfl

theorem transform_of_set {M : Type} (sc : Scene M) (p q : EntityPtr) (m : M)
    (hp : p ≠ EntityPtr.null) :
    (sc.set_transform p m).transform_of q = if q = p then some m else sc.transform_of q := by
  cases p with
  | null => exact absurd rfl hp
  | root =>
    cases q with
    | null => simp [Scene.transform_of]
    | root => simp [Scene.transform_of, Scene.set_transform]
    | slot j => simp [Scene.transform_of, Scene.set_transform]
  | slot i =>
    cases q with
    | null => simp [Scene.transform_of]
    | root => simp [Scene.transform_of, Scene.set_transform]
    | slot j =>
      by_cases h : j = i
      · simp [Scene.transform_of, Scene.set_transform, h]
      · simp [Scene.transform_of, Scene.set_transform, h, upd_other]

theorem entity_transform_congr {M : Type} (ops : MatrixOps M) (sc sc' : Scene M) (e : Entity)
    (h : sc'.transform_of e.parent = sc.transform_of e.parent) :
    entity_transform ops sc' e = entity_transform ops sc e := by
  unfold entity_transform
  rw [h]

theorem Descends.descends_trans {s : State} {a b : EntityPtr} {k : Nat}
    (h1 : Descends s a k b) :
    ∀ {k' : Nat} {c : EntityPtr}, Descends s b k' c → Descends s a (k + k') c := by
  intro k' c h2
  induction h2 with
  | self => exact h1
  | child k2 m l j _ hl hj ih => exact Descends.child (k + k2) m l j ih hl hj

theorem Descends.first_step {s : State} {n : EntityPtr} (j : Nat) (l : List Nat)
    (hl : Chain s (s.child_of n) l) (hj : j ∈ l) : Descends s n 1 (EntityPtr.slot j) :=
  Descends.child 0 n l j Descends.self hl hj

theorem Descends.head {s : State} {n : EntityPtr} :
    ∀ {k : Nat} {q : EntityPtr}, Descends s n (k + 1) q →
      ∃ l j, Chain s (s.child_of n) l ∧ j ∈ l ∧ Descends s (EntityPtr.slot j) k q := by
  intro k
  induction k with
  | zero =>
    intro q h
    cases h with
    | child _ m l j hm hl hj =>
      cases hm
      exact ⟨l, j, hl, hj, Descends.self⟩
  | succ k ih =>
    intro q h
    cases h with
    | child _ m l j hm hl hj =>
      obtain ⟨l0, j0, h1, h2, h3⟩ := ih hm
      exact ⟨l0, j0, h1, h2, Descends.child k m l j h3 hl hj⟩

theorem Descends.zero_eq {s : State} {n q : EntityPtr} (h : Descends s n 0 q) : q = n := by
  cases h; rfl

theorem Descends.succ_slot {s : State} {n q : EntityPtr} {k : Nat}
    (h : Descends s n (k + 1) q) : ∃ j, q = EntityPtr.slot j := by
  cases h with
  | child _ m l j _ _ _ => exact ⟨j, rfl⟩

theorem Descends.ne_null {s : State} {n q : EntityPtr} {k : Nat} (hn : n ≠ EntityPtr.null)
    (h : Descends s n k q) : q ≠ EntityPtr.null := by
  cases h with
  | self => exact hn
  | child _ m l j _ _ _ => simp

theorem Tree.member {s : State} (T : Tree s) {k : Nat} {m : EntityPtr} {l : List Nat} {j : Nat}
    (hm : Descends s EntityPtr.root k m) (hl : Chain s (s.child_of m) l) (hj : j ∈ l) :
    j < ENTITY_COUNT ∧ (s.entity_buffer j).parent = m := by
  obtain ⟨l0, h0, h1⟩ := T.chains k m hm
  have := chain_unique s _ _ _ hl h0
  subst this
  exact h1 j hj

theorem Tree.parent_step {s : State} (T : Tree s) {k : Nat} {j : Nat}
    (h : Descends s EntityPtr.root (k + 1) (EntityPtr.slot j)) :
    Descends s EntityPtr.root k (s.entity_buffer j).parent := by
  cases h with
  | child _ m l _ hm hl hj =>
    rw [(T.member hm hl hj).2]; exact hm

theorem Tree.depth_unique {s : State} (T : Tree s) :
    ∀ {k : Nat} {n : EntityPtr}, Descends s EntityPtr.root k n →
      ∀ {k' : Nat}, Descends s EntityPtr.root k' n → k = k' := by
  intro k
  induction k with
  | zero =>
    intro n h k' h'
    have hn := h.zero_eq
    subst hn
    cases k' with
    | zero => rfl
    | succ k' =>
      obtain ⟨j, hj⟩ := h'.succ_slot
      exact absurd hj (by simp)
  | succ k ih =>
    intro n h k' h'
    obtain ⟨j, hj⟩ := h.succ_slot
    subst hj
    cases k' with
    | zero => exact absurd h'.zero_eq (by simp)
    | succ k' =>
      have := ih (T.parent_step h) (T.parent_step h')
      omega

theorem Tree.path {s : State} (T : Tree s) :
    ∀ {k : Nat} {n : EntityPtr}, Descends s EntityPtr.root k n →
      ∃ path : List Nat, path.length = k ∧ path.Nodup ∧
        ∀ j ∈ path, j < ENTITY_COUNT ∧
          ∃ k', k' ≤ k ∧ Descends s EntityPtr.root k' (EntityPtr.slot j) := by
  intro k
  induction k with
  | zero => intro n _; exact ⟨[], rfl, List.nodup_nil, by simp⟩
  | succ k ih =>
    intro n h
    obtain ⟨j, hj⟩ := h.succ_slot
    subst hj
    have hpar := T.parent_step h
    obtain ⟨path, h1, h2, h3⟩ := ih hpar
    have hlt : j < ENTITY_COUNT := by
      cases h with
      | child _ m l _ hm hl hj => exact (T.member hm hl hj).1
    refine ⟨j :: path, by simp [h1], List.nodup_cons.2 ⟨?_, h2⟩, ?_⟩
    · intro hj
      obtain ⟨_, k', hk', hd⟩ := h3 j hj
      have := T.depth_unique h hd
      omega
    · intro i hi
      rcases List.mem_cons.1 hi with e | e
      · subst e; exact ⟨hlt, k + 1, le_refl _, h⟩
      · obtain ⟨g1, k', g2, g3⟩ := h3 i e
        exact ⟨g1, k', by omega, g3⟩

theorem Tree.depth_le {s : State} (T : Tree s) {k : Nat} {n : EntityPtr}
    (h : Descends s EntityPtr.root k n) : k ≤ ENTITY_COUNT := by
  obtain ⟨path, h1, h2, h3⟩ := T.path h
  rw [← h1]
  exact length_le_of_nodup path ENTITY_COUNT h2 (fun j hj => (h3 j hj).1)

/-- In a tree, a node is below at most one of the nodes at a given distance above it. -/
theorem Tree.same_top {s : State} (T : Tree s) :
    ∀ {k : Nat} {x y q : EntityPtr} {a : Nat}, Descends s EntityPtr.root a x →
      Descends s EntityPtr.root a y → Descends s x k q → Descends s y k q → x = y := by
  intro k
  induction k with
  | zero =>
    intro x y q a _ _ h1 h2
    rw [← h1.zero_eq, ← h2.zero_eq]
  | succ k ih =>
    intro x y q a hx hy h1 h2
    cases h1 with
    | child _ m1 l1 j hm1 hl1 hj1 =>
      cases h2 with
      | child _ m2 l2 _ hm2 hl2 hj2 =>
        have p1 := (T.member (hx.descends_trans hm1) hl1 hj1).2
        have p2 := (T.member (hy.descends_trans hm2) hl2 hj2).2
        have : m1 = m2 := p1.symm.trans p2
        subst this
        exact ih hx hy hm1 hm2

/-- In a tree, no node is below two different nodes of the same depth. -/
theorem Tree.disjoint {s : State} (T : Tree s) {a k1 k2 : Nat} {x y q : EntityPtr}
    (hx : Descends s EntityPtr.root a x) (hy : Descends s EntityPtr.root a y)
    (h1 : Descends s x k1 q) (h2 : Descends s y k2 q) : x = y := by
  have := T.depth_unique (hx.descends_trans h1) (hy.descends_trans h2)
  have hk : k1 = k2 := by omega
  subst hk
  exact T.same_top hx hy h1 h2

/-- In a tree, a node of depth at most `a` is not below a node of depth `a + 1`. -/
theorem Tree.not_below {s : State} (T : Tree s) {a b k : Nat} {x q : EntityPtr}
    (hx : Descends s EntityPtr.root (a + 1) x) (hq : Descends s EntityPtr.root b q)
    (hb : b ≤ a) : ¬ Descends s x k q := by
  intro h
  have := T.depth_unique (hx.descends_trans h) hq
  omega

/-- The loop over a child chain, given that the rebuild of every child returns with the
postcondition of `build_visit`: it returns, writes only below the members of the chain, and
leaves every node at or below a member with the transform computed from the final scene. -/
theorem build_children_spec {M : Type} (ops : MatrixOps M) (s : State) (T : Tree s)
    (d a : Nat) (n : EntityPtr) (hn : Descends s EntityPtr.root a n)
    (hV : ∀ j, Descends s EntityPtr.root (a + 1) (EntityPtr.slot j) →
      ∀ sc : Scene M, sc.state = s →
        ∃ sc', build_entity_hierarchy_aux ops d (EntityPtr.slot j) sc = Built.ok sc' ∧
          sc'.state = s ∧
          (∀ q, (∀ k, ¬ Descends s (EntityPtr.slot j) k q) →
            sc'.transform_of q = sc.transform_of q) ∧
          sc'.transform_of (EntityPtr.slot j)
            = some (entity_transform ops sc (s.entity_buffer j)) ∧
          (∀ k m, Descends s (EntityPtr.slot j) (k + 1) (EntityPtr.slot m) →
            sc'.transform_of (EntityPtr.slot m)
              = some (entity_transform ops sc' (s.entity_buffer m)))) :
    ∀ (rest : List Nat) (p : EntityPtr) (f : Nat) (sc : Scene M), Chain s p rest →
      rest.length < f →
      (∀ j ∈ rest, Descends s EntityPtr.root (a + 1) (EntityPtr.slot j) ∧
        (s.entity_buffer j).parent = n) →
      rest.Nodup → sc.state = s →
      ∃ sc', build_children (build_entity_hierarchy_aux ops d) f p sc = Built.ok sc' ∧
        sc'.state = s ∧
        (∀ q, (∀ j ∈ rest, ∀ k, ¬ Descends s (EntityPtr.slot j) k q) →
          sc'.transform_of q = sc.transform_of q) ∧
        (∀ j ∈ rest, ∀ k m, Descends s (EntityPtr.slot j) k (EntityPtr.slot m) →
          sc'.transform_of (EntityPtr.slot m)
            = some (entity_transform ops sc' (s.entity_buffer m))) := by
  intro rest
  induction rest with
  | nil =>
    intro p f sc hc hf _ _ hs
    have hp : p = EntityPtr.null := hc
    cases f with
    | zero => exact absurd hf (by simp)
    | succ f =>
      refine ⟨sc, ?_, hs, fun _ _ => rfl, by simp⟩
      simp [build_children, hp]
  | cons j rest ih =>
    intro p f sc hc hf hmem hnd hs
    have hp : p = EntityPtr.slot j := hc.1
    have hrest : Chain s (s.entity_buffer j).sibling rest := hc.2
    obtain ⟨hjr, hnd'⟩ := List.nodup_cons.1 hnd
    have hj := hmem j (List.mem_cons_self _ _)
    cases f with
    | zero => exact absurd hf (by simp)
    | succ f =>
      obtain ⟨sc1, v0, v1, v2, v3, v4⟩ := hV j hj.1 sc hs
      obtain ⟨sc', l0, l1, l2, l3⟩ := ih (s.entity_buffer j).sibling f sc1 hrest
        (by simp at hf; omega) (fun i hi => hmem i (List.mem_cons_of_mem _ hi)) hnd' v1
      -- nodes at or below `j` are not below a later member of the chain
      have hsep : ∀ k q, Descends s (EntityPtr.slot j) k q →
          ∀ i ∈ rest, ∀ k', ¬ Descends s (EntityPtr.slot i) k' q := by
        intro k q hq i hi k' hq'
        have := T.disjoint hj.1 (hmem i (List.mem_cons_of_mem _ hi)).1 hq hq'
        injection this with this
        exact hjr (this ▸ hi)
      -- the parent is below no member of the chain
      have hup : ∀ i ∈ j :: rest, ∀ k, ¬ Descends s (EntityPtr.slot i) k n :=
        fun i hi k => T.not_below (hmem i hi).1 hn (le_refl _)
      have hn' : sc'.transform_of n = sc.transform_of n := by
        rw [l2 n (fun i hi => hup i (List.mem_cons_of_mem _ hi)),
          v2 n (hup j (List.mem_cons_self _ _))]
      refine ⟨sc', ?_, l1, ?_, ?_⟩
      · simp only [build_children, hp, v0, v1, State.deref]
        simpa using l0
      · intro q hq
        rw [l2 q (fun i hi => hq i (List.mem_cons_of_mem _ hi)),
          v2 q (hq j (List.mem_cons_self _ _))]
      · intro i hi k m hm
        rcases List.mem_cons.1 hi with e | e
        · subst e
          rw [l2 _ (hsep k _ hm)]
          cases k with
          | zero =>
            have := hm.zero_eq
            injection this with this
            subst this
            rw [v3]
            congr 1
            refine (entity_transform_congr ops sc sc' _ ?_).symm
            rw [hj.2]; exact hn'
          | succ k =>
            rw [v4 k m hm]
            congr 1
            refine (entity_transform_congr ops sc1 sc' _ ?_).symm
            have hroot := hj.1.descends_trans hm
            have hpar : Descends s (EntityPtr.slot i) k (s.entity_buffer m).parent := by
              cases hm with
              | child _ m1 l1 _ hm1 hl1 hj1 =>
                rw [(T.member (hj.1.descends_trans hm1) hl1 hj1).2]; exact hm1
            exact l2 _ (hsep k _ hpar)
        · exact l3 i e k m hm

/-- The rebuild of a node of a tree, with enough call depth for what is below it: it
returns, leaves the state as it is, writes no transform but those of the node and of the
nodes below it, gives the node the transform computed from the scene it started in, and
leaves every node below it with the transform computed from the final scene. -/
theorem build_visit {M : Type} (ops : MatrixOps M) (s : State) (T : Tree s) :
    ∀ (d a : Nat) (n : EntityPtr), Descends s EntityPtr.root a n →
      ENTITY_COUNT + 1 ≤ a + d → ∀ sc : Scene M, sc.state = s →
      ∃ e sc', s.deref n = some e ∧
        build_entity_hierarchy_aux ops d n sc = Built.ok sc' ∧ sc'.state = s ∧
        (∀ q, (∀ k, ¬ Descends s n k q) → sc'.transform_of q = sc.transform_of q) ∧
        sc'.transform_of n = some (entity_transform ops sc e) ∧
        (∀ k m, Descends s n (k + 1) (EntityPtr.slot m) →
          sc'.transform_of (EntityPtr.slot m)
            = some (entity_transform ops sc' (s.entity_buffer m))) := by
  intro d
  induction d with
  | zero =>
    intro a n hn hd
    have := T.depth_le hn
    omega
  | succ d ih =>
    intro a n hn hd sc hs
    have hne : n ≠ EntityPtr.null := hn.ne_null (by simp)
    obtain ⟨e, he⟩ : ∃ e, s.deref n = some e := by
      cases n with
      | null => exact absurd rfl hne
      | root => exact ⟨_, rfl⟩
      | slot i => exact ⟨_, rfl⟩
    obtain ⟨l, hl, hmem⟩ := T.chains a n hn
    have hchild : s.child_of n = e.child := by simp [State.child_of, he]
    have hV : ∀ j, Descends s EntityPtr.root (a + 1) (EntityPtr.slot j) →
        ∀ sc : Scene M, sc.state = s →
        ∃ sc', build_entity_hierarchy_aux ops d (EntityPtr.slot j) sc = Built.ok sc' ∧
          sc'.state = s ∧
          (∀ q, (∀ k, ¬ Descends s (EntityPtr.slot j) k q) →
            sc'.transform_of q = sc.transform_of q) ∧
          sc'.transform_of (EntityPtr.slot j)
            = some (entity_transform ops sc (s.entity_buffer j)) ∧
          (∀ k m, Descends s (EntityPtr.slot j) (k + 1) (EntityPtr.slot m) →
            sc'.transform_of (EntityPtr.slot m)
              = some (entity_transform ops sc' (s.entity_buffer m))) := by
      intro j hj sc0 hs0
      obtain ⟨e0, sc', g0, g1, g2, g3, g4, g5⟩ := ih (a + 1) (EntityPtr.slot j) hj (by omega)
        sc0 hs0
      have : e0 = s.entity_buffer j := by
        have : some (s.entity_buffer j) = some e0 := g0
        injection this with this
        exact this.symm
      subst this
      exact ⟨sc', g1, g2, g3, g4, g5⟩
    have hdown : ∀ j ∈ l, Descends s EntityPtr.root (a + 1) (EntityPtr.slot j) :=
      fun j hj => Descends.child a n l j hn hl hj
    obtain ⟨sc', l0, l1, l2, l3⟩ := build_children_spec ops s T d a n hn hV l e.child
      WALK_FUEL (sc.set_transform n (entity_transform ops sc e)) (hchild ▸ hl)
      (chain_length_lt s l _ hl (fun j hj => (hmem j hj).1))
      (fun j hj => ⟨hdown j hj, (hmem j hj).2⟩) (chain_nodup s l _ hl)
      (by rw [set_transform_state]; exact hs)
    refine ⟨e, sc', he, ?_, l1, ?_, ?_, ?_⟩
    · simp only [build_entity_hierarchy_aux, hs, he]
      exact l0
    · intro q hq
      rw [l2 q (fun j hj k hk => hq (1 + k) ((Descends.first_step j l hl hj).descends_trans hk)),
        transform_of_set _ _ _ _ hne, if_neg]
      intro e'
      exact hq 0 (e' ▸ Descends.self)
    · rw [l2 n (fun j hj k => T.not_below (hdown j hj) hn (le_refl _)),
        transform_of_set _ _ _ _ hne, if_pos rfl]
    · intro k m hm
      obtain ⟨l', j, g1, g2, g3⟩ := hm.head
      have := chain_unique s _ _ _ g1 hl
      subst this
      exact l3 j g2 k m g3

/-- A state with well-formed chains and a root without parent is a tree. -/
theorem Tree.of_linked {s : State} (hG : Linked s)
    (hr : s.root_entity.parent = EntityPtr.null) : Tree s := by
  refine ⟨hr, fun k n _ => ?_⟩
  obtain ⟨l, h1, _, h3⟩ := hG n
  exact ⟨l, h1, fun j hj => ⟨(h3 j hj).1.1, (h3 j hj).2⟩⟩

/-- What a rebuild from the root of a tree does: it returns and leaves the state as it
was; the root gets its local transform, every entity reached from the root the product of
its parent's final transform and its own local transform, and no other transform is
written. -/
theorem build_root_spec {M : Type} (ops : MatrixOps M) (sc : Scene M)
    (T : Tree sc.state) :
    ∃ sc', build_entity_hierarchy ops EntityPtr.root sc = Built.ok sc' ∧
      sc'.state = sc.state ∧
      sc'.root_transform = local_transform ops sc.state.root_entity ∧
      (∀ k j, Descends sc.state EntityPtr.root k (EntityPtr.slot j) →
        ∃ k' parent_transform, k = k' + 1 ∧
          Descends sc.state EntityPtr.root k' (sc.state.entity_buffer j).parent ∧
          sc'.transform_of (sc.state.entity_buffer j).parent = some parent_transform ∧
          sc'.transform j
            = ops.mul parent_transform (local_transform ops (sc.state.entity_buffer j))) ∧
      (∀ j, (∀ k, ¬ Descends sc.state EntityPtr.root k (EntityPtr.slot j)) →
        sc'.transform j = sc.transform j) := by
  have h512 : ENTITY_COUNT = 512 := rfl
  obtain ⟨e, sc', g0, g1, g2, g3, g4, g5⟩ := build_visit ops sc.state T 514 0 EntityPtr.root
    Descends.self (by omega) sc rfl
  have he : e = sc.state.root_entity := by
    have : some sc.state.root_entity = some e := g0
    injection this with this
    exact this.symm
  subst he
  refine ⟨sc', g1, g2, ?_, ?_, ?_⟩
  · have : some sc'.root_transform = some (entity_transform ops sc sc.state.root_entity) := g4
    injection this with this
    rw [this]
    simp [entity_transform, T.root_parent, Scene.transform_of]
  · intro k j hj
    cases k with
    | zero => exact absurd hj.zero_eq (by simp)
    | succ k =>
      have hpar := T.parent_step hj
      have hpn : (sc.state.entity_buffer j).parent ≠ EntityPtr.null :=
        hpar.ne_null (by simp)
      have h5 : some (sc'.transform j)
          = some (entity_transform ops sc' (sc.state.entity_buffer j)) := g5 k j hj
      injection h5 with h5
      cases hp : sc'.transform_of (sc.state.entity_buffer j).parent with
      | none =>
        cases hq : (sc.state.entity_buffer j).parent with
        | null => exact absurd hq hpn
        | root => rw [hq] at hp; simp [Scene.transform_of] at hp
        | slot i => rw [hq] at hp; simp [Scene.transform_of] at hp
      | some m =>
        refine ⟨k, m, rfl, hpar, rfl, ?_⟩
        rw [h5]
        simp [entity_transform, hp]
  · intro j hj
    have := g3 (EntityPtr.slot j) hj
    simpa [Scene.transform_of] using this

theorem started_tree : Tree started_scene.state :=
  Tree.of_linked (Inv.reachable idle_lasers _ started_state started_reachable).sound.linked
    (by decide)

/-- C12, the claim as stated fails.  In `crossed_state` the child / sibling graph reachable
from the root is a finite tree: the root's child chain is slot 0 followed by slot 1, both
live and without children, and the root has no parent.  The parent link of slot 0
designates slot 1, which the pass visits after slot 0.  Two rebuilds in succession both
return and leave the state as it is, yet the transform of slot 0 after the second differs
from its transform after the first. -/
theorem rebuild_idempotence_counterexample :
    crossed_state.root_entity.parent = EntityPtr.null ∧
    Chain crossed_state (crossed_state.child_of EntityPtr.root) [0, 1] ∧
    Chain crossed_state (crossed_state.child_of (EntityPtr.slot 0)) [] ∧
    Chain crossed_state (crossed_state.child_of (EntityPtr.slot 1)) [] ∧
    crossed_state.live 0 ∧ crossed_state.live 1 ∧
    (crossed_state.entity_buffer 0).parent = EntityPtr.slot 1 ∧
    build_entity_hierarchy path_ops EntityPtr.root crossed_scene = Built.ok crossed_scene_1 ∧
    crossed_scene_1.state = crossed_state ∧
    build_entity_hierarchy path_ops EntityPtr.root crossed_scene_1
      = Built.ok crossed_scene_2 ∧
    crossed_scene_2.state = crossed_state ∧
    crossed_scene_1.transform 0 = [({ x := 1 }, 0, 1)] ∧
    crossed_scene_2.transform 0 = [({}, 0, 1), ({ x := 2 }, 0, 1), ({ x := 1 }, 0, 1)] ∧
    crossed_scene_2.transform 0 ≠ crossed_scene_1.transform 0 :=
  ⟨by decide, by decide, by decide, by decide, by decide, by decide, by decide, rfl, rfl, rfl,
    rfl, by decide, by decide, by decide⟩

theorem Scene.eq_of_parts {M : Type} (a b : Scene M) (h1 : a.state = b.state)
    (h2 : a.root_transform = b.root_transform) (h3 : ∀ j, a.transform j = b.transform j) :
    a = b := by
  cases a; cases b
  simp only at h1 h2 h3
  subst h1 h2
  have : ∀ f g : Nat → M, (∀ j, f j = g j) → f = g := fun f g h => funext h
  rw [this _ _ h3]

/-- C12, amended.  Let the child / sibling graph reachable from `root_entity` be a finite
tree with parent links consistent with the chains.  Then
`build_entity_hierarchy(&root_entity)` returns, and run a second time on the scene it
left it returns that same scene: no transform, and nothing else, differs. -/
theorem rebuild_idempotent {M : Type} (ops : MatrixOps M) (sc : Scene M)
    (T : Tree sc.state) :
    ∃ sc', build_entity_hierarchy ops EntityPtr.root sc = Built.ok sc' ∧
      build_entity_hierarchy ops EntityPtr.root sc' = Built.ok sc' := by
  obtain ⟨sc1, a0, a1, a2, a3, _⟩ := build_root_spec ops sc T
  have T1 : Tree sc1.state := by rw [a1]; exact T
  obtain ⟨sc2, b0, b1, b2, b3, b4⟩ := build_root_spec ops sc1 T1
  rw [a1] at b2 b3 b4
  have key : ∀ k n, Descends sc.state EntityPtr.root k n →
      sc2.transform_of n = sc1.transform_of n := by
    intro k
    induction k with
    | zero =>
      intro n hn
      rw [hn.zero_eq]
      show some sc2.root_transform = some sc1.root_transform
      rw [a2, b2]
    | succ k ih =>
      intro n hn
      obtain ⟨j, hj⟩ := hn.succ_slot
      subst hj
      obtain ⟨k1, m1, e1, d1, p1, q1⟩ := a3 (k + 1) j hn
      obtain ⟨k2, m2, _, _, p2, q2⟩ := b3 (k + 1) j hn
      have hk : k1 = k := by omega
      subst hk
      have := ih _ d1
      rw [p1, p2] at this
      injection this with this
      show some (sc2.transform j) = some (sc1.transform j)
      rw [q1, q2, this]
  refine ⟨sc1, a0, ?_⟩
  rw [b0]
  congr 1
  refine Scene.eq_of_parts _ _ b1 (by rw [a2, b2]) (fun j => ?_)
  by_cases hj : ∃ k, Descends sc.state EntityPtr.root k (EntityPtr.slot j)
  · obtain ⟨k, hk⟩ := hj
    have := key k _ hk
    simpa [Scene.transform_of] using this
  · exact b4 j (fun k hk => hj ⟨k, hk⟩)

/-- Witness of the amended C12: the state `init_asteroids` leaves, with symbolic
transforms. -/
theorem rebuild_idempotent_witness :
    Tree started_scene.state ∧
    ∃ sc', build_entity_hierarchy path_ops EntityPtr.root started_scene = Built.ok sc' ∧
      build_entity_hierarchy path_ops EntityPtr.root sc' = Built.ok sc' :=
  ⟨started_tree, rebuild_idempotent path_ops started_scene started_tree⟩

end Asteroids
